import Mathlib

/-!
# strptime_with_tz (lib/timeutils/strptime-tz.c)

A shallow embedding of the format-directive driven timestamp parser.

Conventions of the embedding.

* A C string is a `List Nat` of byte values; the byte read at an index at or
  after the end of the list is the terminating NUL (`0`).
* A cursor (`bp`, `buf` in `conv_num`) is an index into the subject string, so
  a cursor that runs past the terminator stays visible.
* `int` and `long` values are `Int`; the C operators `/` and `%` truncate
  towards zero and are `Int.tdiv` and `Int.tmod`.  Overflow of `int`, which is
  undefined in C, is not modelled: `int` arithmetic is exact.  Overflow of the
  signed 64-bit `time_t` of `%s` is modelled (`sse_loop`).
* `_uint` values in `conv_num` are `Nat`; every caller passes a bound of at most
  9999, so the 32-bit range is never left.
* `strptime_with_tz` returns `Except Err Result`: `Err.null` is the C `NULL`
  result, `Err.undefined` marks undefined behaviour: a subscript outside a row
  of `start_of_month`, or signed overflow of the `time_t` of `%s`.
* A conversion that sets the cursor to `NULL` and goes on to `continue` ends
  the loop, and the derivation pass still runs before `NULL` is returned; the
  loop `go` follows that path too.  Inside the embedding a call that returns
  `NULL` hands back the outputs it leaves (`Fail.null`), because the caller
  of a nested call goes on with them.
* `isspace`, `isdigit` and `strncasecmp` are those of the C locale.
-/

namespace StrptimeTz

/-! ## Data model -/

/-- The fields of `struct tm` that the parser touches. -/
structure Tm where
  tm_sec : Int
  tm_min : Int
  tm_hour : Int
  tm_mday : Int
  tm_mon : Int
  tm_year : Int
  tm_wday : Int
  tm_yday : Int
  tm_isdst : Int
  deriving DecidableEq, Repr

/-- Why a call produced no position. -/
inductive Err where
  /-- The C function returned `NULL`. -/
  | null
  /-- The call ran into undefined behaviour: a read outside a row of `start_of_month`, or
  an overflow of the signed `time_t` of `%s`. -/
  | undefined
  /-- The nesting budget of the embedding was exhausted (never happens from depth 2 on). -/
  | nesting
  deriving DecidableEq, Repr

/-- How a call ends without a position, as its caller sees it. -/
inductive Fail where
  /-- The call returned `NULL`; the three outputs are left as given here. -/
  | null (tm : Tm) (tm_gmtoff : Int) (tm_zone : List Nat)
  /-- Undefined behaviour, as in `Err.undefined`. -/
  | undefined
  /-- The nesting budget was exhausted, as in `Err.nesting`. -/
  | nesting
  deriving DecidableEq, Repr

/-- What the caller of `strptime_with_tz` gets to know of a call without a position. -/
@[simp]
def Fail.err : Fail → Err
  | .null _ _ _ => .null
  | .undefined => .undefined
  | .nesting => .nesting

deriving instance DecidableEq for Except

/-- What a successful call leaves behind: the returned position and the three outputs. -/
structure Result where
  bp : Nat
  tm : Tm
  tm_gmtoff : Int
  tm_zone : List Nat
  deriving DecidableEq, Repr

/-- The process-wide collaborators: `tzname`, `timezone` (present only when
`SYSLOG_NG_HAVE_TIMEZONE` is defined) and `cached_localtime`. -/
structure Env where
  tzname0 : List Nat
  tzname1 : List Nat
  have_timezone : Bool
  timezone : Int
  cached_localtime : Nat → Tm

/-- The local variables of one invocation together with the cursor and the outputs. -/
structure St where
  bp : Nat
  tm : Tm
  tm_gmtoff : Int
  tm_zone : List Nat
  split_year : Bool
  state : Nat
  day_offset : Int
  week_offset : Int

/-- How a `case` of the switch leaves without a cursor. -/
inductive Halt where
  /-- Through `return NULL`, with the variables as given (the cursor apart). -/
  | ret (st : St)
  /-- Through `continue` after a conversion function has set the cursor to `NULL`, with
  the variables as given (the cursor apart): the loop ends and the derivation pass runs. -/
  | null (st : St)
  /-- Undefined behaviour: overflow of the signed `time_t` of `%s`. -/
  | undefined

/-- The outputs that `return NULL` leaves behind. -/
@[simp]
def St.fail (st : St) : Fail := .null st.tm st.tm_gmtoff st.tm_zone

/-- The byte values of a string literal. -/
def bytes (s : String) : List Nat := s.toList.map Char.toNat

/-- The byte under the cursor, `*bp`. -/
def peek (buf : List Nat) (bp : Nat) : Nat := buf.getD bp 0

/-! ## ctype helpers (C locale) -/

def isspace (c : Nat) : Bool := c == 32 || (9 ≤ c && c ≤ 13)

def isdigit (c : Nat) : Bool := 48 ≤ c && c ≤ 57

def tolower (c : Nat) : Nat := if 65 ≤ c ∧ c ≤ 90 then c + 32 else c

/-- The loop `while (p(*bp)) bp++`, run over the text from the cursor on. -/
def skip_while (p : Nat → Bool) : List Nat → Nat → Nat
  | [], bp => bp
  | ch :: rest, bp => if p ch then skip_while p rest (bp + 1) else bp

/-- The position after `while (isspace(*bp)) bp++`. -/
def skip_space (buf : List Nat) (bp : Nat) : Nat := skip_while isspace (buf.drop bp) bp

/-! ## Constants and tables -/

def TM_YEAR_BASE : Int := 1900
def TM_SUNDAY : Int := 0
def TM_MONDAY : Int := 1

def ALT_E : Nat := 1
def ALT_O : Nat := 2

/-- The test of `LEGAL_ALT(x)`: `alt_format & ~x` is non-zero (`alt_format` only ever has
the two low bits). -/
def illegal_alt (alt_format x : Nat) : Bool := alt_format &&& (3 ^^^ x) != 0

def S_YEAR : Nat := 1
def S_MON : Nat := 2
def S_YDAY : Nat := 4
def S_MDAY : Nat := 8
def S_WDAY : Nat := 16
def S_HOUR : Nat := 32

def HAVE_MDAY (s : Nat) : Bool := s &&& S_MDAY != 0
def HAVE_MON (s : Nat) : Bool := s &&& S_MON != 0
def HAVE_WDAY (s : Nat) : Bool := s &&& S_WDAY != 0
def HAVE_YDAY (s : Nat) : Bool := s &&& S_YDAY != 0
def HAVE_YEAR (s : Nat) : Bool := s &&& S_YEAR != 0
def HAVE_HOUR (s : Nat) : Bool := s &&& S_HOUR != 0

def abday : List (List Nat) :=
  [bytes "Sun", bytes "Mon", bytes "Tue", bytes "Wed", bytes "Thu", bytes "Fri", bytes "Sat"]

def day : List (List Nat) :=
  [bytes "Sunday", bytes "Monday", bytes "Tuesday", bytes "Wednesday", bytes "Thursday",
   bytes "Friday", bytes "Saturday"]

def abmon : List (List Nat) :=
  [bytes "Jan", bytes "Feb", bytes "Mar", bytes "Apr", bytes "May", bytes "Jun",
   bytes "Jul", bytes "Aug", bytes "Sep", bytes "Oct", bytes "Nov", bytes "Dec"]

def mon : List (List Nat) :=
  [bytes "January", bytes "February", bytes "March", bytes "April", bytes "May", bytes "June",
   bytes "July", bytes "August", bytes "September", bytes "October", bytes "November",
   bytes "December"]

def am_pm : List (List Nat) := [bytes "AM", bytes "PM"]

def d_t_fmt : List Nat := bytes "%a %b %e %H:%M:%S %Y"
def d_fmt : List Nat := bytes "%m/%d/%y"
def t_fmt : List Nat := bytes "%H:%M:%S"
def t_fmt_ampm : List Nat := bytes "%I:%M:%S %p"

def gmt : List Nat := bytes "GMT"
def utc : List Nat := bytes "UTC"

/-- The table `nast`; its fifth entry is the empty C string. -/
def nast : List (List Nat) := [bytes "EST", bytes "CST", bytes "MST", bytes "PST", []]

/-- The table `nadt`; its fifth entry is the empty C string. -/
def nadt : List (List Nat) := [bytes "EDT", bytes "CDT", bytes "MDT", bytes "PDT", []]

/-- The ordinal date of the start of each month: row 0 non-leap, row 1 leap. -/
def start_of_month : List (List Int) :=
  [[0, 31, 59, 90, 120, 151, 181, 212, 243, 273, 304, 334, 365],
   [0, 31, 60, 91, 121, 152, 182, 213, 244, 274, 305, 335, 366]]

/-- The macro `isleap(y)`. -/
def isleap (y : Int) : Bool :=
  (y.tmod 4 == 0 && y.tmod 100 != 0) || y.tmod 400 == 0

/-- The macro `isleap_sum(a, b)`. -/
def isleap_sum (a b : Int) : Bool := isleap (a.tmod 400 + b.tmod 400)

/-- The row `start_of_month[isleap]`, an `int[13]`. -/
def start_of_month_from (leap : Bool) : List Int :=
  start_of_month.getD (if leap then 1 else 0) []

/-- The read `start_of_month[isleap][i]`: a subscript outside `0..12` is outside the row
and has no value. -/
def start_of_month_at (leap : Bool) (i : Int) : Option Int :=
  if 0 ≤ i ∧ i ≤ 12 then (start_of_month_from leap).get? i.toNat else none

def first_wday_of (yr : Int) : Int :=
  ((2 * (3 - (yr.tdiv 100).tmod 4)) + yr.tmod 100 + (yr.tmod 100).tdiv 4 +
    (if isleap yr then 6 else 0) + 1).tmod 7

/-! ## conv_num -/

/-- The `do ... while` loop of `conv_num` after its first pass: `rest` is the text from the
cursor on, and the loop goes on while `result * 10 <= ulim && rulim && ch` is a digit. -/
def conv_num_loop (ulim : Nat) : List Nat → Nat → Nat → Nat → Nat × Nat
  | [], result, _, bp => (result, bp)
  | ch :: rest, result, rulim, bp =>
    if result * 10 ≤ ulim ∧ rulim ≠ 0 ∧ 48 ≤ ch ∧ ch ≤ 57 then
      conv_num_loop ulim rest (result * 10 + (ch - 48)) (rulim / 10) (bp + 1)
    else (result, bp)

/-- The function `conv_num`: on success the new cursor and the value stored in `*dest`. -/
def conv_num (buf : List Nat) (bp : Nat) (llim ulim : Nat) : Option (Nat × Nat) :=
  let ch := peek buf bp
  if ch < 48 ∨ 57 < ch then none
  else
    let r := conv_num_loop ulim (buf.drop (bp + 1)) (ch - 48) (ulim / 10) (bp + 1)
    if r.1 < llim ∨ ulim < r.1 then none else some (r.2, r.1)

/-! ## find_string -/

/-- The test `strncasecmp(name, bp, strlen(name)) == 0`. -/
def strncasecmp_eq (name buf : List Nat) (bp : Nat) : Bool :=
  (List.range name.length).all fun j => tolower (name.getD j 0) == tolower (peek buf (bp + j))

/-- The inner `for` loop of `find_string` over one list of names, counting from `i`. -/
def find_in (buf : List Nat) (bp : Nat) : List (List Nat) → Nat → Option (Nat × Nat)
  | [], _ => none
  | name :: rest, i =>
    if strncasecmp_eq name buf bp then some (bp + name.length, i)
    else find_in buf bp rest (i + 1)

/-- The function `find_string`: the first `c` entries of `n1`, then of `n2` when there is
one; on success the new cursor and the value stored in `*tgt`. -/
def find_string (buf : List Nat) (bp : Nat) (n1 : List (List Nat))
    (n2 : Option (List (List Nat))) (c : Nat) : Option (Nat × Nat) :=
  match find_in buf bp (n1.take c) 0 with
  | some r => some r
  | none =>
    match n2 with
    | none => none
    | some l => find_in buf bp (l.take c) 0

/-! ## The timezone directives -/

/-- The test `strncmp(bp, name, n) == 0` for a `name` of at least `n` non-NUL bytes. -/
def strncmp_eq (buf : List Nat) (bp : Nat) (name : List Nat) (n : Nat) : Bool :=
  (List.range n).all fun j => peek buf (bp + j) == name.getD j 0

/-- The directive `%Z`. -/
def case_Z (env : Env) (buf : List Nat) (st : St) : Except Halt St :=
  if strncmp_eq buf st.bp gmt 3 || strncmp_eq buf st.bp utc 3 then
    .ok { st with tm := { st.tm with tm_isdst := 0 }, tm_gmtoff := 0, tm_zone := gmt,
                  bp := st.bp + 3 }
  else
    match find_string buf st.bp [env.tzname0, env.tzname1] none 2 with
    | none => .error (.null st) -- bp = ep; continue
    | some (ep, i) =>
      .ok { st with tm := { st.tm with tm_isdst := i },
                    tm_gmtoff := if env.have_timezone then -env.timezone else st.tm_gmtoff,
                    tm_zone := [env.tzname0, env.tzname1].getD i [],
                    bp := ep }

/-- The `for (i = 0; i < 4; )` loop of `%z` over the text from the cursor on: the digit
count `i`, the value `offs` and the cursor. -/
def offs_loop : List Nat → Nat → Int → Nat → Nat × Int × Nat
  | [], i, offs, bp => (i, offs, bp)
  | ch :: rest, i, offs, bp =>
    if i < 4 then
      if isdigit ch then offs_loop rest (i + 1) (offs * 10 + ((ch : Int) - 48)) (bp + 1)
      else if i = 2 ∧ ch = 58 then offs_loop rest i offs (bp + 1)
      else (i, offs, bp)
    else (i, offs, bp)

/-- The numeric offset of `%z`, entered after the sign with the cursor behind it. -/
def case_z_numeric (buf : List Nat) (st : St) (bp : Nat) (neg : Bool) : Except Halt St :=
  let r := offs_loop (buf.drop bp) 0 0 bp
  let i := r.1
  let offs := r.2.1
  let scaled : Option Int :=
    if i = 2 then some (offs * 100)
    else if i = 4 then
      let m := offs.tmod 100
      if 60 ≤ m then none else some ((offs.tdiv 100) * 100 + (m * 50).tdiv 30)
    else none
  match scaled with
  | none => .error (.ret st)
  | some offs =>
    let offs := if neg then -offs else offs
    .ok { st with tm := { st.tm with tm_isdst := 0 }, tm_gmtoff := (offs * 3600).tdiv 100,
                  tm_zone := utc, bp := r.2.2 }

/-- The `default:` branch of the `%z` switch, with the cursor back on the first byte. -/
def case_z_default (buf : List Nat) (st : St) (bp : Nat) : Except Halt St :=
  match find_string buf bp nast none 4 with
  | some (ep, i) =>
    .ok { st with tm_gmtoff := (-5 - (i : Int)) * 3600, tm_zone := nast.getD i [], bp := ep }
  | none =>
    match find_string buf bp nadt none 4 with
    | some (ep, i) =>
      .ok { st with tm := { st.tm with tm_isdst := 1 }, tm_gmtoff := (-4 - (i : Int)) * 3600,
                    tm_zone := nadt.getD i [], bp := ep }
    | none =>
      let ch : Int := peek buf bp
      if (65 ≤ ch ∧ ch ≤ 73) ∨ (76 ≤ ch ∧ ch ≤ 89) then
        let off : Int :=
          if 65 ≤ ch ∧ ch ≤ 73 then ((65 - 1) - ch) * 3600
          else if 76 ≤ ch ∧ ch ≤ 77 then (65 - ch) * 3600
          else if 78 ≤ ch ∧ ch ≤ 89 then (ch - 77) * 3600
          else st.tm_gmtoff
        .ok { st with tm_gmtoff := off, tm_zone := utc, bp := bp + 1 }
      else .error (.ret st)

/-- The directive `%z`. -/
def case_z (buf : List Nat) (st : St) : Except Halt St :=
  let bp0 := skip_space buf st.bp
  let c := peek buf bp0
  let bp := bp0 + 1
  let zulu (bp : Nat) : Except Halt St :=
    .ok { st with tm := { st.tm with tm_isdst := 0 }, tm_gmtoff := 0, tm_zone := utc, bp := bp }
  if c = 71 then -- G
    if peek buf bp ≠ 77 then .error (.ret st) -- M
    else if peek buf (bp + 1) ≠ 84 then .error (.ret st) -- T
    else zulu (bp + 2)
  else if c = 85 then -- U
    if peek buf bp ≠ 84 then .error (.ret st) -- T
    else zulu (bp + 1)
  else if c = 90 then zulu bp -- Z
  else if c = 43 then case_z_numeric buf st bp false -- +
  else if c = 45 then case_z_numeric buf st bp true -- -
  else case_z_default buf st bp0

/-! ## The elementary directives -/

/-- The macro `LEGAL_ALT(x)` in front of the rest `k` of a `case`; `st` holds the
variables at that point. -/
def LEGAL_ALT (alt_format x : Nat) (st : St) (k : Except Halt St) : Except Halt St :=
  if illegal_alt alt_format x then .error (.ret st) else k

def TIME_MAX : Nat := 2 ^ 63 - 1

/-- The `do ... while` loop of `%s` after its first pass, on the signed 64-bit `time_t sse`:
`rest` is the text from the cursor on.  The test `sse * 10 <= TIME_MAX` comes first in the
condition; the product overflows exactly when it would be false, and `sse += *bp++ - '0'`
can overflow too: both have no value here. -/
def sse_loop : List Nat → Nat → Nat → Nat → Option (Nat × Nat)
  | [], sse, _, bp => if TIME_MAX < sse * 10 then none else some (sse, bp)
  | ch :: rest, sse, rulim, bp =>
    if TIME_MAX < sse * 10 then none
    else if rulim ≠ 0 ∧ 48 ≤ ch ∧ ch ≤ 57 then
      if TIME_MAX < sse * 10 + (ch - 48) then none
      else sse_loop rest (sse * 10 + (ch - 48)) (rulim / 10) (bp + 1)
    else some (sse, bp)

/-- One elementary conversion `c` met with the modifiers `alt_format`: the `case` bodies of
the switch that end in `continue` without recursion.  A case that gets a `NULL` cursor from
`conv_num` or `find_string` still runs its remaining statements (with the value that `i`
has from before the call) and leaves through `continue`: that is `Halt.null`. -/
def elementary (env : Env) (buf : List Nat) (c alt_format : Nat) (st : St) : Except Halt St :=
  if c = 65 ∨ c = 97 then -- A a
    match find_string buf st.bp day (some abday) 7 with
    | none =>
      LEGAL_ALT alt_format 0 st (.error (.null { st with state := st.state ||| S_WDAY }))
    | some (bp, i) =>
      LEGAL_ALT alt_format 0 { st with tm := { st.tm with tm_wday := i } }
        (.ok { st with bp := bp, tm := { st.tm with tm_wday := i }, state := st.state ||| S_WDAY })
  else if c = 66 ∨ c = 98 ∨ c = 104 then -- B b h
    match find_string buf st.bp mon (some abmon) 12 with
    | none =>
      LEGAL_ALT alt_format 0 st (.error (.null { st with state := st.state ||| S_MON }))
    | some (bp, i) =>
      LEGAL_ALT alt_format 0 { st with tm := { st.tm with tm_mon := i } }
        (.ok { st with bp := bp, tm := { st.tm with tm_mon := i }, state := st.state ||| S_MON })
  else if c = 67 then -- C
    match conv_num buf st.bp 0 99 with
    | none =>
      let i : Int := 20 * 100 - TM_YEAR_BASE
      let i : Int := if st.split_year then i + st.tm.tm_year.tmod 100 else i
      LEGAL_ALT alt_format ALT_E
        { st with split_year := true, tm := { st.tm with tm_year := i } }
        (.error (.null { st with split_year := true, tm := { st.tm with tm_year := i },
                                 state := st.state ||| S_YEAR }))
    | some (bp, i) =>
      let i : Int := (i : Int) * 100 - TM_YEAR_BASE
      let i : Int := if st.split_year then i + st.tm.tm_year.tmod 100 else i
      LEGAL_ALT alt_format ALT_E
        { st with split_year := true, tm := { st.tm with tm_year := i } }
        (.ok { st with bp := bp, split_year := true, tm := { st.tm with tm_year := i },
                       state := st.state ||| S_YEAR })
  else if c = 100 ∨ c = 101 then -- d e
    match conv_num buf st.bp 1 31 with
    | none =>
      LEGAL_ALT alt_format ALT_O st (.error (.null { st with state := st.state ||| S_MDAY }))
    | some (bp, v) =>
      LEGAL_ALT alt_format ALT_O { st with tm := { st.tm with tm_mday := v } }
        (.ok { st with bp := bp, tm := { st.tm with tm_mday := v }, state := st.state ||| S_MDAY })
  else if c = 107 ∨ c = 72 then -- k H
    if c = 107 ∧ illegal_alt alt_format 0 then .error (.ret st)
    else
      match conv_num buf st.bp 0 23 with
      | none =>
        LEGAL_ALT alt_format ALT_O st (.error (.null { st with state := st.state ||| S_HOUR }))
      | some (bp, v) =>
        LEGAL_ALT alt_format ALT_O { st with tm := { st.tm with tm_hour := v } }
          (.ok { st with bp := bp, tm := { st.tm with tm_hour := v },
                         state := st.state ||| S_HOUR })
  else if c = 108 ∨ c = 73 then -- l I
    if c = 108 ∧ illegal_alt alt_format 0 then .error (.ret st)
    else
      match conv_num buf st.bp 1 12 with
      | none =>
        LEGAL_ALT alt_format ALT_O
          { st with tm := { st.tm with tm_hour := if st.tm.tm_hour = 12 then 0
                                                  else st.tm.tm_hour } }
          (.error (.null { st with tm := { st.tm with tm_hour := if st.tm.tm_hour = 12 then 0
                                                                 else st.tm.tm_hour },
                                   state := st.state ||| S_HOUR }))
      | some (bp, v) =>
        LEGAL_ALT alt_format ALT_O
          { st with tm := { st.tm with tm_hour := if v = 12 then 0 else v } }
          (.ok { st with bp := bp, tm := { st.tm with tm_hour := if v = 12 then 0 else v },
                         state := st.state ||| S_HOUR })
  else if c = 106 then -- j
    match conv_num buf st.bp 1 366 with
    | none =>
      LEGAL_ALT alt_format 0 { st with tm := { st.tm with tm_yday := 1 - 1 } }
        (.error (.null { st with tm := { st.tm with tm_yday := 1 - 1 },
                                 state := st.state ||| S_YDAY }))
    | some (bp, i) =>
      LEGAL_ALT alt_format 0 { st with tm := { st.tm with tm_yday := (i : Int) - 1 } }
        (.ok { st with bp := bp, tm := { st.tm with tm_yday := (i : Int) - 1 },
                       state := st.state ||| S_YDAY })
  else if c = 77 then -- M
    match conv_num buf st.bp 0 59 with
    | none => LEGAL_ALT alt_format ALT_O st (.error (.null st))
    | some (bp, v) =>
      LEGAL_ALT alt_format ALT_O { st with tm := { st.tm with tm_min := v } }
        (.ok { st with bp := bp, tm := { st.tm with tm_min := v } })
  else if c = 109 then -- m
    match conv_num buf st.bp 1 12 with
    | none =>
      LEGAL_ALT alt_format ALT_O { st with tm := { st.tm with tm_mon := 1 - 1 } }
        (.error (.null { st with tm := { st.tm with tm_mon := 1 - 1 },
                                 state := st.state ||| S_MON }))
    | some (bp, i) =>
      LEGAL_ALT alt_format ALT_O { st with tm := { st.tm with tm_mon := (i : Int) - 1 } }
        (.ok { st with bp := bp, tm := { st.tm with tm_mon := (i : Int) - 1 },
                       state := st.state ||| S_MON })
  else if c = 112 then -- p
    match find_string buf st.bp am_pm none 2 with
    | none =>
      if HAVE_HOUR st.state ∧ 11 < st.tm.tm_hour then .error (.ret st)
      else
        LEGAL_ALT alt_format 0 { st with tm := { st.tm with tm_hour := st.tm.tm_hour + 0 * 12 } }
          (.error (.null { st with tm := { st.tm with tm_hour := st.tm.tm_hour + 0 * 12 } }))
    | some (bp, i) =>
      if HAVE_HOUR st.state ∧ 11 < st.tm.tm_hour then .error (.ret st)
      else
        LEGAL_ALT alt_format 0
          { st with tm := { st.tm with tm_hour := st.tm.tm_hour + (i : Int) * 12 } }
          (.ok { st with bp := bp, tm := { st.tm with tm_hour := st.tm.tm_hour + (i : Int) * 12 } })
  else if c = 83 then -- S
    match conv_num buf st.bp 0 61 with
    | none => LEGAL_ALT alt_format ALT_O st (.error (.null st))
    | some (bp, v) =>
      LEGAL_ALT alt_format ALT_O { st with tm := { st.tm with tm_sec := v } }
        (.ok { st with bp := bp, tm := { st.tm with tm_sec := v } })
  else if c = 115 then -- s
    let ch := peek buf st.bp
    if ch < 48 ∨ 57 < ch then .error (.null st)
    else
      match sse_loop (buf.drop (st.bp + 1)) (ch - 48) (TIME_MAX / 10) (st.bp + 1) with
      | none => .error .undefined
      | some r =>
        if TIME_MAX < r.1 then .error (.null st)
        else
          .ok { st with bp := r.2, tm := env.cached_localtime r.1,
                        state := st.state ||| (S_YDAY ||| S_WDAY ||| S_MON ||| S_MDAY ||| S_YEAR) }
  else if c = 85 ∨ c = 87 then -- U W
    match conv_num buf st.bp 0 53 with
    | none =>
      LEGAL_ALT alt_format ALT_O st
        (.error (.null { st with day_offset := if c = 85 then TM_SUNDAY else TM_MONDAY,
                                 week_offset := 0 }))
    | some (bp, i) =>
      LEGAL_ALT alt_format ALT_O st
        (.ok { st with bp := bp, day_offset := if c = 85 then TM_SUNDAY else TM_MONDAY,
                       week_offset := i })
  else if c = 119 then -- w
    match conv_num buf st.bp 0 6 with
    | none =>
      LEGAL_ALT alt_format ALT_O st (.error (.null { st with state := st.state ||| S_WDAY }))
    | some (bp, v) =>
      LEGAL_ALT alt_format ALT_O { st with tm := { st.tm with tm_wday := v } }
        (.ok { st with bp := bp, tm := { st.tm with tm_wday := v }, state := st.state ||| S_WDAY })
  else if c = 117 then -- u
    match conv_num buf st.bp 1 7 with
    | none =>
      LEGAL_ALT alt_format ALT_O { st with tm := { st.tm with tm_wday := (0 : Int).tmod 7 } }
        (.error (.null { st with tm := { st.tm with tm_wday := (0 : Int).tmod 7 },
                                 state := st.state ||| S_WDAY }))
    | some (bp, i) =>
      LEGAL_ALT alt_format ALT_O { st with tm := { st.tm with tm_wday := (i : Int).tmod 7 } }
        (.ok { st with bp := bp, tm := { st.tm with tm_wday := (i : Int).tmod 7 },
                       state := st.state ||| S_WDAY })
  else if c = 103 then -- g
    match conv_num buf st.bp 0 99 with
    | none => .error (.null st)
    | some (bp, _) => .ok { st with bp := bp }
  else if c = 71 then -- G
    .ok { st with bp := skip_while isdigit (buf.drop (st.bp + 1)) (st.bp + 1) }
  else if c = 86 then -- V
    match conv_num buf st.bp 0 53 with
    | none => .error (.null st)
    | some (bp, _) => .ok { st with bp := bp }
  else if c = 89 then -- Y
    match conv_num buf st.bp 0 9999 with
    | none =>
      LEGAL_ALT alt_format ALT_E
        { st with tm := { st.tm with tm_year := TM_YEAR_BASE - TM_YEAR_BASE } }
        (.error (.null { st with tm := { st.tm with tm_year := TM_YEAR_BASE - TM_YEAR_BASE },
                                 state := st.state ||| S_YEAR }))
    | some (bp, i) =>
      LEGAL_ALT alt_format ALT_E { st with tm := { st.tm with tm_year := (i : Int) - TM_YEAR_BASE } }
        (.ok { st with bp := bp, tm := { st.tm with tm_year := (i : Int) - TM_YEAR_BASE },
                       state := st.state ||| S_YEAR })
  else if c = 121 then -- y
    match conv_num buf st.bp 0 99 with
    | none =>
      let i : Int :=
        if st.split_year then 0 + (st.tm.tm_year.tdiv 100) * 100
        else 0 + 2000 - TM_YEAR_BASE
      .error (.null { st with split_year := true, tm := { st.tm with tm_year := i },
                              state := st.state ||| S_YEAR })
    | some (bp, i) =>
      let i : Int :=
        if st.split_year then (i : Int) + (st.tm.tm_year.tdiv 100) * 100
        else if i ≤ 68 then (i : Int) + 2000 - TM_YEAR_BASE
        else (i : Int) + 1900 - TM_YEAR_BASE
      .ok { st with bp := bp, split_year := true, tm := { st.tm with tm_year := i },
                    state := st.state ||| S_YEAR }
  else if c = 90 then case_Z env buf st -- Z
  else if c = 122 then case_z buf st -- z
  else if c = 110 ∨ c = 116 then -- n t
    LEGAL_ALT alt_format 0 st (.ok { st with bp := skip_space buf st.bp })
  else .error (.ret st)

/-- The composite conversions: the sub-template `new_fmt`, whether `LEGAL_ALT(0)` stands
before the `goto recurse`, and the bits or-ed into `state`. -/
def composite (c : Nat) : Option (List Nat × Bool × Nat) :=
  if c = 99 then some (d_t_fmt, false, S_WDAY ||| S_MON ||| S_MDAY ||| S_YEAR) -- c
  else if c = 68 then some (bytes "%m/%d/%y", true, S_MON ||| S_MDAY ||| S_YEAR) -- D
  else if c = 70 then some (bytes "%Y-%m-%d", true, S_MON ||| S_MDAY ||| S_YEAR) -- F
  else if c = 82 then some (bytes "%H:%M", true, 0) -- R
  else if c = 114 then some (t_fmt_ampm, true, 0) -- r
  else if c = 84 then some (bytes "%H:%M:%S", true, 0) -- T
  else if c = 88 then some (t_fmt, false, 0) -- X
  else if c = 120 then some (d_fmt, false, S_MON ||| S_MDAY ||| S_YEAR) -- x
  else none

/-! ## The derivation pass -/

/-- The first block after the loop: the day of the year from month and day of the month,
or else from the week number. -/
def derive_yday (st : St) : Except Fail St :=
  if !HAVE_YDAY st.state && HAVE_YEAR st.state then
    if HAVE_MON st.state && HAVE_MDAY st.state then
      match start_of_month_at (isleap_sum st.tm.tm_year TM_YEAR_BASE) st.tm.tm_mon with
      | none => .error .undefined
      | some s =>
        .ok { st with tm := { st.tm with tm_yday := s + (st.tm.tm_mday - 1) },
                      state := st.state ||| S_YDAY }
    else if st.day_offset ≠ -1 then
      let st1 : St :=
        if !HAVE_WDAY st.state then
          { st with tm := { st.tm with tm_wday := st.day_offset }, state := st.state ||| S_WDAY }
        else st
      .ok { st1 with
            tm := { st1.tm with
                    tm_yday := (7 - first_wday_of (st1.tm.tm_year + TM_YEAR_BASE) +
                                 st1.day_offset).tmod 7 + (st1.week_offset - 1) * 7 +
                               st1.tm.tm_wday - st1.day_offset },
            state := st1.state ||| S_YDAY }
    else .ok st
  else .ok st

/-- The loop `while (tm->tm_yday >= start_of_month[isleap][i]) i++` over the entries from
`start_of_month[isleap][i]` to the end of the row: the final `i`, or nothing when the loop
reads past the end of the row. -/
def month_scan (yday : Int) : List Int → Int → Option Int
  | [], _ => none
  | e :: rest, i => if e ≤ yday then month_scan yday rest (i + 1) else some i

/-- The block `if (!HAVE_MON(state))`: the month of the day of the year. -/
def derive_mon (st : St) : Except Fail St :=
  if !HAVE_MON st.state then
    let leap := isleap_sum st.tm.tm_year TM_YEAR_BASE
    match month_scan st.tm.tm_yday (start_of_month_from leap) 0 with
    | none => .error .undefined
    | some i =>
      if 12 < i then
        match start_of_month_at leap 12 with
        | none => .error .undefined
        | some s =>
          .ok { st with tm := { st.tm with tm_yday := st.tm.tm_yday - s,
                                           tm_year := st.tm.tm_year + 1, tm_mon := 1 - 1 },
                        state := st.state ||| S_MON }
      else .ok { st with tm := { st.tm with tm_mon := i - 1 }, state := st.state ||| S_MON }
  else .ok st

/-- The block `if (!HAVE_MDAY(state))`: the day of the month. -/
def derive_mday (st : St) : Except Fail St :=
  if !HAVE_MDAY st.state then
    match start_of_month_at (isleap_sum st.tm.tm_year TM_YEAR_BASE) st.tm.tm_mon with
    | none => .error .undefined
    | some s =>
      .ok { st with tm := { st.tm with tm_mday := st.tm.tm_yday - s + 1 },
                    state := st.state ||| S_MDAY }
  else .ok st

/-- The body `if (week_offset++ >= 6) week_offset = 0`. -/
def wday_step (week_offset : Int) : Int := if 6 ≤ week_offset then 0 else week_offset + 1

/-- The loop `while (i++ <= tm->tm_yday)`, given the number of its passes. -/
def wday_walk : Nat → Int → Int
  | 0, week_offset => week_offset
  | n + 1, week_offset => wday_walk n (wday_step week_offset)

/-- The block `if (!HAVE_WDAY(state))`: the day of the week. -/
def derive_wday (st : St) : St :=
  if !HAVE_WDAY st.state then
    { st with tm := { st.tm with
                      tm_wday := wday_walk (st.tm.tm_yday + 1).toNat (first_wday_of st.tm.tm_year) },
              week_offset := wday_walk (st.tm.tm_yday + 1).toNat (first_wday_of st.tm.tm_year),
              state := st.state ||| S_WDAY }
  else st

/-- What `return __UNCONST(bp)` hands back. -/
def St.result (st : St) : Result :=
  { bp := st.bp, tm := st.tm, tm_gmtoff := st.tm_gmtoff, tm_zone := st.tm_zone }

/-- The code between the end of the loop and the `return`. -/
def derivation_pass (st : St) : Except Fail Result :=
  match derive_yday st with
  | .error e => .error e
  | .ok st1 =>
    if HAVE_YDAY st1.state && HAVE_YEAR st1.state then
      match derive_mon st1 with
      | .error e => .error e
      | .ok st2 =>
        match derive_mday st2 with
        | .error e => .error e
        | .ok st3 => .ok (derive_wday st3).result
    else .ok st1.result

/-! ## The dispatcher -/

/-- The derivation pass of a call whose cursor is `NULL`: the pass runs as ever, then
`NULL` is returned. -/
def null_pass (st : St) : Except Fail Result :=
  match derivation_pass st with
  | .error f => .error f
  | .ok r => .error (.null r.tm r.tm_gmtoff r.tm_zone)

/-- The outcome of a call as the caller of `strptime_with_tz` sees it: a position with the
outputs, or `NULL` without a word on the outputs. -/
@[simp]
def to_caller : Except Fail Result → Except Err Result
  | .error f => .error f.err
  | .ok r => .ok r

/-- The signature of `strptime_with_tz` as the loop sees it for its recursive calls:
template, cursor, accumulator, offset and zone label. -/
abbrev Recurse := List Nat → Nat → Tm → Int → List Nat → Except Fail Result

/-- The `while` loop of `strptime_with_tz` followed by the derivation pass.  The second
argument is `none` at the head of the loop and `some alt_format` at the label `again`,
after a `%`; the third is the rest of the template. -/
def go (recurse : Recurse) (env : Env) (buf : List Nat) :
    Option Nat → List Nat → St → Except Fail Result
  | none, [], st => derivation_pass st
  | none, c :: fmt, st =>
    if c = 0 then derivation_pass st
    else if isspace c then go recurse env buf none fmt { st with bp := skip_space buf st.bp }
    else if c ≠ 37 then
      -- literal:
      if c ≠ peek buf st.bp then .error st.fail
      else go recurse env buf none fmt { st with bp := st.bp + 1 }
    else go recurse env buf (some 0) fmt st
  | some _, [], st => .error st.fail
  | some alt_format, c :: fmt, st =>
    if c = 37 then -- %
      if c ≠ peek buf st.bp then .error st.fail
      else if illegal_alt alt_format 0 then .error st.fail
      else go recurse env buf none fmt { st with bp := st.bp + 1 }
    else if c = 69 then -- E
      if illegal_alt alt_format 0 then .error st.fail
      else go recurse env buf (some (alt_format ||| ALT_E)) fmt st
    else if c = 79 then -- O
      if illegal_alt alt_format 0 then .error st.fail
      else go recurse env buf (some (alt_format ||| ALT_O)) fmt st
    else
      match composite c with
      | some (new_fmt, check, bits) =>
        if check && illegal_alt alt_format 0 then .error st.fail
        else
          match recurse new_fmt st.bp st.tm st.tm_gmtoff st.tm_zone with
          | .error (.null tm tm_gmtoff tm_zone) =>
            -- bp = NULL; LEGAL_ALT(ALT_E); continue
            if illegal_alt alt_format ALT_E then .error (.null tm tm_gmtoff tm_zone)
            else
              null_pass { st with tm := tm, tm_gmtoff := tm_gmtoff, tm_zone := tm_zone,
                                  state := st.state ||| bits }
          | .error f => .error f
          | .ok r =>
            if illegal_alt alt_format ALT_E then .error (.null r.tm r.tm_gmtoff r.tm_zone)
            else
              go recurse env buf none fmt
                { st with bp := r.bp, tm := r.tm, tm_gmtoff := r.tm_gmtoff, tm_zone := r.tm_zone,
                          state := st.state ||| bits }
      | none =>
        match elementary env buf c alt_format st with
        | .error (.ret st1) => .error st1.fail
        | .error (.null st1) => null_pass st1
        | .error .undefined => .error .undefined
        | .ok st1 => go recurse env buf none fmt st1

/-- The local variables at the entry of a call. -/
def St.init (bp : Nat) (tm : Tm) (tm_gmtoff : Int) (tm_zone : List Nat) : St :=
  { bp := bp, tm := tm, tm_gmtoff := tm_gmtoff, tm_zone := tm_zone,
    split_year := false, state := 0, day_offset := -1, week_offset := 0 }

/-- The function `strptime_with_tz` with a budget for nested calls: the subject string is
`buf` and the call starts at the cursor `bp`. -/
def strptime_depth (env : Env) (buf : List Nat) : Nat → Recurse
  | 0 => fun _ _ _ _ _ => .error .nesting
  | depth + 1 => fun fmt bp tm tm_gmtoff tm_zone =>
    go (strptime_depth env buf depth) env buf none fmt (St.init bp tm tm_gmtoff tm_zone)

/-- The function `strptime_with_tz(buf, fmt, tm, tm_gmtoff, tm_zone)` as its caller sees
it.  A composite conversion calls the function once more on a fixed sub-template that has
no composite conversion in it, so two levels are all a call can use
(`strptime_depth_stable`). -/
def strptime_with_tz (env : Env) (buf fmt : List Nat) (tm : Tm) (tm_gmtoff : Int)
    (tm_zone : List Nat) : Except Err Result :=
  to_caller (strptime_depth env buf 2 fmt 0 tm tm_gmtoff tm_zone)

/-! ## Sample collaborators for closed evaluations -/

/-- A zero-initialised accumulator. -/
def Tm.zero : Tm :=
  { tm_sec := 0, tm_min := 0, tm_hour := 0, tm_mday := 0, tm_mon := 0, tm_year := 0,
    tm_wday := 0, tm_yday := 0, tm_isdst := 0 }

/-- A process whose zone names are `CET` and `CEST`, one hour east of UTC. -/
def Env.cet : Env :=
  { tzname0 := bytes "CET", tzname1 := bytes "CEST", have_timezone := true,
    timezone := -3600, cached_localtime := fun _ => Tm.zero }

/-! ## Reference calendar and decimal text, for stating the claims -/

/-- The Gregorian leap-year rule on calendar years: divisible by 4 and not by 100, or
divisible by 400. -/
def gregorian_leap (y : Nat) : Bool := (y % 4 == 0 && y % 100 != 0) || y % 400 == 0

/-- The length of month `m` (1..12) of a leap or common year. -/
def month_length (leap : Bool) (m : Nat) : Nat :=
  [31, if leap then 29 else 28, 31, 30, 31, 30, 31, 31, 30, 31, 30, 31].getD (m - 1) 0

/-- The true length of month `m` (1..12) of the calendar year `y`. -/
def gregorian_month_length (y m : Nat) : Nat := month_length (gregorian_leap y) m

/-- The number `n` written with two decimal digits. -/
def dec2 (n : Nat) : List Nat := [48 + n / 10 % 10, 48 + n % 10]

/-- The number `n` written with three decimal digits. -/
def dec3 (n : Nat) : List Nat := [48 + n / 100 % 10, 48 + n / 10 % 10, 48 + n % 10]

/-- The number `n` written with four decimal digits. -/
def dec4 (n : Nat) : List Nat :=
  [48 + n / 1000 % 10, 48 + n / 100 % 10, 48 + n / 10 % 10, 48 + n % 10]

/-- The decimal value of a text of digits, read from left to right. -/
def decimal_value (text : List Nat) : Nat :=
  text.foldl (fun acc ch => acc * 10 + (ch - 48)) 0

/-! ## Presence bits as a function of the template -/

/-- The presence bits that an elementary conversion `c` or-s into `state` when it
succeeds, case by case in the order of `elementary`. -/
def elementary_bits (c : Nat) : Nat :=
  if c = 65 ∨ c = 97 then S_WDAY -- A a
  else if c = 66 ∨ c = 98 ∨ c = 104 then S_MON -- B b h
  else if c = 67 then S_YEAR -- C
  else if c = 100 ∨ c = 101 then S_MDAY -- d e
  else if c = 107 ∨ c = 72 then S_HOUR -- k H
  else if c = 108 ∨ c = 73 then S_HOUR -- l I
  else if c = 106 then S_YDAY -- j
  else if c = 77 then 0 -- M
  else if c = 109 then S_MON -- m
  else if c = 112 then 0 -- p
  else if c = 83 then 0 -- S
  else if c = 115 then S_YDAY ||| S_WDAY ||| S_MON ||| S_MDAY ||| S_YEAR -- s
  else if c = 85 ∨ c = 87 then 0 -- U W
  else if c = 119 then S_WDAY -- w
  else if c = 117 then S_WDAY -- u
  else if c = 103 then 0 -- g
  else if c = 71 then 0 -- G
  else if c = 86 then 0 -- V
  else if c = 89 then S_YEAR -- Y
  else if c = 121 then S_YEAR -- y
  else if c = 90 then 0 -- Z
  else if c = 122 then 0 -- z
  else if c = 110 ∨ c = 116 then 0 -- n t
  else 0

/-- The value of `state` with which the loop leaves a template, when it gets to its end:
the first argument tells whether the loop stands behind a `%`, the last is the value of
`state` so far. -/
def fmt_state : Bool → List Nat → Nat → Nat
  | _, [], s => s
  | false, c :: fmt, s =>
    if c = 0 then s
    else if isspace c then fmt_state false fmt s
    else if c ≠ 37 then fmt_state false fmt s
    else fmt_state true fmt s
  | true, c :: fmt, s =>
    if c = 37 then fmt_state false fmt s
    else if c = 69 ∨ c = 79 then fmt_state true fmt s
    else
      match composite c with
      | some (_, _, bits) => fmt_state false fmt (s ||| bits)
      | none => fmt_state false fmt (s ||| elementary_bits c)

/-! ## Templates that set the year last -/

/-- The bytes of the template are free of `s`, `j`, `U` and `W`, and a `C`, `Y` or `y` is
the last byte: no conversion follows one that sets the year, and none sets the day of the
year or a week number. -/
def year_last : List Nat → Bool
  | [] => true
  | x :: rest =>
    if x = 67 ∨ x = 89 ∨ x = 121 then rest.isEmpty
    else decide (x ≠ 115 ∧ x ≠ 106 ∧ x ≠ 85 ∧ x ≠ 87) && year_last rest

/-- No year, no day of the year and no week number have been met so far, and a month that
is present is a month index from 0 to 11. -/
def no_year_yet (st : St) : Prop :=
  HAVE_YEAR st.state = false ∧ HAVE_YDAY st.state = false ∧ st.day_offset = -1 ∧
    (HAVE_MON st.state = true → 0 ≤ st.tm.tm_mon ∧ st.tm.tm_mon ≤ 11)

/-- No day of the year and no week number have been met, and when year, month and day of
the month are all present the month is a month index from 0 to 11. -/
def pass_safe (st : St) : Prop :=
  HAVE_YDAY st.state = false ∧ st.day_offset = -1 ∧
    (HAVE_YEAR st.state = true → HAVE_MON st.state = true → HAVE_MDAY st.state = true →
      0 ≤ st.tm.tm_mon ∧ st.tm.tm_mon ≤ 11)

/-! ## The modifiers that a conversion allows -/

/-- The argument of the `LEGAL_ALT` that the case of the conversion character `c` runs,
or nothing when the case has no `LEGAL_ALT` (for `k` and `l` the first of the two they run,
for the composite conversions with a `LEGAL_ALT(0)` that one, for `c`, `X` and `x` the one
behind the label `recurse`). -/
def legal_alt (c : Nat) : Option Nat :=
  if c = 37 then some 0 -- %
  else if c = 69 ∨ c = 79 then some 0 -- E O
  else if c = 99 ∨ c = 88 ∨ c = 120 then some ALT_E -- c X x
  else if c = 68 ∨ c = 70 ∨ c = 82 ∨ c = 114 ∨ c = 84 then some 0 -- D F R r T
  else if c = 65 ∨ c = 97 then some 0 -- A a
  else if c = 66 ∨ c = 98 ∨ c = 104 then some 0 -- B b h
  else if c = 67 then some ALT_E -- C
  else if c = 100 ∨ c = 101 then some ALT_O -- d e
  else if c = 107 ∨ c = 72 then some (if c = 107 then 0 else ALT_O) -- k H
  else if c = 108 ∨ c = 73 then some (if c = 108 then 0 else ALT_O) -- l I
  else if c = 106 then some 0 -- j
  else if c = 77 then some ALT_O -- M
  else if c = 109 then some ALT_O -- m
  else if c = 112 then some 0 -- p
  else if c = 83 then some ALT_O -- S
  else if c = 115 then none -- s
  else if c = 85 ∨ c = 87 then some ALT_O -- U W
  else if c = 119 then some ALT_O -- w
  else if c = 117 then some ALT_O -- u
  else if c = 103 then none -- g
  else if c = 71 then none -- G
  else if c = 86 then none -- V
  else if c = 89 then some ALT_E -- Y
  else if c = 121 then none -- y
  else if c = 90 then none -- Z
  else if c = 122 then none -- z
  else if c = 110 ∨ c = 116 then some 0 -- n t
  else none

/-! ## Nested calls never need more than two levels -/

/-- The loop only uses its recursive call on the sub-templates of the composite
conversions that occur in the template. -/
theorem go_congr (r r' : Recurse) (env : Env) (buf : List Nat) (fmt : List Nat)
    (h : ∀ c ∈ fmt, ∀ nf ck bits, composite c = some (nf, ck, bits) → r nf = r' nf) :
    ∀ (m : Option Nat) (st : St), go r env buf m fmt st = go r' env buf m fmt st := by
  induction fmt with
  | nil => intro m st; cases m <;> simp [go]
  | cons c fmt ih =>
    have ih' := ih (fun c hc => h c (List.mem_cons_of_mem _ hc))
    intro m st
    cases m with
    | none => simp only [go, ih']
    | some a =>
      simp only [go, ih']
      cases hc : composite c with
      | none => simp only
      | some p =>
        obtain ⟨nf, ck, bits⟩ := p
        simp only [h c (List.mem_cons_self _ _) nf ck bits hc]

/-- No sub-template of a composite conversion holds a composite conversion. -/
theorem composite_fmt_plain (c : Nat) (nf : List Nat) (ck : Bool) (bits : Nat)
    (h : composite c = some (nf, ck, bits)) : ∀ x ∈ nf, composite x = none := by
  unfold composite at h
  split_ifs at h <;> simp only [Option.some.injEq, Prod.mk.injEq] at h <;>
    obtain ⟨rfl, -, -⟩ := h <;> decide

/-- Any budget of at least two levels gives the result of two levels. -/
theorem strptime_depth_stable (env : Env) (buf : List Nat) (d : Nat) :
    strptime_depth env buf (d + 2) = strptime_depth env buf 2 := by
  funext fmt bp tm off zone
  simp only [strptime_depth]
  apply go_congr
  intro c _ nf ck bits hc
  funext bp tm off zone
  apply go_congr
  intro x hx nf' ck' bits' hx'
  rw [composite_fmt_plain c nf ck bits hc x hx] at hx'
  cases hx'

/-- A template that is one elementary conversion `%c` runs that conversion from the
initial local state and then the derivation pass. -/
theorem strptime_single (env : Env) (buf : List Nat) (c : Nat) (tm : Tm) (off : Int)
    (zone : List Nat) (h37 : c ≠ 37) (h69 : c ≠ 69) (h79 : c ≠ 79) (hc : composite c = none) :
    strptime_with_tz env buf [37, c] tm off zone =
      to_caller
        (match elementary env buf c 0 (St.init 0 tm off zone) with
         | .error (.ret st1) => .error st1.fail
         | .error (.null st1) => null_pass st1
         | .error .undefined => .error .undefined
         | .ok st => derivation_pass st) := by
  have hs : isspace 37 = false := by decide
  simp +decide only [strptime_with_tz, strptime_depth, go, h37, h69, h79, hc, hs, if_false,
    Bool.false_eq_true, ne_eq, not_true_eq_false, not_false_eq_true, if_true]

/-- The derivation pass of a call without a cursor and without a year: `NULL`. -/
theorem null_pass_no_year (st : St) (h : HAVE_YEAR st.state = false) :
    null_pass st = .error st.fail := by
  simp [null_pass, derivation_pass, derive_yday, h, St.fail, St.result]

/-- The derivation pass leaves everything as it is when the year is not known. -/
theorem derivation_pass_no_year (st : St) (h : HAVE_YEAR st.state = false) :
    derivation_pass st = .ok st.result := by
  simp [derivation_pass, derive_yday, h]

/-- The `%z` conversion leaves the presence bits as they are. -/
theorem case_z_state (buf : List Nat) (st st1 : St) (h : case_z buf st = .ok st1) :
    st1.state = st.state := by
  simp only [case_z, case_z_numeric, case_z_default] at h
  repeat' split at h
  all_goals (cases h; try rfl)

/-- The `%z` conversion never leaves through `continue` with a `NULL` cursor. -/
theorem case_z_halt (buf : List Nat) (st : St) (e : Halt) (h : case_z buf st = .error e) :
    e = .ret st := by
  simp only [case_z, case_z_numeric, case_z_default] at h
  repeat' split at h
  all_goals (cases h; try rfl)

/-- The template `%z` is the `%z` conversion from the start of the subject string; the
derivation pass has nothing to derive. -/
theorem strptime_z (env : Env) (buf : List Nat) (tm : Tm) (off : Int) (zone : List Nat) :
    strptime_with_tz env buf (bytes "%z") tm off zone =
      match case_z buf (St.init 0 tm off zone) with
      | .error _ => .error .null
      | .ok st => .ok st.result := by
  have hf : bytes "%z" = [37, 122] := by decide
  rw [hf, strptime_single _ _ _ _ _ _ (by decide) (by decide) (by decide) (by decide)]
  have he : elementary env buf 122 0 (St.init 0 tm off zone) =
      case_z buf (St.init 0 tm off zone) := by
    simp +decide [elementary]
  rw [he]
  cases hz : case_z buf (St.init 0 tm off zone) with
  | error e =>
    rw [case_z_halt _ _ _ hz]
    rfl
  | ok st =>
    have hs := case_z_state _ _ _ hz
    simp only
    rw [derivation_pass_no_year st (by rw [hs]; show HAVE_YEAR 0 = false; decide)]
    rfl

/-! ## C1: the epoch date -/

/-- C1. Parsing "1970-01-01" with "%Y-%m-%d" succeeds at the end of the ten input bytes and
leaves year-offset 70 (calendar year 1970), month index 0, day of the month 1, day of the
year 0 and weekday 4 (Thursday); the other fields and outputs keep their initial content. -/
theorem parse_epoch_date (env : Env) (tm : Tm) (off : Int) (zone : List Nat) :
    strptime_with_tz env (bytes "1970-01-01") (bytes "%Y-%m-%d") tm off zone =
        .ok { bp := (bytes "1970-01-01").length,
              tm := { tm with tm_year := 70, tm_mon := 0, tm_mday := 1, tm_yday := 0,
                              tm_wday := 4 },
              tm_gmtoff := off, tm_zone := zone } ∧
      (70 : Int) + TM_YEAR_BASE = 1970 := by
  have hb : bytes "1970-01-01" = [49, 57, 55, 48, 45, 48, 49, 45, 48, 49] := by decide
  have hf : bytes "%Y-%m-%d" = [37, 89, 45, 37, 109, 45, 37, 100] := by decide
  refine ⟨?_, by decide⟩
  rw [hb, hf]
  simp +decide [strptime_with_tz, to_caller, strptime_depth, go, St.init, elementary, composite, conv_num,
    conv_num_loop, peek, isspace, LEGAL_ALT, illegal_alt, ALT_E, ALT_O, S_YEAR, S_MON, S_MDAY,
    TM_YEAR_BASE]
  simp +decide [derivation_pass, derive_yday, derive_mon, derive_mday, derive_wday, HAVE_YDAY,
    HAVE_YEAR, HAVE_MON, HAVE_MDAY, HAVE_WDAY, S_YEAR, S_MON, S_MDAY, S_YDAY, S_WDAY,
    TM_YEAR_BASE, start_of_month_at, start_of_month_from, start_of_month, St.result]

/-! ## C3, C4, C6, C7: the `%z` conversion -/

/-- C3. At the input "+0001" the `%z` conversion stores 36 seconds, not the 60 seconds of
one minute: the minutes are scaled by `(i * 50) / 30`, which truncates unless the minute
count is a multiple of three. -/
theorem z_offset_one_minute (env : Env) (tm : Tm) (off : Int) (zone : List Nat) :
    strptime_with_tz env (bytes "+0001") (bytes "%z") tm off zone =
        .ok { bp := 5, tm := { tm with tm_isdst := 0 }, tm_gmtoff := 36, tm_zone := utc } ∧
      (36 : Int) ≠ 1 * (0 * 3600 + 1 * 60) := by
  have hb : bytes "+0001" = [43, 48, 48, 48, 49] := by decide
  refine ⟨?_, by decide⟩
  rw [strptime_z, hb]
  simp +decide [case_z, case_z_numeric, offs_loop, St.init, skip_space, skip_while, peek,
    isspace, isdigit, St.result]

/-- The input "+0530", whose minute count is a multiple of three, does give the exact
19800 seconds. -/
theorem z_offset_0530 (env : Env) (tm : Tm) (off : Int) (zone : List Nat) :
    strptime_with_tz env (bytes "+0530") (bytes "%z") tm off zone =
      .ok { bp := 5, tm := { tm with tm_isdst := 0 }, tm_gmtoff := 19800, tm_zone := utc } := by
  have hb : bytes "+0530" = [43, 48, 53, 51, 48] := by decide
  rw [strptime_z, hb]
  simp +decide [case_z, case_z_numeric, offs_loop, St.init, skip_space, skip_while, peek,
    isspace, isdigit, St.result]

/-- C4. Parsing "EST" with "%z" succeeds with offset -18000 and zone label "EST", but the
daylight-saving flag is not written: it keeps whatever the accumulator held before. -/
theorem z_est_keeps_isdst (env : Env) (tm : Tm) (off : Int) (zone : List Nat) :
    strptime_with_tz env (bytes "EST") (bytes "%z") tm off zone =
      .ok { bp := 3, tm := tm, tm_gmtoff := -18000, tm_zone := bytes "EST" } := by
  have hb : bytes "EST" = [69, 83, 84] := by decide
  rw [strptime_z, hb]
  simp +decide [case_z, case_z_default, St.init, skip_space, skip_while, peek, isspace,
    find_string, find_in, strncasecmp_eq, nast, St.result]

/-- C6. The one-letter inputs "G" and "U" are rejected by "%z": the `switch` takes them for
the start of `GMT` and `UT` before the military letters are looked at. -/
theorem z_rejects_G_and_U (env : Env) (tm : Tm) (off : Int) (zone : List Nat) :
    strptime_with_tz env (bytes "G") (bytes "%z") tm off zone = .error .null ∧
      strptime_with_tz env (bytes "U") (bytes "%z") tm off zone = .error .null := by
  have hG : bytes "G" = [71] := by decide
  have hU : bytes "U" = [85] := by decide
  rw [strptime_z, strptime_z, hG, hU]
  constructor <;>
    simp +decide [case_z, St.init, skip_space, skip_while, peek, isspace]

/-- What "%z" does with a one-letter input in `A`..`I` or `L`..`Y`: `G` and `U` are
rejected, every other letter is accepted with the offset of the military-letter rule. -/
theorem z_military_letter (env : Env) (tm : Tm) (off : Int) (zone : List Nat) (c : Nat)
    (hc : (65 ≤ c ∧ c ≤ 73) ∨ (76 ≤ c ∧ c ≤ 89)) :
    strptime_with_tz env [c] (bytes "%z") tm off zone =
      if c = 71 ∨ c = 85 then .error .null
      else .ok { bp := 1, tm := tm,
                 tm_gmtoff := 3600 * (if c ≤ 73 then 64 - (c : Int)
                                      else if c ≤ 77 then 65 - (c : Int) else (c : Int) - 77),
                 tm_zone := utc } := by
  rw [strptime_z]
  rcases hc with ⟨h1, h2⟩ | ⟨h1, h2⟩ <;> interval_cases c <;>
    simp +decide [case_z, case_z_default, St.init, skip_space, skip_while, peek, isspace,
      find_string, find_in, strncasecmp_eq, nast, nadt, St.result]

/-- C7 (as stated, refuted). The input "L" parsed with "%z" gives -39600 seconds, eleven
hours west, not the ten hours the claim names for `L`. -/
theorem z_military_L_counterexample :
    strptime_with_tz Env.cet (bytes "L") (bytes "%z") Tm.zero 0 [] =
        .ok { bp := 1, tm := Tm.zero, tm_gmtoff := -39600, tm_zone := utc } ∧
      (-39600 : Int) ≠ -10 * 3600 := by
  decide

/-- C7 (amended). Whenever a one-letter input `c` in `A`..`I` or `L`..`Y` is accepted by
"%z", one byte is consumed and the offset in hours is minus the position of the letter in
the alphabet for `A`..`I` (-1 .. -9), -11 for `L` and -12 for `M`, and +1 for `N` up to +12
for `Y`; the offset in seconds is that number of hours times 3600. -/
theorem z_military_offset (env : Env) (tm : Tm) (off : Int) (zone : List Nat) (c : Nat)
    (hc : (65 ≤ c ∧ c ≤ 73) ∨ (76 ≤ c ∧ c ≤ 89)) (r : Result)
    (h : strptime_with_tz env [c] (bytes "%z") tm off zone = .ok r) :
    r.bp = 1 ∧
      r.tm_gmtoff = 3600 * (if c ≤ 73 then -((c : Int) - 64)
                            else if c = 76 then -11
                            else if c = 77 then -12
                            else (c : Int) - 77) := by
  rw [z_military_letter env tm off zone c hc] at h
  split at h
  · cases h
  · cases h
    refine ⟨rfl, ?_⟩
    show 3600 * _ = 3600 * _
    congr 1
    split_ifs <;> omega

/-- C7 (amended), at the letter `L`. -/
theorem z_military_offset_witness :
    ((65 ≤ 76 ∧ 76 ≤ 73) ∨ (76 ≤ 76 ∧ 76 ≤ 89)) ∧
      (⟨1, Tm.zero, -39600, utc⟩ : Result).tm_gmtoff = 3600 * -11 :=
  ⟨by decide,
   (z_military_offset Env.cet Tm.zero 0 [] 76 (by decide) ⟨1, Tm.zero, -39600, utc⟩
      (by decide)).2⟩

/-! ## Letter case: `find_string` only sees the lower-case image of the text -/

theorem tolower_idem (c : Nat) : tolower (tolower c) = tolower c := by
  unfold tolower
  split_ifs <;> omega

theorem peek_map_tolower (buf : List Nat) (i : Nat) :
    peek (buf.map tolower) i = tolower (peek buf i) := by
  have h := List.getD_map (l := buf) (d := 0) (n := i) tolower
  exact h

theorem strncasecmp_eq_map (name buf : List Nat) (bp : Nat) :
    strncasecmp_eq name (buf.map tolower) bp = strncasecmp_eq name buf bp := by
  simp only [strncasecmp_eq, peek_map_tolower, tolower_idem]

theorem find_in_map (buf : List Nat) (bp : Nat) (names : List (List Nat)) (i : Nat) :
    find_in (buf.map tolower) bp names i = find_in buf bp names i := by
  induction names generalizing i with
  | nil => rfl
  | cons name rest ih => simp only [find_in, strncasecmp_eq_map, ih]

theorem find_string_map (buf : List Nat) (bp : Nat) (n1 : List (List Nat))
    (n2 : Option (List (List Nat))) (c : Nat) :
    find_string (buf.map tolower) bp n1 n2 c = find_string buf bp n1 n2 c := by
  simp only [find_string, find_in_map]

/-- Two texts with the same lower-case image get the same answer from `find_string`. -/
theorem find_string_case (s t : List Nat) (h : s.map tolower = t.map tolower) (bp : Nat)
    (n1 : List (List Nat)) (n2 : Option (List (List Nat))) (c : Nat) :
    find_string s bp n1 n2 c = find_string t bp n1 n2 c := by
  rw [← find_string_map s, ← find_string_map t, h]

/-! ## C9: month names -/

/-- Any spelling of a month name, full or abbreviated, is found by `find_string` as that
month, with the cursor behind the whole name. -/
theorem find_month (s : List Nat) (k : Nat) (hk : k < 12)
    (hs : s.map tolower = (mon.getD k []).map tolower ∨
          s.map tolower = (abmon.getD k []).map tolower) :
    find_string s 0 mon (some abmon) 12 = some (s.length, k) := by
  rcases hs with hs | hs
  · have hl : s.length = (mon.getD k []).length := by
      simpa using congrArg List.length hs
    rw [find_string_case s _ hs, hl]
    interval_cases k <;> decide
  · have hl : s.length = (abmon.getD k []).length := by
      simpa using congrArg List.length hs
    rw [find_string_case s _ hs, hl]
    interval_cases k <;> decide

/-- C9. For every month index `k` in 0..11 and every upper/lower-case spelling `s` of the
full English month name or of its three-letter abbreviation, parsing `s` with "%B", "%b" or
"%h" succeeds, sets the month index to `k` and returns the position behind the whole of
`s`, so a full name is consumed entirely. -/
theorem month_name_any_case (env : Env) (tm : Tm) (off : Int) (zone : List Nat)
    (s fmt : List Nat) (k : Nat) (hk : k < 12)
    (hfmt : fmt = bytes "%B" ∨ fmt = bytes "%b" ∨ fmt = bytes "%h")
    (hs : s.map tolower = (mon.getD k []).map tolower ∨
          s.map tolower = (abmon.getD k []).map tolower) :
    strptime_with_tz env s fmt tm off zone =
      .ok { bp := s.length, tm := { tm with tm_mon := k }, tm_gmtoff := off,
            tm_zone := zone } := by
  have hB : bytes "%B" = [37, 66] := by decide
  have hb : bytes "%b" = [37, 98] := by decide
  have hh : bytes "%h" = [37, 104] := by decide
  have hfind := find_month s k hk hs
  rcases hfmt with rfl | rfl | rfl
  · rw [hB, strptime_single _ _ _ _ _ _ (by decide) (by decide) (by decide) (by decide)]
    simp +decide [elementary, St.init, hfind, LEGAL_ALT, illegal_alt, derivation_pass_no_year,
      HAVE_YEAR, S_YEAR, S_MON, St.result]
  · rw [hb, strptime_single _ _ _ _ _ _ (by decide) (by decide) (by decide) (by decide)]
    simp +decide [elementary, St.init, hfind, LEGAL_ALT, illegal_alt, derivation_pass_no_year,
      HAVE_YEAR, S_YEAR, S_MON, St.result]
  · rw [hh, strptime_single _ _ _ _ _ _ (by decide) (by decide) (by decide) (by decide)]
    simp +decide [elementary, St.init, hfind, LEGAL_ALT, illegal_alt, derivation_pass_no_year,
      HAVE_YEAR, S_YEAR, S_MON, St.result]

/-- C9, at the spelling "jANUARY" of the first month and the template "%B". -/
theorem month_name_any_case_witness :
    (0 < 12) ∧
      strptime_with_tz Env.cet (bytes "jANUARY") (bytes "%B") Tm.zero 0 [] =
        .ok { bp := 7, tm := { Tm.zero with tm_mon := 0 }, tm_gmtoff := 0, tm_zone := [] } :=
  ⟨by decide,
   month_name_any_case Env.cet Tm.zero 0 [] (bytes "jANUARY") (bytes "%B") 0 (by decide)
     (Or.inl rfl) (Or.inl (by decide))⟩

/-! ## C5: the North American zone abbreviations -/

/-- A byte whose lower-case image is a lower-case letter is that letter or its capital. -/
theorem tolower_eq_letter (a x : Nat) (h : tolower a = x) (hx : 97 ≤ x ∧ x ≤ 122) :
    a = x - 32 ∨ a = x := by
  unfold tolower at h
  split_ifs at h <;> omega

/-- The names of both tables are three bytes long and start with one of `E`, `C`, `M`,
`P`; they find themselves in their own table only. -/
theorem nast_nadt_entries (i : Nat) (hi : i < 4) :
    (nast.getD i []).length = 3 ∧ (nadt.getD i []).length = 3 ∧
      tolower ((nast.getD i []).getD 0 0) ∈ [101, 99, 109, 112] ∧
      tolower ((nadt.getD i []).getD 0 0) ∈ [101, 99, 109, 112] ∧
      find_string (nast.getD i []) 0 nast none 4 = some (3, i) ∧
      find_string (nadt.getD i []) 0 nast none 4 = none ∧
      find_string (nadt.getD i []) 0 nadt none 4 = some (3, i) := by
  interval_cases i <;> decide

/-- A three-letter text that starts with `E`, `C`, `M` or `P` in either case goes to the
`default:` branch of the `%z` switch with the cursor on its first byte. -/
theorem case_z_named (st : St) (s name : List Nat) (hs : s.map tolower = name.map tolower)
    (hname : name.length = 3) (h0 : tolower (name.getD 0 0) ∈ [101, 99, 109, 112])
    (hbp : st.bp = 0) : case_z s st = case_z_default s st 0 := by
  have hl : s.length = 3 := by
    have := congrArg List.length hs
    simpa [hname] using this
  obtain ⟨a, b, c, rfl⟩ := List.length_eq_three.mp hl
  obtain ⟨x, y, z, rfl⟩ := List.length_eq_three.mp hname
  simp only [List.map_cons, List.map_nil, List.cons.injEq, and_true] at hs
  simp only [List.getD_cons_zero] at h0
  have ha : tolower a ∈ [101, 99, 109, 112] := by rw [hs.1]; exact h0
  simp only [List.mem_cons, List.mem_singleton, List.not_mem_nil, or_false] at ha
  have ha' : a = 69 ∨ a = 101 ∨ a = 67 ∨ a = 99 ∨ a = 77 ∨ a = 109 ∨ a = 80 ∨ a = 112 := by
    rcases ha with h | h | h | h <;>
      rcases tolower_eq_letter a _ h (by decide) with h' | h' <;> simp [h']
  rcases ha' with rfl | rfl | rfl | rfl | rfl | rfl | rfl | rfl <;>
    simp +decide [case_z, skip_space, skip_while, peek, isspace, hbp]

/-- C5. For every index `i` in 0..3 and every upper/lower-case spelling `s` of the `i`-th
entry of `nast` (EST, CST, MST, PST), parsing `s` with "%z" succeeds, consumes three bytes,
sets the offset to `(-5 - i) * 3600` and the zone label to that entry; for a spelling of
the `i`-th entry of `nadt` (EDT, CDT, MDT, PDT) it succeeds, consumes three bytes, sets the
offset to `(-4 - i) * 3600`, the zone label to that entry and the daylight-saving flag
to 1. -/
theorem z_north_american (env : Env) (tm : Tm) (off : Int) (zone : List Nat) (i : Nat)
    (hi : i < 4) (s : List Nat) :
    (s.map tolower = (nast.getD i []).map tolower →
      strptime_with_tz env s (bytes "%z") tm off zone =
        .ok { bp := 3, tm := tm, tm_gmtoff := (-5 - (i : Int)) * 3600,
              tm_zone := nast.getD i [] }) ∧
    (s.map tolower = (nadt.getD i []).map tolower →
      strptime_with_tz env s (bytes "%z") tm off zone =
        .ok { bp := 3, tm := { tm with tm_isdst := 1 }, tm_gmtoff := (-4 - (i : Int)) * 3600,
              tm_zone := nadt.getD i [] }) := by
  obtain ⟨hl1, hl2, h1, h2, f1, f2, f3⟩ := nast_nadt_entries i hi
  constructor
  · intro hs
    rw [strptime_z, case_z_named _ s _ hs hl1 h1 rfl]
    simp only [case_z_default, find_string_case s _ hs, f1]
    rfl
  · intro hs
    rw [strptime_z, case_z_named _ s _ hs hl2 h2 rfl]
    simp only [case_z_default, find_string_case s _ hs, f2, f3]
    rfl

/-- C5, at the spellings "pSt" and "Pdt" of the fourth entries. -/
theorem z_north_american_witness :
    (3 < 4) ∧
      strptime_with_tz Env.cet (bytes "pSt") (bytes "%z") Tm.zero 0 [] =
        .ok { bp := 3, tm := Tm.zero, tm_gmtoff := -28800, tm_zone := bytes "PST" } ∧
      strptime_with_tz Env.cet (bytes "Pdt") (bytes "%z") Tm.zero 0 [] =
        .ok { bp := 3, tm := { Tm.zero with tm_isdst := 1 }, tm_gmtoff := -25200,
              tm_zone := bytes "PDT" } :=
  ⟨by decide,
   (z_north_american Env.cet Tm.zero 0 [] 3 (by decide) (bytes "pSt")).1 (by decide),
   (z_north_american Env.cet Tm.zero 0 [] 3 (by decide) (bytes "Pdt")).2 (by decide)⟩

/-! ## C8: the `%Z` conversion -/

/-- C8 (as stated, refuted). With the zone names `CET` and `CEST`, the lower-case input
"gmt" is rejected by "%Z": the comparison with `GMT` and `UTC` is `strncmp`, which tells
upper from lower case. -/
theorem Z_lower_case_gmt_counterexample :
    strptime_with_tz Env.cet (bytes "gmt") (bytes "%Z") Tm.zero 0 [] = .error .null := by
  decide

/-- C8 (amended). For every process-wide zone-name pair and every input whose first three
bytes are exactly the capitals `GMT` or `UTC`, parsing with "%Z" succeeds, consumes exactly
three bytes, and sets the offset to 0, the zone label to "GMT" and the daylight-saving flag
to 0. -/
theorem Z_gmt_utc_exact (env : Env) (buf : List Nat) (tm : Tm) (off : Int) (zone : List Nat)
    (h : buf.take 3 = bytes "GMT" ∨ buf.take 3 = bytes "UTC") :
    strptime_with_tz env buf (bytes "%Z") tm off zone =
      .ok { bp := 3, tm := { tm with tm_isdst := 0 }, tm_gmtoff := 0,
            tm_zone := bytes "GMT" } := by
  have hf : bytes "%Z" = [37, 90] := by decide
  have hg : bytes "GMT" = [71, 77, 84] := by decide
  have hu : bytes "UTC" = [85, 84, 67] := by decide
  rw [hf, strptime_single _ _ _ _ _ _ (by decide) (by decide) (by decide) (by decide)]
  have he : elementary env buf 90 0 (St.init 0 tm off zone) =
      case_Z env buf (St.init 0 tm off zone) := by
    simp +decide [elementary]
  rw [he, hg]
  rw [hg, hu] at h
  rcases buf with _ | ⟨a, _ | ⟨b, _ | ⟨c, rest⟩⟩⟩ <;>
    simp only [List.take, List.cons.injEq, and_true, reduceCtorEq, and_false, or_self] at h
  rcases h with ⟨rfl, rfl, rfl⟩ | ⟨rfl, rfl, rfl⟩
  · have h1 : strncmp_eq (71 :: 77 :: 84 :: rest) 0 [71, 77, 84] 3 = true := rfl
    simp +decide [case_Z, h1, gmt, utc, hg, hu, St.init, derivation_pass_no_year, HAVE_YEAR,
      S_YEAR, St.result]
  · have h1 : strncmp_eq (85 :: 84 :: 67 :: rest) 0 [85, 84, 67] 3 = true := rfl
    simp +decide [case_Z, h1, gmt, utc, hg, hu, St.init, derivation_pass_no_year, HAVE_YEAR,
      S_YEAR, St.result]

/-- C8 (amended), at the input "UTC+1" under the zone names `CET` and `CEST`. -/
theorem Z_gmt_utc_exact_witness :
    ((bytes "UTC+1").take 3 = bytes "GMT" ∨ (bytes "UTC+1").take 3 = bytes "UTC") ∧
      strptime_with_tz Env.cet (bytes "UTC+1") (bytes "%Z") Tm.zero 0 [] =
        .ok { bp := 3, tm := { Tm.zero with tm_isdst := 0 }, tm_gmtoff := 0,
              tm_zone := bytes "GMT" } :=
  ⟨by decide, Z_gmt_utc_exact Env.cet (bytes "UTC+1") Tm.zero 0 [] (by decide)⟩

/-! ## C10: two-digit fields beyond their bound -/

/-- Once `rulim` is zero the loop of `conv_num` stops. -/
theorem conv_num_loop_zero (ulim : Nat) (l : List Nat) (result bp : Nat) :
    conv_num_loop ulim l result 0 bp = (result, bp) := by
  cases l <;> simp [conv_num_loop]

/-- A text that starts with two digits `a`, `b`, read under a two-digit bound that the
first digit times ten does not exceed: both digits are read, then the range is checked. -/
theorem conv_num_two_digits (a b : Nat) (rest : List Nat) (llim ulim : Nat) (ha : a ≤ 9)
    (hb : b ≤ 9) (hu : 10 ≤ ulim ∧ ulim < 100) (h : a * 10 ≤ ulim) :
    conv_num ((48 + a) :: (48 + b) :: rest) 0 llim ulim =
      if 10 * a + b < llim ∨ ulim < 10 * a + b then none else some (2, 10 * a + b) := by
  have h1 : ¬ (48 + a < 48 ∨ 57 < 48 + a) := by omega
  have e1 : 48 + a - 48 = a := by omega
  have e2 : ulim / 10 ≠ 0 := by omega
  have e3 : 48 ≤ 48 + b ∧ 48 + b ≤ 57 := by omega
  have e4 : ulim / 10 / 10 = 0 := by omega
  have e5 : a * 10 + (48 + b - 48) = 10 * a + b := by omega
  simp only [conv_num, peek, List.getD_cons_zero, h1, if_false, List.drop_succ_cons,
    List.drop_zero, conv_num_loop, e1, h, e2, e3, e4, e5, ne_eq, not_false_eq_true, and_self,
    if_true, conv_num_loop_zero]

/-- A text that starts with a digit `a`, read under a bound that `a` times ten exceeds:
the loop stops behind the first digit, whatever follows. -/
theorem conv_num_first_digit (a : Nat) (rest : List Nat) (llim ulim : Nat) (ha : a ≤ 9)
    (h : ulim < a * 10) :
    conv_num ((48 + a) :: rest) 0 llim ulim =
      if a < llim ∨ ulim < a then none else some (1, a) := by
  have h1 : ¬ (48 + a < 48 ∨ 57 < 48 + a) := by omega
  have e1 : 48 + a - 48 = a := by omega
  have e2 : ¬ a * 10 ≤ ulim := by omega
  cases rest with
  | nil =>
    simp only [conv_num, peek, List.getD_cons_zero, h1, if_false, List.drop_succ_cons,
      List.drop_zero, conv_num_loop, e1]
  | cons c rest =>
    simp only [conv_num, peek, List.getD_cons_zero, h1, if_false, List.drop_succ_cons,
      List.drop_zero, conv_num_loop, e1, e2, false_and]

/-- The template `%d` is one call of `conv_num` with the bounds 1 and 31. -/
theorem strptime_d (env : Env) (buf : List Nat) (tm : Tm) (off : Int) (zone : List Nat) :
    strptime_with_tz env buf (bytes "%d") tm off zone =
      match conv_num buf 0 1 31 with
      | none => .error .null
      | some (bp, v) =>
        .ok { bp := bp, tm := { tm with tm_mday := v }, tm_gmtoff := off, tm_zone := zone } := by
  have hf : bytes "%d" = [37, 100] := by decide
  rw [hf, strptime_single _ _ _ _ _ _ (by decide) (by decide) (by decide) (by decide)]
  cases h : conv_num buf 0 1 31 <;>
    simp +decide [elementary, St.init, h, LEGAL_ALT, illegal_alt, derivation_pass_no_year, null_pass_no_year, St.fail,
      HAVE_YEAR, S_YEAR, S_MDAY, St.result]

/-- The template `%H` is one call of `conv_num` with the bounds 0 and 23. -/
theorem strptime_H (env : Env) (buf : List Nat) (tm : Tm) (off : Int) (zone : List Nat) :
    strptime_with_tz env buf (bytes "%H") tm off zone =
      match conv_num buf 0 0 23 with
      | none => .error .null
      | some (bp, v) =>
        .ok { bp := bp, tm := { tm with tm_hour := v }, tm_gmtoff := off, tm_zone := zone } := by
  have hf : bytes "%H" = [37, 72] := by decide
  rw [hf, strptime_single _ _ _ _ _ _ (by decide) (by decide) (by decide) (by decide)]
  cases h : conv_num buf 0 0 23 <;>
    simp +decide [elementary, St.init, h, LEGAL_ALT, illegal_alt, derivation_pass_no_year, null_pass_no_year, St.fail,
      HAVE_YEAR, S_YEAR, S_HOUR, St.result]

/-- C10 (as stated, refuted). The input "40" parsed with "%d" is accepted as day 4 and the
input "30" parsed with "%H" as hour 3, each with the cursor behind the first digit: the
guard `result * 10 <= ulim` ends the loop before the second digit is read. -/
theorem two_digit_bound_counterexample :
    strptime_with_tz Env.cet (bytes "40") (bytes "%d") Tm.zero 0 [] =
        .ok { bp := 1, tm := { Tm.zero with tm_mday := 4 }, tm_gmtoff := 0, tm_zone := [] } ∧
      strptime_with_tz Env.cet (bytes "30") (bytes "%H") Tm.zero 0 [] =
        .ok { bp := 1, tm := { Tm.zero with tm_hour := 3 }, tm_gmtoff := 0, tm_zone := [] } := by
  decide

/-- C10 (amended). For an input that begins with the two decimal digits `a`, `b`: parsing
with "%d" fails when the number `10 * a + b` is in 32..39, and parsing with "%H" fails when
it is in 24..29 (as "32" and "24" do); from 40 on with "%d" and from 30 on with "%H" only
the first digit is read, and the parse succeeds behind it with the value `a`. -/
theorem two_digit_bound (env : Env) (tm : Tm) (off : Int) (zone : List Nat) (a b : Nat)
    (rest : List Nat) (ha : a ≤ 9) (hb : b ≤ 9) :
    (32 ≤ 10 * a + b → 10 * a + b ≤ 39 →
      strptime_with_tz env ((48 + a) :: (48 + b) :: rest) (bytes "%d") tm off zone =
        .error .null) ∧
    (24 ≤ 10 * a + b → 10 * a + b ≤ 29 →
      strptime_with_tz env ((48 + a) :: (48 + b) :: rest) (bytes "%H") tm off zone =
        .error .null) ∧
    (40 ≤ 10 * a + b →
      strptime_with_tz env ((48 + a) :: (48 + b) :: rest) (bytes "%d") tm off zone =
        .ok { bp := 1, tm := { tm with tm_mday := a }, tm_gmtoff := off, tm_zone := zone }) ∧
    (30 ≤ 10 * a + b →
      strptime_with_tz env ((48 + a) :: (48 + b) :: rest) (bytes "%H") tm off zone =
        .ok { bp := 1, tm := { tm with tm_hour := a }, tm_gmtoff := off, tm_zone := zone }) := by
  refine ⟨fun h1 h2 => ?_, fun h1 h2 => ?_, fun h1 => ?_, fun h1 => ?_⟩
  · rw [strptime_d, conv_num_two_digits a b rest 1 31 ha hb (by omega) (by omega),
      if_pos (Or.inr (by omega))]
  · rw [strptime_H, conv_num_two_digits a b rest 0 23 ha hb (by omega) (by omega),
      if_pos (Or.inr (by omega))]
  · rw [strptime_d, conv_num_first_digit a _ 1 31 ha (by omega), if_neg (by omega)]
  · rw [strptime_H, conv_num_first_digit a _ 0 23 ha (by omega), if_neg (by omega)]

/-- C10 (amended), at the inputs "32", "24", "45" and "30". -/
theorem two_digit_bound_witness :
    strptime_with_tz Env.cet [48 + 3, 48 + 2] (bytes "%d") Tm.zero 0 [] = .error .null ∧
      strptime_with_tz Env.cet [48 + 2, 48 + 4] (bytes "%H") Tm.zero 0 [] = .error .null ∧
      strptime_with_tz Env.cet [48 + 4, 48 + 5] (bytes "%d") Tm.zero 0 [] =
        .ok { bp := 1, tm := { Tm.zero with tm_mday := (4 : Nat) }, tm_gmtoff := 0,
              tm_zone := [] } ∧
      strptime_with_tz Env.cet [48 + 3, 48 + 0] (bytes "%H") Tm.zero 0 [] =
        .ok { bp := 1, tm := { Tm.zero with tm_hour := (3 : Nat) }, tm_gmtoff := 0,
              tm_zone := [] } :=
  ⟨(two_digit_bound Env.cet Tm.zero 0 [] 3 2 [] (by decide) (by decide)).1
      (by decide) (by decide),
   (two_digit_bound Env.cet Tm.zero 0 [] 2 4 [] (by decide) (by decide)).2.1
      (by decide) (by decide),
   (two_digit_bound Env.cet Tm.zero 0 [] 4 5 [] (by decide) (by decide)).2.2.1 (by decide),
   (two_digit_bound Env.cet Tm.zero 0 [] 3 0 [] (by decide) (by decide)).2.2.2 (by decide)⟩

/-! ## C2: round trip through the derivation pass -/

/-- The cursor that `conv_num_loop` returns moves with the cursor it is given. -/
theorem conv_num_loop_shift (ulim : Nat) (l : List Nat) (k : Nat) :
    ∀ result rulim bp, conv_num_loop ulim l result rulim (bp + k) =
      ((conv_num_loop ulim l result rulim bp).1, (conv_num_loop ulim l result rulim bp).2 + k) := by
  induction l with
  | nil => intro result rulim bp; rfl
  | cons ch rest ih =>
    intro result rulim bp
    simp only [conv_num_loop]
    split_ifs
    · rw [show bp + k + 1 = bp + 1 + k by omega, ih]
    · rfl

/-- Reading a number behind a prefix is reading it from the start of the rest. -/
theorem conv_num_append (pre l : List Nat) (llim ulim : Nat) :
    conv_num (pre ++ l) pre.length llim ulim =
      (conv_num l 0 llim ulim).map fun p => (p.1 + pre.length, p.2) := by
  have hp : peek (pre ++ l) pre.length = peek l 0 := by
    simp [peek, List.getElem?_append_right]
  have hd : (pre ++ l).drop (pre.length + 1) = l.drop (0 + 1) := by
    rw [List.drop_append]
  have hs := conv_num_loop_shift ulim (l.drop (0 + 1)) pre.length (peek l 0 - 48) (ulim / 10) (0 + 1)
  rw [show 0 + 1 + pre.length = pre.length + 1 by omega] at hs
  simp only [conv_num, hp, hd, hs]
  split_ifs <;> simp

/-- Four digits under the bound 9999. -/
theorem conv_num_dec4 (n : Nat) (rest : List Nat) (hn : n ≤ 9999) :
    conv_num (dec4 n ++ rest) 0 0 9999 = some (4, n) := by
  have h1 : ¬ (48 + n / 1000 % 10 < 48 ∨ 57 < 48 + n / 1000 % 10) := by omega
  have e1 : 48 + n / 1000 % 10 - 48 = n / 1000 % 10 := by omega
  have e2 : n / 1000 % 10 * 10 ≤ 9999 := by omega
  have e3 : 48 ≤ 48 + n / 100 % 10 ∧ 48 + n / 100 % 10 ≤ 57 := by omega
  have e4 : (n / 1000 % 10 * 10 + (48 + n / 100 % 10 - 48)) = n / 100 := by omega
  have e5 : n / 100 * 10 ≤ 9999 := by omega
  have e6 : 48 ≤ 48 + n / 10 % 10 ∧ 48 + n / 10 % 10 ≤ 57 := by omega
  have e7 : n / 100 * 10 + (48 + n / 10 % 10 - 48) = n / 10 := by omega
  have e8 : n / 10 * 10 ≤ 9999 := by omega
  have e9 : 48 ≤ 48 + n % 10 ∧ 48 + n % 10 ≤ 57 := by omega
  have e10 : n / 10 * 10 + (48 + n % 10 - 48) = n := by omega
  have e11 : ¬ (n < 0 ∨ 9999 < n) := by omega
  simp only [dec4, List.cons_append, List.nil_append, conv_num, peek, List.getD_cons_zero, h1,
    if_false, List.drop_succ_cons, List.drop_zero, conv_num_loop, e1, e2, e3, e4, e5, e6, e7, e8,
    e9, e10, e11, ne_eq, not_false_eq_true, and_self, if_true, Nat.reduceDiv,
    OfNat.ofNat_ne_zero, conv_num_loop_zero]

/-- Three digits of a day of the year under the bounds 1 and 366. -/
theorem conv_num_dec3 (n : Nat) (rest : List Nat) (h1n : 1 ≤ n) (hn : n ≤ 366) :
    conv_num (dec3 n ++ rest) 0 1 366 = some (3, n) := by
  have h1 : ¬ (48 + n / 100 % 10 < 48 ∨ 57 < 48 + n / 100 % 10) := by omega
  have e1 : 48 + n / 100 % 10 - 48 = n / 100 := by omega
  have e5 : n / 100 * 10 ≤ 366 := by omega
  have e6 : 48 ≤ 48 + n / 10 % 10 ∧ 48 + n / 10 % 10 ≤ 57 := by omega
  have e7 : n / 100 * 10 + (48 + n / 10 % 10 - 48) = n / 10 := by omega
  have e8 : n / 10 * 10 ≤ 366 := by omega
  have e9 : 48 ≤ 48 + n % 10 ∧ 48 + n % 10 ≤ 57 := by omega
  have e10 : n / 10 * 10 + (48 + n % 10 - 48) = n := by omega
  have e11 : ¬ (n < 1 ∨ 366 < n) := by omega
  simp only [dec3, List.cons_append, List.nil_append, conv_num, peek, List.getD_cons_zero, h1,
    if_false, List.drop_succ_cons, List.drop_zero, conv_num_loop, e1, e5, e6, e7, e8,
    e9, e10, e11, ne_eq, not_false_eq_true, and_self, if_true, Nat.reduceDiv,
    OfNat.ofNat_ne_zero, conv_num_loop_zero]

/-- Two digits of a number inside a two-digit range. -/
theorem conv_num_dec2 (n : Nat) (rest : List Nat) (llim ulim : Nat) (hu : 10 ≤ ulim ∧ ulim < 100)
    (hn : llim ≤ n ∧ n ≤ ulim) : conv_num (dec2 n ++ rest) 0 llim ulim = some (2, n) := by
  have h := conv_num_two_digits (n / 10 % 10) (n % 10) rest llim ulim (by omega) (by omega) hu
    (by omega)
  have e : 10 * (n / 10 % 10) + n % 10 = n := by omega
  rw [e, if_neg (by omega)] at h
  exact h

/-- The C remainder is zero exactly when the Euclidean one is. -/
theorem tmod_eq_zero_iff_emod (x k : Int) : x.tmod k = 0 ↔ x % k = 0 := by
  rw [← Int.dvd_iff_tmod_eq_zero, ← Int.dvd_iff_emod_eq_zero]

/-- On the year field of a calendar year `y`, `isleap_sum(tm_year, TM_YEAR_BASE)` is the
Gregorian leap-year rule for `y`. -/
theorem isleap_sum_year (y : Nat) :
    isleap_sum ((y : Int) - 1900) TM_YEAR_BASE = gregorian_leap y := by
  have h300 : TM_YEAR_BASE.tmod 400 = 300 := by decide
  rw [Bool.eq_iff_iff]
  simp only [isleap_sum, isleap, gregorian_leap, h300, Bool.or_eq_true, Bool.and_eq_true,
    beq_iff_eq, bne_iff_ne, ne_eq, tmod_eq_zero_iff_emod]
  have hdef := Int.tmod_def ((y : Int) - 1900) 400
  generalize ((y : Int) - 1900).tdiv 400 = q at hdef
  generalize ((y : Int) - 1900).tmod 400 = t at hdef ⊢
  omega

/-- The template "%Y-%m-%d" on a text whose three numbers `conv_num` reads at the offsets
0, 5 and 8 with a `-` between them: the loop ends with year, month and day of the month
known, and the derivation pass follows. -/
theorem strptime_ymd (env : Env) (buf : List Nat) (tm : Tm) (off : Int) (zone : List Nat)
    (y m d : Nat) (hy : conv_num buf 0 0 9999 = some (4, y)) (h4 : peek buf 4 = 45)
    (hm : conv_num buf 5 1 12 = some (7, m)) (h7 : peek buf 7 = 45)
    (hd : conv_num buf 8 1 31 = some (10, d)) :
    strptime_with_tz env buf (bytes "%Y-%m-%d") tm off zone =
      to_caller (derivation_pass
        { bp := 10,
          tm := { tm with tm_year := (y : Int) - 1900, tm_mon := (m : Int) - 1, tm_mday := d },
          tm_gmtoff := off, tm_zone := zone, split_year := false, state := 11,
          day_offset := -1, week_offset := 0 }) := by
  have hf : bytes "%Y-%m-%d" = [37, 89, 45, 37, 109, 45, 37, 100] := by decide
  rw [hf]
  simp +decide [strptime_with_tz, -to_caller, strptime_depth, go, St.init, elementary, composite,
    hy, h4, hm, h7, hd, isspace, LEGAL_ALT, illegal_alt, ALT_E, ALT_O, S_YEAR, S_MON, S_MDAY,
    TM_YEAR_BASE]

/-- The template "%Y %j" on a text whose year `conv_num` reads at offset 0 and whose day
number it reads at offset 5, behind one blank: the loop ends with year and day of the year
known, and the derivation pass follows. -/
theorem strptime_yj (env : Env) (buf : List Nat) (tm : Tm) (off : Int) (zone : List Nat)
    (y j : Nat) (hy : conv_num buf 0 0 9999 = some (4, y)) (h4 : skip_space buf 4 = 5)
    (hj : conv_num buf 5 1 366 = some (8, j)) :
    strptime_with_tz env buf (bytes "%Y %j") tm off zone =
      to_caller (derivation_pass
        { bp := 8,
          tm := { tm with tm_year := (y : Int) - 1900, tm_yday := (j : Int) - 1 },
          tm_gmtoff := off, tm_zone := zone, split_year := false, state := 5,
          day_offset := -1, week_offset := 0 }) := by
  have hf : bytes "%Y %j" = [37, 89, 32, 37, 106] := by decide
  rw [hf]
  simp +decide [strptime_with_tz, -to_caller, strptime_depth, go, St.init, elementary, composite,
    hy, h4, hj, isspace, LEGAL_ALT, illegal_alt, ALT_E, ALT_O, S_YEAR, S_YDAY, TM_YEAR_BASE]

/-- The table entry of month `m` (1..12), read the way the derivation pass reads it. -/
theorem start_of_month_at_month (leap : Bool) (m : Nat) (hm : 1 ≤ m ∧ m ≤ 12) :
    start_of_month_at leap ((m : Int) - 1) = some ((start_of_month_from leap).getD (m - 1) 0) := by
  obtain ⟨h1, h2⟩ := hm
  cases leap <;> interval_cases m <;> decide

/-- The month scan stops at the first entry that exceeds the day of the year. -/
theorem month_scan_eq (yday : Int) (l : List Int) :
    ∀ (i : Int) (k : Nat), k < l.length → (∀ j < k, l.getD j 0 ≤ yday) → yday < l.getD k 0 →
      month_scan yday l i = some (i + k) := by
  induction l with
  | nil => intro i k hk; simp at hk
  | cons e rest ih =>
    intro i k hk hlo hhi
    cases k with
    | zero =>
      simp only [List.getD_cons_zero] at hhi
      simp [month_scan, not_le.mpr hhi]
    | succ k =>
      have h0 : e ≤ yday := by simpa using hlo 0 (by omega)
      simp only [month_scan, h0, if_true]
      rw [ih (i + 1) k (by simpa using hk) (fun j hj => by simpa using hlo (j + 1) (by omega))
        (by simpa using hhi)]
      push_cast
      congr 1
      ring

/-- Each row of the table grows, and consecutive entries differ by the length of the
month between them. -/
theorem start_of_month_rows :
    ∀ leap : Bool, ∀ k < 13,
      (∀ j, j ≤ k → (start_of_month_from leap).getD j 0 ≤ (start_of_month_from leap).getD k 0) ∧
      (1 ≤ k → (start_of_month_from leap).getD k 0 =
        (start_of_month_from leap).getD (k - 1) 0 + (month_length leap k : Int)) := by
  decide

/-- The month scan of a day of the year that lies in month `m` stops at `i = m`. -/
theorem month_scan_month (leap : Bool) (m d : Nat) (hm : 1 ≤ m ∧ m ≤ 12)
    (hd : 1 ≤ d ∧ d ≤ month_length leap m) :
    month_scan ((start_of_month_from leap).getD (m - 1) 0 + ((d : Int) - 1))
      (start_of_month_from leap) 0 = some (m : Int) := by
  obtain ⟨h1, h2⟩ := hm
  obtain ⟨hd1, hd2⟩ := hd
  have hlen : m < (start_of_month_from leap).length := by
    have : 13 ≤ (start_of_month_from leap).length := by cases leap <;> decide
    omega
  have hprev := (start_of_month_rows leap (m - 1) (by omega)).1
  have hnext := (start_of_month_rows leap m (by omega)).2 (by omega)
  have h := month_scan_eq ((start_of_month_from leap).getD (m - 1) 0 + ((d : Int) - 1))
    (start_of_month_from leap) 0 m hlen
    (fun j hj => by have := hprev j (by omega); omega)
    (by rw [hnext]; omega)
  simpa using h

/-- The weekday block only writes the weekday. -/
theorem derive_wday_fields (st : St) :
    (derive_wday st).result.tm.tm_yday = st.tm.tm_yday ∧
      (derive_wday st).result.tm.tm_mon = st.tm.tm_mon ∧
      (derive_wday st).result.tm.tm_mday = st.tm.tm_mday ∧
      (derive_wday st).result.tm.tm_year = st.tm.tm_year := by
  unfold derive_wday
  split <;> exact ⟨rfl, rfl, rfl, rfl⟩

/-- The derivation pass behind "%Y-%m-%d": the day of the year is the table entry of the
month plus the day of the month minus one; the year stays. -/
theorem derive_ymd (tm : Tm) (off : Int) (zone : List Nat) (y m d : Nat)
    (hm : 1 ≤ m ∧ m ≤ 12) :
    ∃ r, derivation_pass
        { bp := 10,
          tm := { tm with tm_year := (y : Int) - 1900, tm_mon := (m : Int) - 1, tm_mday := d },
          tm_gmtoff := off, tm_zone := zone, split_year := false, state := 11,
          day_offset := -1, week_offset := 0 } = .ok r ∧
      r.tm.tm_yday =
        (start_of_month_from (gregorian_leap y)).getD (m - 1) 0 + ((d : Int) - 1) := by
  have h1 : HAVE_YDAY 11 = false := by decide
  have h2 : HAVE_YEAR 11 = true := by decide
  have h3 : HAVE_MON 11 = true := by decide
  have h4 : HAVE_MDAY 11 = true := by decide
  have h5 : HAVE_YDAY (11 ||| S_YDAY) = true := by decide
  have h6 : HAVE_YEAR (11 ||| S_YDAY) = true := by decide
  have h7 : HAVE_MON (11 ||| S_YDAY) = true := by decide
  have h8 : HAVE_MDAY (11 ||| S_YDAY) = true := by decide
  simp only [derivation_pass, derive_yday, derive_mon, derive_mday, h1, h2, h3, h4, h5, h6, h7,
    h8, isleap_sum_year, start_of_month_at_month _ m hm, Bool.not_false, Bool.not_true,
    Bool.and_self, if_true, Bool.false_eq_true, if_false, Bool.false_and, Bool.true_and,
    Bool.and_true, Bool.and_false]
  exact ⟨_, rfl, (derive_wday_fields _).1⟩

/-- The derivation pass behind "%Y %j" for a day of the year that lies in month `m`: the
month index is `m - 1`, the day of the month is the distance to the table entry plus one,
and the year stays. -/
theorem derive_yj (tm : Tm) (off : Int) (zone : List Nat) (y m d : Nat)
    (hm : 1 ≤ m ∧ m ≤ 12) (hd : 1 ≤ d ∧ d ≤ gregorian_month_length y m) :
    ∃ r, derivation_pass
        { bp := 8,
          tm := { tm with
                  tm_year := (y : Int) - 1900,
                  tm_yday := (start_of_month_from (gregorian_leap y)).getD (m - 1) 0 +
                               ((d : Int) - 1) },
          tm_gmtoff := off, tm_zone := zone, split_year := false, state := 5,
          day_offset := -1, week_offset := 0 } = .ok r ∧
      r.tm.tm_mon = (m : Int) - 1 ∧ r.tm.tm_mday = d ∧ r.tm.tm_year + TM_YEAR_BASE = y := by
  have h1 : HAVE_YDAY 5 = true := by decide
  have h2 : HAVE_YEAR 5 = true := by decide
  have h3 : HAVE_MON 5 = false := by decide
  have h4 : HAVE_MDAY (5 ||| S_MON) = false := by decide
  have hle : ¬ (12 : Int) < (m : Int) := by omega
  simp only [derivation_pass, derive_yday, derive_mon, derive_mday, h1, h2, h3, h4, hle,
    isleap_sum_year, month_scan_month _ m d hm hd, start_of_month_at_month _ m hm,
    Bool.not_false, Bool.not_true, Bool.and_self, if_true, Bool.false_eq_true, if_false,
    Bool.false_and, Bool.true_and, Bool.and_true, Bool.and_false]
  obtain ⟨e1, e2, e3, e4⟩ := derive_wday_fields
    { bp := 8,
      tm := { tm with
              tm_year := (y : Int) - 1900,
              tm_yday := (start_of_month_from (gregorian_leap y)).getD (m - 1) 0 +
                           ((d : Int) - 1),
              tm_mon := (m : Int) - 1,
              tm_mday := (start_of_month_from (gregorian_leap y)).getD (m - 1) 0 +
                           ((d : Int) - 1) -
                         (start_of_month_from (gregorian_leap y)).getD (m - 1) 0 + 1 },
      tm_gmtoff := off, tm_zone := zone, split_year := false, state := 5 ||| S_MON ||| S_MDAY,
      day_offset := -1, week_offset := 0 }
  refine ⟨_, rfl, e2, ?_, ?_⟩
  · rw [e3]; simp only []; omega
  · rw [e4]; simp only [TM_YEAR_BASE]; omega

/-- A decimal digit is not white space. -/
theorem isspace_digit (x : Nat) : isspace (48 + x) = false := by
  simp only [isspace, Bool.or_eq_false_iff, beq_eq_false_iff_ne, Bool.and_eq_false_iff,
    decide_eq_false_iff_not]
  omega

/-- No month is longer than 31 days, and the entry of a month plus a day of that month
stays within 1..366. -/
theorem month_day_bounds (leap : Bool) (m d : Nat) (hm : 1 ≤ m ∧ m ≤ 12)
    (hd : 1 ≤ d ∧ d ≤ month_length leap m) :
    d ≤ 31 ∧ 0 ≤ (start_of_month_from leap).getD (m - 1) 0 ∧
      (start_of_month_from leap).getD (m - 1) 0 + (d : Int) ≤ 366 := by
  obtain ⟨h1, h2⟩ := hm
  have hlen : month_length leap m ≤ 31 := by
    cases leap <;> interval_cases m <;> decide
  have h0 : (start_of_month_from leap).getD 0 0 = 0 := by cases leap <;> decide
  have h12 : (start_of_month_from leap).getD 12 0 ≤ 366 := by cases leap <;> decide
  have hlo := (start_of_month_rows leap (m - 1) (by omega)).1 0 (by omega)
  have hhi := (start_of_month_rows leap 12 (by omega)).1 m h2
  have hnext := (start_of_month_rows leap m (by omega)).2 h1
  omega

/-- C2. Round trip through the derivation pass: for every calendar year `y` in 0..9999,
month `m` in 1..12 and day `d` between 1 and the true length of month `m` in year `y`, the
text `yyyy-mm-dd` parses with "%Y-%m-%d", and for the day of the year `n` derived there the
text `yyyy ddd` of the year and the day number `n + 1` parses with "%Y %j" and derives the
month index `m - 1` and the day of the month `d` again, with the year equal to `y`.  The
numbers are written with four, two and three digits; the two parses may start from any
accumulators. -/
theorem ymd_yday_round_trip (env : Env) (tm tm' : Tm) (off off' : Int) (zone zone' : List Nat)
    (y m d : Nat) (hy : y ≤ 9999) (hm : 1 ≤ m ∧ m ≤ 12)
    (hd : 1 ≤ d ∧ d ≤ gregorian_month_length y m) :
    ∃ r1 r2,
      strptime_with_tz env (dec4 y ++ 45 :: (dec2 m ++ 45 :: dec2 d)) (bytes "%Y-%m-%d")
          tm off zone = .ok r1 ∧
        strptime_with_tz env (dec4 y ++ 32 :: dec3 (r1.tm.tm_yday + 1).toNat) (bytes "%Y %j")
          tm' off' zone' = .ok r2 ∧
        r2.tm.tm_mon = (m : Int) - 1 ∧ r2.tm.tm_mday = d ∧ r2.tm.tm_year + TM_YEAR_BASE = y := by
  obtain ⟨hd31, hS0, hS366⟩ := month_day_bounds (gregorian_leap y) m d hm hd
  -- the first parse
  have hy1 : conv_num (dec4 y ++ 45 :: (dec2 m ++ 45 :: dec2 d)) 0 0 9999 = some (4, y) :=
    conv_num_dec4 y _ hy
  have h4 : peek (dec4 y ++ 45 :: (dec2 m ++ 45 :: dec2 d)) 4 = 45 := rfl
  have h7 : peek (dec4 y ++ 45 :: (dec2 m ++ 45 :: dec2 d)) 7 = 45 := rfl
  have hm1 : conv_num (dec4 y ++ 45 :: (dec2 m ++ 45 :: dec2 d)) 5 1 12 = some (7, m) := by
    have h := conv_num_append (dec4 y ++ [45]) (dec2 m ++ 45 :: dec2 d) 1 12
    rw [conv_num_dec2 m _ 1 12 (by omega) (by omega)] at h
    exact h
  have hd1 : conv_num (dec4 y ++ 45 :: (dec2 m ++ 45 :: dec2 d)) 8 1 31 = some (10, d) := by
    have h := conv_num_append (dec4 y ++ 45 :: (dec2 m ++ [45])) (dec2 d ++ []) 1 31
    rw [conv_num_dec2 d _ 1 31 (by omega) (by omega)] at h
    exact h
  obtain ⟨r1, hr1, hyday⟩ := derive_ymd tm off zone y m d hm
  refine ⟨r1, ?_⟩
  rw [strptime_ymd env _ tm off zone y m d hy1 h4 hm1 h7 hd1, hr1]
  -- the day number handed to the second parse
  obtain ⟨j, hj⟩ : ∃ j : Nat, (r1.tm.tm_yday + 1).toNat = j := ⟨_, rfl⟩
  have hj1 : (j : Int) - 1 =
      (start_of_month_from (gregorian_leap y)).getD (m - 1) 0 + ((d : Int) - 1) := by
    have := Int.toNat_of_nonneg (a := r1.tm.tm_yday + 1) (by omega)
    omega
  have hjb : 1 ≤ j ∧ j ≤ 366 := by omega
  rw [hj]
  -- the second parse
  have hy2 : conv_num (dec4 y ++ 32 :: dec3 j) 0 0 9999 = some (4, y) := conv_num_dec4 y _ hy
  have hs : skip_space (dec4 y ++ 32 :: dec3 j) 4 = 5 := by
    have h32 : isspace 32 = true := by decide
    simp only [skip_space, dec4, dec3, List.cons_append, List.nil_append, List.drop_succ_cons,
      List.drop_zero, skip_while, h32, if_true, isspace_digit, Bool.false_eq_true, if_false]
  have hj2 : conv_num (dec4 y ++ 32 :: dec3 j) 5 1 366 = some (8, j) := by
    have h := conv_num_append (dec4 y ++ [32]) (dec3 j ++ []) 1 366
    rw [conv_num_dec3 j _ hjb.1 hjb.2] at h
    simpa using h
  obtain ⟨r2, hr2, hfields⟩ := derive_yj tm' off' zone' y m d hm hd
  refine ⟨r2, rfl, ?_, hfields⟩
  rw [strptime_yj env _ tm' off' zone' y j hy2 hs hj2, hj1, hr2]
  rfl

/-- C2, at 29 February 2024. -/
theorem ymd_yday_round_trip_witness :
    2024 ≤ 9999 ∧ (1 ≤ 2 ∧ 2 ≤ 12) ∧ (1 ≤ 29 ∧ 29 ≤ gregorian_month_length 2024 2) ∧
      ∃ r1 r2,
        strptime_with_tz Env.cet (dec4 2024 ++ 45 :: (dec2 2 ++ 45 :: dec2 29))
            (bytes "%Y-%m-%d") Tm.zero 0 [] = .ok r1 ∧
          strptime_with_tz Env.cet (dec4 2024 ++ 32 :: dec3 (r1.tm.tm_yday + 1).toNat)
            (bytes "%Y %j") Tm.zero 0 [] = .ok r2 ∧
          r2.tm.tm_mon = ((2 : Nat) : Int) - 1 ∧ r2.tm.tm_mday = (29 : Nat) ∧
            r2.tm.tm_year + TM_YEAR_BASE = (2024 : Nat) :=
  ⟨by decide, by decide, by decide,
   ymd_yday_round_trip Env.cet Tm.zero Tm.zero 0 0 [] [] 2024 2 29 (by decide) (by decide)
     (by decide)⟩

/-! ## C11: the numeric field reader -/

/-- Dividing a non-zero bound by ten takes one decimal digit off it. -/
theorem digits_length_div (n : Nat) (h : n ≠ 0) :
    (Nat.digits 10 n).length = (Nat.digits 10 (n / 10)).length + 1 := by
  rw [Nat.digits_def' (by decide) (Nat.pos_of_ne_zero h)]
  rfl

/-- What the loop of `conv_num` does: it reads a run of `k` digits from the text, at most
as many as `rulim` has decimal digits, and folds them into `result`. -/
theorem conv_num_loop_spec (ulim : Nat) (l : List Nat) :
    ∀ result rulim bp, ∃ k,
      conv_num_loop ulim l result rulim bp =
          ((l.take k).foldl (fun acc ch => acc * 10 + (ch - 48)) result, bp + k) ∧
        k ≤ (Nat.digits 10 rulim).length ∧ k ≤ l.length ∧
        ∀ x ∈ l.take k, isdigit x = true := by
  induction l with
  | nil => intro result rulim bp; exact ⟨0, rfl, Nat.zero_le _, Nat.le_refl _, by simp⟩
  | cons ch rest ih =>
    intro result rulim bp
    by_cases hc : result * 10 ≤ ulim ∧ rulim ≠ 0 ∧ 48 ≤ ch ∧ ch ≤ 57
    · obtain ⟨k, hk, hlen, hrest, hdig⟩ := ih (result * 10 + (ch - 48)) (rulim / 10) (bp + 1)
      refine ⟨k + 1, ?_, ?_, ?_, ?_⟩
      · simp only [conv_num_loop, hc, and_self, if_true, hk, List.take_succ_cons,
          List.foldl_cons, ne_eq, not_false_eq_true]
        congr 1
        omega
      · rw [digits_length_div rulim hc.2.1]; omega
      · simp only [List.length_cons]; omega
      · intro x hx
        simp only [List.take_succ_cons, List.mem_cons] at hx
        rcases hx with rfl | hx
        · simp [isdigit, hc.2.2.1, hc.2.2.2]
        · exact hdig x hx
    · exact ⟨0, by simp only [conv_num_loop, hc, if_false, List.take_zero, List.foldl_nil,
        Nat.add_zero], Nat.zero_le _, Nat.zero_le _, by simp⟩

/-- C11. Postcondition of `conv_num`, for every text, cursor and bound pair with a positive
upper bound (all bounds of the dispatcher are 6 or more): the reader fails when the byte
under the cursor is not a decimal digit, and whenever it succeeds with the new cursor `bp1`
and the value `v`, the consumed bytes `buf[bp .. bp1)` are (a) all decimal digits, (b) at
least one and at most as many as the upper bound has decimal digits, (c) `v` is their
decimal value, and (d) `llim <= v <= ulim`. -/
theorem conv_num_postcondition (buf : List Nat) (bp llim ulim : Nat) (hu : 0 < ulim) :
    (isdigit (peek buf bp) = false → conv_num buf bp llim ulim = none) ∧
      ∀ bp1 v, conv_num buf bp llim ulim = some (bp1, v) →
        ((buf.drop bp).take (bp1 - bp)).length = bp1 - bp ∧
        (∀ x ∈ (buf.drop bp).take (bp1 - bp), isdigit x = true) ∧
        1 ≤ bp1 - bp ∧ bp1 - bp ≤ (Nat.digits 10 ulim).length ∧
        v = decimal_value ((buf.drop bp).take (bp1 - bp)) ∧
        llim ≤ v ∧ v ≤ ulim := by
  constructor
  · intro h
    have h' : peek buf bp < 48 ∨ 57 < peek buf bp := by
      simp only [isdigit, Bool.and_eq_false_iff, decide_eq_false_iff_not] at h
      omega
    simp only [conv_num, h', if_true]
  · intro bp1 v h
    by_cases h0 : peek buf bp < 48 ∨ 57 < peek buf bp
    · simp [conv_num, h0] at h
    · obtain ⟨k, hk, hlen, hrest, hdig⟩ :=
        conv_num_loop_spec ulim (buf.drop (bp + 1)) (peek buf bp - 48) (ulim / 10) (bp + 1)
      have hlt : bp < buf.length := by
        by_contra hge
        have : peek buf bp = 0 := by
          simp only [peek]
          exact List.getD_eq_default _ _ (by omega)
        omega
      have hdrop : buf.drop bp = peek buf bp :: buf.drop (bp + 1) := by
        have : peek buf bp = buf[bp] := by
          simp [peek, List.getD_eq_getElem?_getD, List.getElem?_eq_getElem hlt]
        rw [this]
        exact List.drop_eq_getElem_cons hlt
      simp only [conv_num, h0, if_false, hk] at h
      split_ifs at h with hr
      simp only [Option.some.injEq, Prod.mk.injEq] at h
      obtain ⟨rfl, rfl⟩ := h
      have hsub : bp + 1 + k - bp = k + 1 := by omega
      rw [hsub, hdrop, List.take_succ_cons]
      refine ⟨?_, ?_, by omega, ?_, ?_, by omega, by omega⟩
      · simp only [List.length_cons, List.length_take]
        omega
      · intro x hx
        simp only [List.mem_cons] at hx
        rcases hx with rfl | hx
        · simp only [isdigit, Bool.and_eq_true, decide_eq_true_eq]; omega
        · exact hdig x hx
      · rw [digits_length_div ulim (by omega)]; omega
      · simp only [decimal_value, List.foldl_cons, Nat.zero_mul, Nat.zero_add]

/-- C11, at the text "366x" read under the bounds 1 and 366. -/
theorem conv_num_postcondition_witness :
    0 < 366 ∧
      ((bytes "366x").drop 0).take (3 - 0) = bytes "366" ∧
      (366 : Nat) = decimal_value (((bytes "366x").drop 0).take (3 - 0)) ∧
      3 - 0 ≤ (Nat.digits 10 366).length :=
  ⟨by decide, by decide,
   ((conv_num_postcondition (bytes "366x") 0 1 366 (by decide)).2 3 366 (by decide)).2.2.2.2.1,
   ((conv_num_postcondition (bytes "366x") 0 1 366 (by decide)).2 3 366 (by decide)).2.2.2.1⟩

/-! ## C12: century and two-digit year -/

/-- The template "%C%y" on a text whose two numbers `conv_num` reads at the offsets 0
and 2. -/
theorem strptime_Cy (env : Env) (buf : List Nat) (tm : Tm) (off : Int) (zone : List Nat)
    (cc yy : Nat) (hc : conv_num buf 0 0 99 = some (2, cc))
    (hy : conv_num buf 2 0 99 = some (4, yy)) :
    strptime_with_tz env buf (bytes "%C%y") tm off zone =
      .ok { bp := 4,
            tm := { tm with tm_year := (yy : Int) + (((cc : Int) * 100 - 1900).tdiv 100) * 100 },
            tm_gmtoff := off, tm_zone := zone } := by
  have hf : bytes "%C%y" = [37, 67, 37, 121] := by decide
  rw [hf]
  simp +decide [strptime_with_tz, to_caller, strptime_depth, go, St.init, elementary, composite, hc, hy,
    isspace, LEGAL_ALT, illegal_alt, ALT_E, ALT_O, S_YEAR, TM_YEAR_BASE, derivation_pass,
    derive_yday, HAVE_YDAY, HAVE_YEAR, HAVE_MON, HAVE_MDAY, S_MON, S_MDAY, S_YDAY, St.result]

/-- The template "%y%C" on a text whose two numbers `conv_num` reads at the offsets 0
and 2. -/
theorem strptime_yC (env : Env) (buf : List Nat) (tm : Tm) (off : Int) (zone : List Nat)
    (cc yy : Nat) (hy : conv_num buf 0 0 99 = some (2, yy))
    (hc : conv_num buf 2 0 99 = some (4, cc)) :
    strptime_with_tz env buf (bytes "%y%C") tm off zone =
      .ok { bp := 4,
            tm := { tm with
                    tm_year := (cc : Int) * 100 - 1900 +
                      (if yy ≤ 68 then (yy : Int) + 2000 - 1900
                       else (yy : Int) + 1900 - 1900).tmod 100 },
            tm_gmtoff := off, tm_zone := zone } := by
  have hf : bytes "%y%C" = [37, 121, 37, 67] := by decide
  rw [hf]
  simp +decide [strptime_with_tz, to_caller, strptime_depth, go, St.init, elementary, composite, hc, hy,
    isspace, LEGAL_ALT, illegal_alt, ALT_E, ALT_O, S_YEAR, TM_YEAR_BASE, derivation_pass,
    derive_yday, HAVE_YDAY, HAVE_YEAR, HAVE_MON, HAVE_MDAY, S_MON, S_MDAY, S_YDAY, St.result]

/-- C12. Century and two-digit year compose in either order: for every century `cc` in
00..99 and two-digit year `yy` in 00..99, the four digits `ccyy` parsed with "%C%y" and the
four digits `yycc` parsed with "%y%C" both succeed and both leave the year field at
`cc * 100 + yy - 1900`, the calendar year `cc * 100 + yy`. -/
theorem century_year_compose (env : Env) (tm : Tm) (off : Int) (zone : List Nat)
    (cc yy : Nat) (hcc : cc ≤ 99) (hyy : yy ≤ 99) :
    strptime_with_tz env (dec2 cc ++ dec2 yy) (bytes "%C%y") tm off zone =
        .ok { bp := 4, tm := { tm with tm_year := (cc : Int) * 100 + yy - TM_YEAR_BASE },
              tm_gmtoff := off, tm_zone := zone } ∧
      strptime_with_tz env (dec2 yy ++ dec2 cc) (bytes "%y%C") tm off zone =
        .ok { bp := 4, tm := { tm with tm_year := (cc : Int) * 100 + yy - TM_YEAR_BASE },
              tm_gmtoff := off, tm_zone := zone } := by
  have second (a b : Nat) (hb : b ≤ 99) : conv_num (dec2 a ++ dec2 b) 2 0 99 = some (4, b) := by
    have h := conv_num_append (dec2 a) (dec2 b ++ []) 0 99
    rw [conv_num_dec2 b _ 0 99 (by omega) (by omega)] at h
    simpa using h
  have hb : TM_YEAR_BASE = 1900 := rfl
  constructor
  · rw [strptime_Cy env _ tm off zone cc yy (conv_num_dec2 cc _ 0 99 (by omega) (by omega))
      (second cc yy hyy)]
    have e : ((cc : Int) * 100 - 1900) = ((cc : Int) - 19) * 100 := by ring
    rw [e, Int.mul_tdiv_cancel _ (by decide), hb]
    congr 3
    ring
  · rw [strptime_yC env _ tm off zone cc yy (conv_num_dec2 yy _ 0 99 (by omega) (by omega))
      (second yy cc hcc)]
    have e : (if yy ≤ 68 then (yy : Int) + 2000 - 1900 else (yy : Int) + 1900 - 1900).tmod 100
        = yy := by
      split_ifs <;> rw [Int.tmod_eq_emod (by omega) (by decide)] <;> omega
    rw [e, hb]
    congr 3
    ring

/-- C12, at the century 20 and the year 24. -/
theorem century_year_compose_witness :
    20 ≤ 99 ∧ 24 ≤ 99 ∧
      strptime_with_tz Env.cet (dec2 20 ++ dec2 24) (bytes "%C%y") Tm.zero 0 [] =
        .ok { bp := 4, tm := { Tm.zero with tm_year := ((20 : Nat) : Int) * 100 + (24 : Nat) -
                TM_YEAR_BASE }, tm_gmtoff := 0, tm_zone := [] } :=
  ⟨by decide, by decide,
   (century_year_compose Env.cet Tm.zero 0 [] 20 24 (by decide) (by decide)).1⟩

/-! ## C13: the 12-hour clock -/

/-- Comparing a name behind a prefix is comparing it at the start of the rest. -/
theorem strncasecmp_eq_append (name pre l : List Nat) :
    strncasecmp_eq name (pre ++ l) pre.length = strncasecmp_eq name l 0 := by
  have hp : ∀ j, peek (pre ++ l) (pre.length + j) = peek l (0 + j) := by
    intro j
    simp [peek, List.getElem?_append_right]
  simp only [strncasecmp_eq, hp]

theorem find_in_append (pre l : List Nat) (names : List (List Nat)) (i : Nat) :
    find_in (pre ++ l) pre.length names i =
      (find_in l 0 names i).map fun p => (p.1 + pre.length, p.2) := by
  induction names generalizing i with
  | nil => rfl
  | cons name rest ih =>
    simp only [find_in, strncasecmp_eq_append, ih]
    split_ifs
    · simp [Nat.add_comm]
    · rfl

/-- Looking a name up behind a prefix is looking it up at the start of the rest. -/
theorem find_string_append (pre l : List Nat) (n1 : List (List Nat))
    (n2 : Option (List (List Nat))) (c : Nat) :
    find_string (pre ++ l) pre.length n1 n2 c =
      (find_string l 0 n1 n2 c).map fun p => (p.1 + pre.length, p.2) := by
  simp only [find_string, find_in_append]
  cases find_in l 0 (List.take c n1) 0 with
  | some r => rfl
  | none =>
    cases n2 with
    | none => rfl
    | some n => rfl

/-- One digit followed by a byte that is no digit. -/
theorem conv_num_one_digit (a ch : Nat) (rest : List Nat) (llim ulim : Nat) (ha : a ≤ 9)
    (hch : ¬ (48 ≤ ch ∧ ch ≤ 57)) :
    conv_num ((48 + a) :: ch :: rest) 0 llim ulim =
      if a < llim ∨ ulim < a then none else some (1, a) := by
  have h1 : ¬ (48 + a < 48 ∨ 57 < 48 + a) := by omega
  have e1 : 48 + a - 48 = a := by omega
  simp only [conv_num, peek, List.getD_cons_zero, h1, if_false, List.drop_succ_cons,
    List.drop_zero, conv_num_loop, e1, hch, and_false, if_false]

/-- The template "%I %p" on a text whose hour `conv_num` reads at offset 0, followed by
white space up to `k1`, where `find_string` finds the marker. -/
theorem strptime_Ip (env : Env) (buf : List Nat) (tm : Tm) (off : Int) (zone : List Nat)
    (h k k1 e i : Nat) (hI : conv_num buf 0 1 12 = some (k, h)) (hh : h ≤ 12)
    (hsp : skip_space buf k = k1) (hp : find_string buf k1 am_pm none 2 = some (e, i)) :
    strptime_with_tz env buf (bytes "%I %p") tm off zone =
      .ok { bp := e,
            tm := { tm with tm_hour := (if h = 12 then 0 else (h : Int)) + (i : Int) * 12 },
            tm_gmtoff := off, tm_zone := zone } := by
  have hf : bytes "%I %p" = [37, 73, 32, 37, 112] := by decide
  have hle : ¬ (11 : Int) < (if h = 12 then 0 else (h : Int)) := by split_ifs <;> omega
  rw [hf]
  simp +decide [strptime_with_tz, to_caller, strptime_depth, go, St.init, elementary, composite, hI, hsp,
    hp, hle, isspace, LEGAL_ALT, illegal_alt, ALT_E, ALT_O, S_HOUR, HAVE_HOUR,
    derivation_pass_no_year, null_pass_no_year, St.fail, HAVE_YEAR, S_YEAR, St.result]

/-- The 12-hour clock markers: each entry of `am_pm` is two letters that start with `a` or
`p`, and finds itself. -/
theorem am_pm_entries (i : Nat) (hi : i < 2) :
    (am_pm.getD i []).length = 2 ∧
      (tolower ((am_pm.getD i []).getD 0 0) = 97 ∨ tolower ((am_pm.getD i []).getD 0 0) = 112) ∧
      find_string (am_pm.getD i []) 0 am_pm none 2 = some (2, i) := by
  interval_cases i <;> decide

/-- C13. 12-hour clock conversion: for every hour `h` in 1..12, written with one or two
digits, and every upper/lower-case spelling of the marker `AM` (index 0) or `PM` (index 1),
parsing the hour, one blank and the marker with "%I %p" succeeds at the end of the text and
leaves the hour field equal to `h mod 12` for AM and `h mod 12 + 12` for PM, so 12 AM is
hour 0 and 12 PM is hour 12. -/
theorem twelve_hour_clock (env : Env) (tm : Tm) (off : Int) (zone : List Nat) (h i : Nat)
    (num marker : List Nat) (hh : 1 ≤ h ∧ h ≤ 12) (hi : i < 2)
    (hnum : num = dec2 h ∨ (h < 10 ∧ num = [48 + h]))
    (hmark : marker.map tolower = (am_pm.getD i []).map tolower) :
    strptime_with_tz env (num ++ 32 :: marker) (bytes "%I %p") tm off zone =
      .ok { bp := (num ++ 32 :: marker).length,
            tm := { tm with tm_hour := ((h % 12 : Nat) : Int) + 12 * (i : Int) },
            tm_gmtoff := off, tm_zone := zone } := by
  obtain ⟨hl, h0, hfind⟩ := am_pm_entries i hi
  have hml : marker.length = 2 := by
    have := congrArg List.length hmark
    rw [List.length_map, List.length_map, hl] at this
    exact this
  obtain ⟨m0, m1, rfl⟩ := List.length_eq_two.mp hml
  obtain ⟨x0, x1, hx⟩ := List.length_eq_two.mp hl
  rw [hx] at hmark h0
  simp only [List.map_cons, List.map_nil, List.cons.injEq, and_true] at hmark
  simp only [List.getD_cons_zero] at h0
  have hm0 : isspace m0 = false := by
    have hlow : tolower m0 = 97 ∨ tolower m0 = 112 := by rw [hmark.1]; exact h0
    have : m0 = 65 ∨ m0 = 97 ∨ m0 = 80 ∨ m0 = 112 := by
      rcases hlow with h' | h' <;>
        rcases tolower_eq_letter m0 _ h' (by decide) with h'' | h'' <;> simp [h'']
    rcases this with rfl | rfl | rfl | rfl <;> decide
  have hfm : find_string [m0, m1] 0 am_pm none 2 = some (2, i) := by
    rw [find_string_case [m0, m1] (am_pm.getD i []) (by rw [hx]; simpa using hmark), hfind]
  have h32 : isspace 32 = true := by decide
  have hval : (if h = 12 then 0 else (h : Int)) + (i : Int) * 12 =
      ((h % 12 : Nat) : Int) + 12 * (i : Int) := by
    split_ifs <;> omega
  rcases hnum with rfl | ⟨h10, rfl⟩
  · have hI : conv_num (dec2 h ++ 32 :: [m0, m1]) 0 1 12 = some (2, h) :=
      conv_num_dec2 h _ 1 12 (by omega) (by omega)
    have hsp : skip_space (dec2 h ++ 32 :: [m0, m1]) 2 = 3 := by
      simp only [skip_space, dec2, List.cons_append, List.nil_append, List.drop_succ_cons,
        List.drop_zero, skip_while, h32, if_true, hm0, Bool.false_eq_true, if_false]
    have hp : find_string (dec2 h ++ 32 :: [m0, m1]) 3 am_pm none 2 = some (5, i) := by
      have := find_string_append (dec2 h ++ [32]) [m0, m1] am_pm none 2
      rw [hfm] at this
      simpa using this
    rw [strptime_Ip env _ tm off zone h 2 3 5 i hI hh.2 hsp hp, hval]
    rfl
  · have hI : conv_num ([48 + h] ++ 32 :: [m0, m1]) 0 1 12 = some (1, h) := by
      have := conv_num_one_digit h 32 [m0, m1] 1 12 (by omega) (by omega)
      rw [if_neg (by omega)] at this
      exact this
    have hsp : skip_space ([48 + h] ++ 32 :: [m0, m1]) 1 = 2 := by
      simp only [skip_space, List.cons_append, List.nil_append, List.drop_succ_cons,
        List.drop_zero, skip_while, h32, if_true, hm0, Bool.false_eq_true, if_false]
    have hp : find_string ([48 + h] ++ 32 :: [m0, m1]) 2 am_pm none 2 = some (4, i) := by
      have := find_string_append ([48 + h] ++ [32]) [m0, m1] am_pm none 2
      rw [hfm] at this
      simpa using this
    rw [strptime_Ip env _ tm off zone h 1 2 4 i hI hh.2 hsp hp, hval]
    rfl

/-- C13, at "12 am" and "7 Pm". -/
theorem twelve_hour_clock_witness :
    strptime_with_tz Env.cet (dec2 12 ++ 32 :: bytes "am") (bytes "%I %p") Tm.zero 0 [] =
        .ok { bp := (dec2 12 ++ 32 :: bytes "am").length,
              tm := { Tm.zero with tm_hour := ((12 % 12 : Nat) : Int) + 12 * ((0 : Nat) : Int) },
              tm_gmtoff := 0, tm_zone := [] } ∧
      strptime_with_tz Env.cet ([48 + 7] ++ 32 :: bytes "Pm") (bytes "%I %p") Tm.zero 0 [] =
        .ok { bp := ([48 + 7] ++ 32 :: bytes "Pm").length,
              tm := { Tm.zero with tm_hour := ((7 % 12 : Nat) : Int) + 12 * ((1 : Nat) : Int) },
              tm_gmtoff := 0, tm_zone := [] } :=
  ⟨twelve_hour_clock Env.cet Tm.zero 0 [] 12 0 (dec2 12) (bytes "am") (by decide) (by decide)
     (Or.inl rfl) (by decide),
   twelve_hour_clock Env.cet Tm.zero 0 [] 7 1 [48 + 7] (bytes "Pm") (by decide) (by decide)
     (Or.inr ⟨by decide, rfl⟩) (by decide)⟩

/-! ## C14: `%p` behind a parsed hour -/

/-- The part of C14 that holds: when "%H" has read an hour above 11, the template "%H %p"
fails, whatever follows the hour. -/
theorem H_then_p_rejects (env : Env) (buf : List Nat) (tm : Tm) (off : Int) (zone : List Nat)
    (k h : Nat) (hH : conv_num buf 0 0 23 = some (k, h)) (hh : 11 < h) :
    strptime_with_tz env buf (bytes "%H %p") tm off zone = .error .null := by
  have hf : bytes "%H %p" = [37, 72, 32, 37, 112] := by decide
  have hgt : (11 : Int) < (h : Int) := by omega
  rw [hf]
  cases hp : find_string buf (skip_space buf k) am_pm none 2 <;>
    simp +decide [strptime_with_tz, to_caller, strptime_depth, go, St.init, elementary, composite, hH, hp,
      hgt, isspace, LEGAL_ALT, illegal_alt, ALT_E, ALT_O, S_HOUR, HAVE_HOUR]

/-- C14. The input "15:00:00 PM" parsed with "%T %p" is accepted and leaves hour 27: the
nested call for `%T` keeps its own `state`, the outer call never learns that the hour was
parsed, and `%p` adds its twelve hours. -/
theorem T_then_p_accepts_hour_15 (env : Env) (tm : Tm) (off : Int) (zone : List Nat) :
    strptime_with_tz env (bytes "15:00:00 PM") (bytes "%T %p") tm off zone =
      .ok { bp := 11, tm := { tm with tm_hour := 27, tm_min := 0, tm_sec := 0 },
            tm_gmtoff := off, tm_zone := zone } := by
  have hb : bytes "15:00:00 PM" = [49, 53, 58, 48, 48, 58, 48, 48, 32, 80, 77] := by decide
  have hf : bytes "%T %p" = [37, 84, 32, 37, 112] := by decide
  have hT : bytes "%H:%M:%S" = [37, 72, 58, 37, 77, 58, 37, 83] := by decide
  rw [hb, hf]
  simp +decide [strptime_with_tz, to_caller, strptime_depth, go, St.init, elementary, composite, hT,
    conv_num, conv_num_loop, peek, isspace, skip_space, skip_while, find_string, find_in,
    strncasecmp_eq, am_pm, LEGAL_ALT, illegal_alt, ALT_E, ALT_O, S_HOUR, HAVE_HOUR,
    derivation_pass_no_year, null_pass_no_year, St.fail, HAVE_YEAR, S_YEAR, St.result]

/-! ## C15, C16: the weekday of 1 January -/

/-- C15. The input "2001-01-01" parsed with "%Y-%m-%d" leaves weekday 0 (Sunday), while
1 January 2001 was a Monday, `(first_wday_of 2001 + 0) mod 7 = 1`: the weekday block calls
`first_wday_of(tm->tm_year)` on the year offset 101 instead of the calendar year, and its
loop steps once more than there are elapsed days.  The week-number block of the same pass
does add `TM_YEAR_BASE`. -/
theorem derived_weekday_2001 (env : Env) (tm : Tm) (off : Int) (zone : List Nat) :
    strptime_with_tz env (bytes "2001-01-01") (bytes "%Y-%m-%d") tm off zone =
        .ok { bp := 10,
              tm := { tm with tm_year := 101, tm_mon := 0, tm_mday := 1, tm_yday := 0,
                              tm_wday := 0 },
              tm_gmtoff := off, tm_zone := zone } ∧
      (first_wday_of 2001 + 0).tmod 7 = 1 := by
  have hb : bytes "2001-01-01" = [50, 48, 48, 49, 45, 48, 49, 45, 48, 49] := by decide
  have hf : bytes "%Y-%m-%d" = [37, 89, 45, 37, 109, 45, 37, 100] := by decide
  refine ⟨?_, by decide⟩
  rw [hb, hf]
  simp +decide [strptime_with_tz, to_caller, strptime_depth, go, St.init, elementary, composite, conv_num,
    conv_num_loop, peek, isspace, LEGAL_ALT, illegal_alt, ALT_E, ALT_O, S_YEAR, S_MON, S_MDAY,
    TM_YEAR_BASE]
  simp +decide [derivation_pass, derive_yday, derive_mon, derive_mday, derive_wday, HAVE_YDAY,
    HAVE_YEAR, HAVE_MON, HAVE_MDAY, HAVE_WDAY, S_YEAR, S_MON, S_MDAY, S_YDAY, S_WDAY,
    TM_YEAR_BASE, start_of_month_at, start_of_month_from, start_of_month, St.result]

/-- On a year that is not negative, `first_wday_of` in Euclidean division. -/
theorem first_wday_of_nonneg (z : Int) (hz : 0 ≤ z) :
    first_wday_of z =
      (2 * (3 - z / 100 % 4) + z % 100 + z % 100 / 4 +
        (if (z % 4 = 0 ∧ z % 100 ≠ 0) ∨ z % 400 = 0 then 6 else 0) + 1) % 7 := by
  have e1 : z.tdiv 100 = z / 100 := Int.tdiv_eq_ediv hz (by decide)
  have e2 : ∀ k : Int, 0 ≤ k → z.tmod k = z % k := fun k hk => Int.tmod_eq_emod hz hk
  have e3 : (z / 100).tmod 4 = z / 100 % 4 := Int.tmod_eq_emod (by omega) (by decide)
  have e4 : (z % 100).tdiv 4 = z % 100 / 4 := Int.tdiv_eq_ediv (by omega) (by decide)
  simp only [first_wday_of, isleap, e1, e2 100 (by decide), e2 4 (by decide),
    e2 400 (by decide), e3, e4, Bool.or_eq_true, Bool.and_eq_true, beq_iff_eq, bne_iff_ne,
    ne_eq]
  rw [Int.tmod_eq_emod (by split_ifs <;> omega) (by decide)]

/-- The weekday of 1 January repeats every 400 years. -/
theorem first_wday_of_mod (z : Int) (hz : 0 ≤ z) : first_wday_of z = first_wday_of (z % 400) := by
  rw [first_wday_of_nonneg z hz, first_wday_of_nonneg (z % 400) (by omega)]
  have h1 : z / 100 % 4 = z % 400 / 100 % 4 := by omega
  have h2 : z % 100 = z % 400 % 100 := by omega
  have h3 : z % 4 = z % 400 % 4 := by omega
  have h4 : z % 400 = z % 400 % 400 := by omega
  rw [h1, h2, h3]
  rw [← h4]

set_option maxRecDepth 100000 in
/-- The closed form and the step to the next year, checked on the 400 years of one
cycle. -/
theorem first_wday_of_cycle : ∀ r < 400,
    first_wday_of (((r + 1 : Nat) : Int) % 400) =
        (1 + (r : Int) + (r : Int) / 4 - (r : Int) / 100) % 7 ∧
      first_wday_of (((r + 1 : Nat) : Int) % 400) =
        (first_wday_of (r : Int) + 365 + (if gregorian_leap r then 1 else 0)) % 7 := by
  decide

/-- C16. For every calendar year `y` from 1752 to 9999, `first_wday_of y` is the Gregorian
weekday (Sunday = 0) of 1 January of `y`:
`(1 + (y-1) + (y-1)/4 - (y-1)/100 + (y-1)/400) mod 7`; and `first_wday_of 1970 = 4` with
`first_wday_of (y+1) = (first_wday_of y + 365 + (1 if y is a leap year else 0)) mod 7`. -/
theorem first_wday_of_gregorian (y : Nat) (h1 : 1752 ≤ y) (h2 : y ≤ 9999) :
    first_wday_of y =
        (1 + ((y : Int) - 1) + ((y : Int) - 1) / 4 - ((y : Int) - 1) / 100 +
          ((y : Int) - 1) / 400) % 7 ∧
      first_wday_of 1970 = 4 ∧
      first_wday_of ((y : Int) + 1) =
        (first_wday_of y + 365 + (if gregorian_leap y then 1 else 0)) % 7 := by
  refine ⟨?_, by decide, ?_⟩
  · obtain ⟨hc, -⟩ := first_wday_of_cycle ((y - 1) % 400) (Nat.mod_lt _ (by decide))
    have e : (y : Int) % 400 = (((y - 1) % 400 + 1 : Nat) : Int) % 400 := by omega
    rw [first_wday_of_mod y (by omega), e, hc]
    omega
  · obtain ⟨-, hc⟩ := first_wday_of_cycle (y % 400) (Nat.mod_lt _ (by decide))
    have e : ((y : Int) + 1) % 400 = (((y % 400 + 1 : Nat)) : Int) % 400 := by omega
    have e2 : ((y % 400 : Nat) : Int) = (y : Int) % 400 := by omega
    have e3 : gregorian_leap (y % 400) = gregorian_leap y := by
      simp only [gregorian_leap]
      have a1 : y % 400 % 4 = y % 4 := by omega
      have a2 : y % 400 % 100 = y % 100 := by omega
      have a3 : y % 400 % 400 = y % 400 := by omega
      rw [a1, a2, a3]
    rw [first_wday_of_mod ((y : Int) + 1) (by omega), e, hc, e2, e3,
      ← first_wday_of_mod y (by omega)]

/-- C16, at the year 2024. -/
theorem first_wday_of_gregorian_witness :
    1752 ≤ 2024 ∧ 2024 ≤ 9999 ∧
      first_wday_of (2024 : Nat) =
        (1 + (((2024 : Nat) : Int) - 1) + (((2024 : Nat) : Int) - 1) / 4 -
          (((2024 : Nat) : Int) - 1) / 100 + (((2024 : Nat) : Int) - 1) / 400) % 7 :=
  ⟨by decide, by decide, (first_wday_of_gregorian 2024 (by decide) (by decide)).1⟩

/-! ## C17: presence bits and the derivation pass -/

theorem lor_eq_zero (x y : Nat) : x ||| y = 0 ↔ x = 0 ∧ y = 0 := by
  constructor
  · intro h
    have hb : ∀ i, x.testBit i = false ∧ y.testBit i = false := by
      intro i
      have := congrArg (fun n => n.testBit i) h
      simpa using this
    exact ⟨Nat.zero_of_testBit_eq_false fun i => (hb i).1,
      Nat.zero_of_testBit_eq_false fun i => (hb i).2⟩
  · rintro ⟨rfl, rfl⟩
    rfl

/-- The test of a presence bit after another bit has been or-ed in. -/
theorem have_lor (s a b : Nat) :
    ((s ||| b) &&& a != 0) = ((s &&& a != 0) || (b &&& a != 0)) := by
  rw [Nat.and_comm, Nat.and_or_distrib_left, Nat.and_comm a s, Nat.and_comm a b]
  generalize s &&& a = x
  generalize b &&& a = y
  rw [Bool.eq_iff_iff]
  simp only [bne_iff_ne, ne_eq, lor_eq_zero, Bool.or_eq_true]
  tauto

/-- How the presence tests read the bits that the derivation pass sets. -/
theorem have_after (s : Nat) :
    HAVE_YEAR (s ||| S_YDAY) = HAVE_YEAR s ∧ HAVE_YEAR (s ||| S_WDAY) = HAVE_YEAR s ∧
    HAVE_YEAR (s ||| S_MON) = HAVE_YEAR s ∧ HAVE_YEAR (s ||| S_MDAY) = HAVE_YEAR s ∧
    HAVE_YDAY (s ||| S_YDAY) = true ∧ HAVE_YDAY (s ||| S_WDAY) = HAVE_YDAY s ∧
    HAVE_YDAY (s ||| S_MON) = HAVE_YDAY s ∧ HAVE_YDAY (s ||| S_MDAY) = HAVE_YDAY s ∧
    HAVE_MON (s ||| S_YDAY) = HAVE_MON s ∧ HAVE_MON (s ||| S_WDAY) = HAVE_MON s ∧
    HAVE_MON (s ||| S_MON) = true ∧ HAVE_MON (s ||| S_MDAY) = HAVE_MON s ∧
    HAVE_MDAY (s ||| S_YDAY) = HAVE_MDAY s ∧ HAVE_MDAY (s ||| S_WDAY) = HAVE_MDAY s ∧
    HAVE_MDAY (s ||| S_MON) = HAVE_MDAY s ∧ HAVE_MDAY (s ||| S_MDAY) = true ∧
    HAVE_WDAY (s ||| S_YDAY) = HAVE_WDAY s ∧ HAVE_WDAY (s ||| S_WDAY) = true ∧
    HAVE_WDAY (s ||| S_MON) = HAVE_WDAY s ∧ HAVE_WDAY (s ||| S_MDAY) = HAVE_WDAY s := by
  simp +decide [HAVE_YEAR, HAVE_YDAY, HAVE_MON, HAVE_MDAY, HAVE_WDAY, have_lor, S_YEAR, S_YDAY,
    S_MON, S_MDAY, S_WDAY]

/-- C18. On the empty input the template "%G" succeeds with the cursor at position 1,
behind the terminator of the text of length 0: `do bp++; while (isdigit(*bp))` steps over
one byte before it looks at any. -/
theorem G_steps_over_terminator (env : Env) (tm : Tm) (off : Int) (zone : List Nat) :
    strptime_with_tz env [] (bytes "%G") tm off zone =
        .ok { bp := 1, tm := tm, tm_gmtoff := off, tm_zone := zone } ∧
      ([] : List Nat).length < 1 := by
  have hf : bytes "%G" = [37, 71] := by decide
  refine ⟨?_, by decide⟩
  rw [hf, strptime_single _ _ _ _ _ _ (by decide) (by decide) (by decide) (by decide)]
  simp +decide [elementary, St.init, skip_while, derivation_pass_no_year, null_pass_no_year, St.fail, HAVE_YEAR, S_YEAR,
    St.result]

/-! ## C19: day 366 of a common year -/

/-- For every calendar year `y` up to 9999 that is not a leap year, the text `yyyy 366`
parsed with "%Y %j" has no defined result: the day of the year 365 is not below any of the
13 entries of the common-year row, so the month scan reads `start_of_month[0][13]`. -/
theorem day_366_undefined (env : Env) (tm : Tm) (off : Int) (zone : List Nat) (y : Nat)
    (hy : y ≤ 9999) (hleap : gregorian_leap y = false) :
    strptime_with_tz env (dec4 y ++ 32 :: bytes "366") (bytes "%Y %j") tm off zone =
      .error .undefined := by
  have h366 : bytes "366" = dec3 366 := by decide
  rw [h366]
  have hy2 : conv_num (dec4 y ++ 32 :: dec3 366) 0 0 9999 = some (4, y) :=
    conv_num_dec4 y _ hy
  have hs : skip_space (dec4 y ++ 32 :: dec3 366) 4 = 5 := by
    have h32 : isspace 32 = true := by decide
    simp only [skip_space, dec4, dec3, List.cons_append, List.nil_append, List.drop_succ_cons,
      List.drop_zero, skip_while, h32, if_true, isspace_digit, Bool.false_eq_true, if_false]
  have hj2 : conv_num (dec4 y ++ 32 :: dec3 366) 5 1 366 = some (8, 366) := by
    have h := conv_num_append (dec4 y ++ [32]) (dec3 366 ++ []) 1 366
    rw [conv_num_dec3 366 _ (by decide) (by decide)] at h
    simpa using h
  rw [strptime_yj env _ tm off zone y 366 hy2 hs hj2]
  have h1 : HAVE_YDAY 5 = true := by decide
  have h2 : HAVE_YEAR 5 = true := by decide
  have h3 : HAVE_MON 5 = false := by decide
  have hscan : month_scan (((366 : Nat) : Int) - 1) (start_of_month_from false) 0 = none := by
    decide
  simp only [derivation_pass, derive_yday, derive_mon, h1, h2, h3, isleap_sum_year, hleap,
    hscan, Bool.not_false, Bool.not_true, Bool.and_self, if_true, Bool.false_eq_true, if_false,
    Bool.false_and, Bool.true_and, Bool.and_true, Bool.and_false, to_caller, Fail.err]

/-- C19. The input "2023 366" parsed with "%Y %j" has no defined result.  The month scan
`while (tm->tm_yday >= start_of_month[isleap][i]) i++` finds the day of the year 365 not
below the last entry `start_of_month[0][12] = 365` of the common-year row and goes on to
read `start_of_month[0][13]`, outside the row; the carry `if (i > 12)` into the next year
lies behind that read. -/
theorem day_366_reads_past_the_row (env : Env) (tm : Tm) (off : Int) (zone : List Nat) :
    strptime_with_tz env (bytes "2023 366") (bytes "%Y %j") tm off zone = .error .undefined ∧
      month_scan 365 (start_of_month_from (isleap_sum 123 TM_YEAR_BASE)) 0 = none ∧
      start_of_month_at (isleap_sum 123 TM_YEAR_BASE) 12 = some 365 ∧
      start_of_month_at (isleap_sum 123 TM_YEAR_BASE) 13 = none := by
  have hb : bytes "2023 366" = dec4 2023 ++ 32 :: bytes "366" := by decide
  refine ⟨?_, by decide, by decide, by decide⟩
  rw [hb]
  exact day_366_undefined env tm off zone 2023 (by decide) (by decide)

/-! ## C20: composite conversions -/

/-- The `%Z` conversion leaves the presence bits as they are. -/
theorem case_Z_state (env : Env) (buf : List Nat) (st st1 : St)
    (h : case_Z env buf st = .ok st1) : st1.state = st.state := by
  simp only [case_Z] at h
  repeat' split at h
  all_goals (cases h; try rfl)

/-- An elementary conversion that succeeds or-s its own presence bits into `state`. -/
theorem elementary_state (env : Env) (buf : List Nat) (c alt_format : Nat) (st st1 : St)
    (h : elementary env buf c alt_format st = .ok st1) :
    st1.state = st.state ||| elementary_bits c := by
  unfold elementary at h
  unfold elementary_bits
  by_cases h0 : c = 65 ∨ c = 97
  · rw [if_pos h0] at h ⊢
    try simp only [LEGAL_ALT] at h
    repeat' split at h
    all_goals (cases h; try first | rfl | exact (Nat.or_zero _).symm)
  rw [if_neg h0] at h ⊢
  by_cases h1 : c = 66 ∨ c = 98 ∨ c = 104
  · rw [if_pos h1] at h ⊢
    try simp only [LEGAL_ALT] at h
    repeat' split at h
    all_goals (cases h; try first | rfl | exact (Nat.or_zero _).symm)
  rw [if_neg h1] at h ⊢
  by_cases h2 : c = 67
  · rw [if_pos h2] at h ⊢
    try simp only [LEGAL_ALT] at h
    repeat' split at h
    all_goals (cases h; try first | rfl | exact (Nat.or_zero _).symm)
  rw [if_neg h2] at h ⊢
  by_cases h3 : c = 100 ∨ c = 101
  · rw [if_pos h3] at h ⊢
    try simp only [LEGAL_ALT] at h
    repeat' split at h
    all_goals (cases h; try first | rfl | exact (Nat.or_zero _).symm)
  rw [if_neg h3] at h ⊢
  by_cases h4 : c = 107 ∨ c = 72
  · rw [if_pos h4] at h ⊢
    try simp only [LEGAL_ALT] at h
    repeat' split at h
    all_goals (cases h; try first | rfl | exact (Nat.or_zero _).symm)
  rw [if_neg h4] at h ⊢
  by_cases h5 : c = 108 ∨ c = 73
  · rw [if_pos h5] at h ⊢
    try simp only [LEGAL_ALT] at h
    repeat' split at h
    all_goals (cases h; try first | rfl | exact (Nat.or_zero _).symm)
  rw [if_neg h5] at h ⊢
  by_cases h6 : c = 106
  · rw [if_pos h6] at h ⊢
    try simp only [LEGAL_ALT] at h
    repeat' split at h
    all_goals (cases h; try first | rfl | exact (Nat.or_zero _).symm)
  rw [if_neg h6] at h ⊢
  by_cases h7 : c = 77
  · rw [if_pos h7] at h ⊢
    try simp only [LEGAL_ALT] at h
    repeat' split at h
    all_goals (cases h; try first | rfl | exact (Nat.or_zero _).symm)
  rw [if_neg h7] at h ⊢
  by_cases h8 : c = 109
  · rw [if_pos h8] at h ⊢
    try simp only [LEGAL_ALT] at h
    repeat' split at h
    all_goals (cases h; try first | rfl | exact (Nat.or_zero _).symm)
  rw [if_neg h8] at h ⊢
  by_cases h9 : c = 112
  · rw [if_pos h9] at h ⊢
    try simp only [LEGAL_ALT] at h
    repeat' split at h
    all_goals (cases h; try first | rfl | exact (Nat.or_zero _).symm)
  rw [if_neg h9] at h ⊢
  by_cases h10 : c = 83
  · rw [if_pos h10] at h ⊢
    try simp only [LEGAL_ALT] at h
    repeat' split at h
    all_goals (cases h; try first | rfl | exact (Nat.or_zero _).symm)
  rw [if_neg h10] at h ⊢
  by_cases h11 : c = 115
  · rw [if_pos h11] at h ⊢
    try simp only [LEGAL_ALT] at h
    repeat' split at h
    all_goals (cases h; try first | rfl | exact (Nat.or_zero _).symm)
  rw [if_neg h11] at h ⊢
  by_cases h12 : c = 85 ∨ c = 87
  · rw [if_pos h12] at h ⊢
    try simp only [LEGAL_ALT] at h
    repeat' split at h
    all_goals (cases h; try first | rfl | exact (Nat.or_zero _).symm)
  rw [if_neg h12] at h ⊢
  by_cases h13 : c = 119
  · rw [if_pos h13] at h ⊢
    try simp only [LEGAL_ALT] at h
    repeat' split at h
    all_goals (cases h; try first | rfl | exact (Nat.or_zero _).symm)
  rw [if_neg h13] at h ⊢
  by_cases h14 : c = 117
  · rw [if_pos h14] at h ⊢
    try simp only [LEGAL_ALT] at h
    repeat' split at h
    all_goals (cases h; try first | rfl | exact (Nat.or_zero _).symm)
  rw [if_neg h14] at h ⊢
  by_cases h15 : c = 103
  · rw [if_pos h15] at h ⊢
    try simp only [LEGAL_ALT] at h
    repeat' split at h
    all_goals (cases h; try first | rfl | exact (Nat.or_zero _).symm)
  rw [if_neg h15] at h ⊢
  by_cases h16 : c = 71
  · rw [if_pos h16] at h ⊢
    cases h
    exact (Nat.or_zero _).symm
  rw [if_neg h16] at h ⊢
  by_cases h17 : c = 86
  · rw [if_pos h17] at h ⊢
    try simp only [LEGAL_ALT] at h
    repeat' split at h
    all_goals (cases h; try first | rfl | exact (Nat.or_zero _).symm)
  rw [if_neg h17] at h ⊢
  by_cases h18 : c = 89
  · rw [if_pos h18] at h ⊢
    try simp only [LEGAL_ALT] at h
    repeat' split at h
    all_goals (cases h; try first | rfl | exact (Nat.or_zero _).symm)
  rw [if_neg h18] at h ⊢
  by_cases h19 : c = 121
  · rw [if_pos h19] at h ⊢
    try simp only [LEGAL_ALT] at h
    repeat' split at h
    all_goals (cases h; try first | rfl | exact (Nat.or_zero _).symm)
  rw [if_neg h19] at h ⊢
  by_cases h20 : c = 90
  · rw [if_pos h20] at h ⊢
    exact (case_Z_state _ _ _ _ h).trans (Nat.or_zero _).symm
  rw [if_neg h20] at h ⊢
  by_cases h21 : c = 122
  · rw [if_pos h21] at h ⊢
    exact (case_z_state _ _ _ h).trans (Nat.or_zero _).symm
  rw [if_neg h21] at h ⊢
  by_cases h22 : c = 110 ∨ c = 116
  · rw [if_pos h22] at h ⊢
    try simp only [LEGAL_ALT] at h
    repeat' split at h
    all_goals (cases h; try first | rfl | exact (Nat.or_zero _).symm)
  rw [if_neg h22] at h ⊢
  cases h

/-- The derivation pass of a call without a cursor never hands back a position. -/
theorem null_pass_ne_ok (st : St) (res : Result) (h : null_pass st = .ok res) : False := by
  unfold null_pass at h
  cases hd : derivation_pass st <;> rw [hd] at h <;> cases h

/-- When the loop gets to the end of its template, the derivation pass runs on a state
whose presence bits are those that the template fixes. -/
theorem go_state (r : Recurse) (env : Env) (buf : List Nat) (fmt : List Nat) :
    ∀ (m : Option Nat) (st : St) (res : Result), go r env buf m fmt st = .ok res →
      ∃ st1, derivation_pass st1 = .ok res ∧ st1.state = fmt_state m.isSome fmt st.state := by
  induction fmt with
  | nil =>
    intro m st res h
    cases m with
    | none => exact ⟨st, h, rfl⟩
    | some a => simp only [go] at h; cases h
  | cons c fmt ih =>
    intro m st res h
    cases m with
    | none =>
      simp only [go] at h
      simp only [Option.isSome_none, fmt_state]
      split_ifs at h ⊢ with h0 hsp h37 hlit
      · exact ⟨st, h, rfl⟩
      · obtain ⟨s1, a1, a2⟩ := ih none _ res h
        exact ⟨s1, a1, a2⟩
      · obtain ⟨s1, a1, a2⟩ := ih none _ res h
        exact ⟨s1, a1, a2⟩
      · obtain ⟨s1, a1, a2⟩ := ih (some 0) _ res h
        exact ⟨s1, a1, a2⟩
    | some a =>
      simp only [go] at h
      simp only [Option.isSome_some, fmt_state]
      by_cases h37 : c = 37
      · simp only [h37, if_true] at h ⊢
        split_ifs at h
        obtain ⟨s1, a1, a2⟩ := ih none _ res h
        exact ⟨s1, a1, a2⟩
      · simp only [h37, if_false] at h ⊢
        by_cases h69 : c = 69
        · simp only [h69, if_true, true_or] at h ⊢
          split_ifs at h
          obtain ⟨s1, a1, a2⟩ := ih (some _) _ res h
          exact ⟨s1, a1, a2⟩
        · simp only [h69, if_false, false_or] at h ⊢
          by_cases h79 : c = 79
          · simp only [h79, if_true] at h ⊢
            split_ifs at h
            obtain ⟨s1, a1, a2⟩ := ih (some _) _ res h
            exact ⟨s1, a1, a2⟩
          · simp only [h79, if_false] at h ⊢
            cases hc : composite c with
            | some p =>
              obtain ⟨nf, ck, bits⟩ := p
              simp only [hc] at h ⊢
              cases hr : r nf st.bp st.tm st.tm_gmtoff st.tm_zone with
              | error e =>
                simp only [hr] at h
                cases e <;> simp only at h <;> (try split_ifs at h)
                first | cases h | exact (null_pass_ne_ok _ _ h).elim
              | ok rr =>
                simp only [hr] at h
                split_ifs at h
                obtain ⟨s1, a1, a2⟩ := ih none _ res h
                exact ⟨s1, a1, a2⟩
            | none =>
              simp only [hc] at h ⊢
              cases he : elementary env buf c a st with
              | error e =>
                simp only [he] at h
                cases e with
                | ret st1 => cases h
                | null st1 => exact (null_pass_ne_ok _ _ h).elim
                | undefined => cases h
              | ok st1 =>
                simp only [he] at h
                obtain ⟨st2, h2, hs2⟩ := ih none st1 res h
                exact ⟨st2, h2, by rw [hs2, elementary_state env buf c a st st1 he]; rfl⟩

/-- Running the derivation pass a second time, from a fresh local state that holds the
bits of a date composite, changes nothing: the day of the year and the weekday are
computed again from the same year, month and day. -/
theorem derivation_pass_again (st : St) (res : Result) (bits : Nat)
    (hb : (st.state = 11 ∧ bits = 11) ∨ (st.state = 59 ∧ bits = 27))
    (h : derivation_pass st = .ok res) :
    derivation_pass { bp := res.bp, tm := res.tm, tm_gmtoff := res.tm_gmtoff,
                      tm_zone := res.tm_zone, split_year := false, state := bits,
                      day_offset := -1, week_offset := 0 } = .ok res := by
  obtain ⟨bp, tm, off, zone, sy, state, d, w⟩ := st
  rcases hb with ⟨hs, rfl⟩ | ⟨hs, rfl⟩ <;> simp only at hs <;> subst hs
  · simp +decide only [derivation_pass, derive_yday, HAVE_YDAY, HAVE_YEAR, HAVE_MON, HAVE_MDAY,
      S_YDAY, S_YEAR, S_MON, S_MDAY, Bool.not_true, Bool.not_false, Bool.and_self, if_true]
      at h ⊢
    cases hm : start_of_month_at (isleap_sum tm.tm_year TM_YEAR_BASE) tm.tm_mon with
    | none => simp only [hm] at h; cases h
    | some s =>
      simp +decide only [hm, derive_mon, derive_mday, derive_wday, St.result, HAVE_YDAY,
        HAVE_YEAR, HAVE_MON, HAVE_MDAY, HAVE_WDAY, S_YDAY, S_YEAR, S_MON, S_MDAY, S_WDAY,
        Bool.not_true, Bool.not_false, Bool.and_self, if_true, if_false] at h
      cases h
      simp +decide only [hm, derive_mon, derive_mday, derive_wday, St.result, HAVE_YDAY,
        HAVE_YEAR, HAVE_MON, HAVE_MDAY, HAVE_WDAY, S_YDAY, S_YEAR, S_MON, S_MDAY, S_WDAY,
        Bool.not_true, Bool.not_false, Bool.and_self, if_true, if_false]
  · simp +decide only [derivation_pass, derive_yday, HAVE_YDAY, HAVE_YEAR, HAVE_MON, HAVE_MDAY,
      S_YDAY, S_YEAR, S_MON, S_MDAY, Bool.not_true, Bool.not_false, Bool.and_self, if_true]
      at h ⊢
    cases hm : start_of_month_at (isleap_sum tm.tm_year TM_YEAR_BASE) tm.tm_mon with
    | none => simp only [hm] at h; cases h
    | some s =>
      simp +decide only [hm, derive_mon, derive_mday, derive_wday, St.result, HAVE_YDAY,
        HAVE_YEAR, HAVE_MON, HAVE_MDAY, HAVE_WDAY, S_YDAY, S_YEAR, S_MON, S_MDAY, S_WDAY,
        Bool.not_true, Bool.not_false, Bool.and_self, if_true, if_false] at h
      cases h
      simp +decide only [hm, derive_mon, derive_mday, derive_wday, St.result, HAVE_YDAY,
        HAVE_YEAR, HAVE_MON, HAVE_MDAY, HAVE_WDAY, S_YDAY, S_YEAR, S_MON, S_MDAY, S_WDAY,
        Bool.not_true, Bool.not_false, Bool.and_self, if_true, if_false]

/-- The presence bits that a composite conversion or-s in, against the bits that its
sub-template fixes: the same date bits (the hour bit apart), or no year on either side. -/
theorem composite_bits (c : Nat) (nf : List Nat) (ck : Bool) (bits : Nat)
    (hc : composite c = some (nf, ck, bits)) :
    (fmt_state false nf 0 = 11 ∧ bits = 11) ∨ (fmt_state false nf 0 = 59 ∧ bits = 27) ∨
      (HAVE_YEAR (fmt_state false nf 0) = false ∧ bits = 0) := by
  unfold composite at hc
  split_ifs at hc <;> simp only [Option.some.injEq, Prod.mk.injEq] at hc <;>
    obtain ⟨rfl, -, rfl⟩ := hc <;> decide

/-- A template that is one composite conversion: the nested call on the sub-template, and
then the derivation pass of the outer call with the bits of the composite conversion,
whether the nested call has given a position or `NULL`. -/
theorem composite_single (env : Env) (buf : List Nat) (c : Nat) (nf : List Nat) (ck : Bool)
    (bits : Nat) (tm : Tm) (off : Int) (zone : List Nat)
    (hc : composite c = some (nf, ck, bits)) :
    strptime_depth env buf 2 [37, c] 0 tm off zone =
      match strptime_depth env buf 2 nf 0 tm off zone with
      | .error (.null tm1 off1 zone1) =>
        null_pass { bp := 0, tm := tm1, tm_gmtoff := off1, tm_zone := zone1,
                    split_year := false, state := 0 ||| bits, day_offset := -1,
                    week_offset := 0 }
      | .error f => .error f
      | .ok r =>
        derivation_pass { bp := r.bp, tm := r.tm, tm_gmtoff := r.tm_gmtoff,
                          tm_zone := r.tm_zone, split_year := false, state := 0 ||| bits,
                          day_offset := -1, week_offset := 0 } := by
  have h37 : c ≠ 37 := by
    rintro rfl
    have : composite 37 = none := by decide
    rw [this] at hc
    cases hc
  have h69 : c ≠ 69 := by
    rintro rfl
    have : composite 69 = none := by decide
    rw [this] at hc
    cases hc
  have h79 : c ≠ 79 := by
    rintro rfl
    have : composite 79 = none := by decide
    rw [this] at hc
    cases hc
  have hs : isspace 37 = false := by decide
  have hi0 : illegal_alt 0 0 = false := by decide
  have hiE : illegal_alt 0 ALT_E = false := by decide
  have hin : strptime_depth env buf 1 nf 0 tm off zone =
      strptime_depth env buf 2 nf 0 tm off zone := by
    simp only [strptime_depth]
    apply go_congr
    intro x hx nf' ck' bits' hx'
    rw [composite_fmt_plain c nf ck bits hc x hx] at hx'
    cases hx'
  rw [← hin]
  simp +decide only [strptime_depth, go, h37, h69, h79, hc, hs, hi0, hiE,
    if_false, Bool.false_eq_true, ne_eq, not_true_eq_false, not_false_eq_true, if_true,
    Bool.and_false, St.init]

/-- A composite conversion used as the whole template succeeds exactly when its
sub-template succeeds as a template of its own, and with the same position, accumulator,
offset and zone label. -/
theorem composite_expands_ok (env : Env) (buf : List Nat) (c : Nat) (nf : List Nat)
    (ck : Bool) (bits : Nat) (tm : Tm) (off : Int) (zone : List Nat)
    (hc : composite c = some (nf, ck, bits)) (res : Result) :
    strptime_with_tz env buf [37, c] tm off zone = .ok res ↔
      strptime_with_tz env buf nf tm off zone = .ok res := by
  simp only [strptime_with_tz]
  rw [composite_single env buf c nf ck bits tm off zone hc]
  cases hR : strptime_depth env buf 2 nf 0 tm off zone with
  | error e =>
    cases e with
    | null tm1 off1 zone1 =>
      simp only [to_caller, Fail.err]
      constructor
      · intro h
        split at h
        · cases h
        · rename_i r hr
          exact (null_pass_ne_ok _ _ hr).elim
      · intro h
        cases h
    | undefined => simp only [to_caller, Fail.err]
    | nesting => simp only [to_caller, Fail.err]
  | ok r =>
    simp only
    have hgo : go (strptime_depth env buf 1) env buf none nf (St.init 0 tm off zone) = .ok r := hR
    obtain ⟨st1, hd, hst⟩ := go_state _ env buf nf none _ r hgo
    have hst1 : st1.state = fmt_state false nf 0 := hst
    have hagain :
        derivation_pass
          ({ bp := r.bp, tm := r.tm, tm_gmtoff := r.tm_gmtoff, tm_zone := r.tm_zone,
             split_year := false, state := 0 ||| bits, day_offset := -1,
             week_offset := 0 } : St) = .ok r := by
      rw [Nat.zero_or]
      rcases composite_bits c nf ck bits hc with ⟨h1, h2⟩ | ⟨h1, h2⟩ | ⟨h1, h2⟩
      · exact derivation_pass_again st1 r bits (Or.inl ⟨hst1.trans h1, h2⟩) hd
      · exact derivation_pass_again st1 r bits (Or.inr ⟨hst1.trans h1, h2⟩) hd
      · rw [derivation_pass_no_year st1 (by rw [hst1]; exact h1)] at hd
        subst h2
        have h0 : HAVE_YEAR 0 = false := by decide
        rw [derivation_pass_no_year _ h0]
        cases hd
        rfl
    rw [hagain]

/-- The time composites, which or no bits in (`%T`, `%X`, `%R`, `%r`): the outcome is that
of the sub-template, failures included. -/
theorem composite_expands_time (env : Env) (buf : List Nat) (c : Nat) (nf : List Nat)
    (ck : Bool) (tm : Tm) (off : Int) (zone : List Nat)
    (hc : composite c = some (nf, ck, 0)) :
    strptime_with_tz env buf [37, c] tm off zone = strptime_with_tz env buf nf tm off zone := by
  have h0 : HAVE_YEAR 0 = false := by decide
  simp only [strptime_with_tz]
  rw [composite_single env buf c nf ck 0 tm off zone hc]
  cases hR : strptime_depth env buf 2 nf 0 tm off zone with
  | error e =>
    cases e with
    | null tm1 off1 zone1 =>
      simp only
      rw [null_pass_no_year _ h0]
      rfl
    | undefined => rfl
    | nesting => rfl
  | ok r =>
    simp only
    rw [derivation_pass_no_year _ h0]
    rfl

/-- C20. A composite conversion used as the whole template succeeds exactly when its
expansion used as the template succeeds, for every subject string, initial accumulator,
offset, zone label and environment, and then with the same position, accumulator, offset and
zone label: each of the two parses has the result `res` if and only if the other has it.  A
call that runs into undefined behaviour is no success. -/
theorem composite_succeeds_as_expansion (env : Env) (buf : List Nat) (tm : Tm) (off : Int)
    (zone : List Nat) (res : Result) :
    (strptime_with_tz env buf (bytes "%F") tm off zone = .ok res ↔
        strptime_with_tz env buf (bytes "%Y-%m-%d") tm off zone = .ok res) ∧
      (strptime_with_tz env buf (bytes "%D") tm off zone = .ok res ↔
        strptime_with_tz env buf (bytes "%m/%d/%y") tm off zone = .ok res) ∧
      (strptime_with_tz env buf (bytes "%x") tm off zone = .ok res ↔
        strptime_with_tz env buf (bytes "%m/%d/%y") tm off zone = .ok res) ∧
      (strptime_with_tz env buf (bytes "%T") tm off zone = .ok res ↔
        strptime_with_tz env buf (bytes "%H:%M:%S") tm off zone = .ok res) ∧
      (strptime_with_tz env buf (bytes "%X") tm off zone = .ok res ↔
        strptime_with_tz env buf (bytes "%H:%M:%S") tm off zone = .ok res) ∧
      (strptime_with_tz env buf (bytes "%R") tm off zone = .ok res ↔
        strptime_with_tz env buf (bytes "%H:%M") tm off zone = .ok res) ∧
      (strptime_with_tz env buf (bytes "%r") tm off zone = .ok res ↔
        strptime_with_tz env buf (bytes "%I:%M:%S %p") tm off zone = .ok res) ∧
      (strptime_with_tz env buf (bytes "%c") tm off zone = .ok res ↔
        strptime_with_tz env buf (bytes "%a %b %e %H:%M:%S %Y") tm off zone = .ok res) :=
  ⟨composite_expands_ok env buf 70 _ true 11 tm off zone (by decide) res,
   composite_expands_ok env buf 68 _ true 11 tm off zone (by decide) res,
   composite_expands_ok env buf 120 _ false 11 tm off zone (by decide) res,
   composite_expands_ok env buf 84 _ true 0 tm off zone (by decide) res,
   composite_expands_ok env buf 88 _ false 0 tm off zone (by decide) res,
   composite_expands_ok env buf 82 _ true 0 tm off zone (by decide) res,
   composite_expands_ok env buf 114 _ true 0 tm off zone (by decide) res,
   composite_expands_ok env buf 99 _ false 27 tm off zone (by decide) res⟩

/-- Where a date composite and its expansion part: when the parse fails.  On the input "x"
the template "%F" has no defined result when the accumulator comes with the month index 100,
while its expansion "%Y-%m-%d" returns `NULL`.  The case `F` or-s the month, day and year
bits into `state` before the nested call; the nested call fails at `%Y`, the loop ends, and
the derivation pass of the outer call reads `start_of_month[0][tm->tm_mon]` at the month
index that the caller passed in. -/
theorem F_reads_table_after_failure (env : Env) (tm : Tm) (off : Int) (zone : List Nat) :
    strptime_with_tz env (bytes "x") (bytes "%F") { tm with tm_mon := 100 } off zone =
        .error .undefined ∧
      strptime_with_tz env (bytes "x") (bytes "%Y-%m-%d") { tm with tm_mon := 100 } off zone =
        .error .null ∧
      start_of_month_at (isleap_sum 0 TM_YEAR_BASE) 100 = none := by
  have hb : bytes "x" = [120] := by decide
  have hF : bytes "%F" = [37, 70] := by decide
  have hf : bytes "%Y-%m-%d" = [37, 89, 45, 37, 109, 45, 37, 100] := by decide
  have hexp : strptime_depth env [120] 2 [37, 89, 45, 37, 109, 45, 37, 100] 0
      { tm with tm_mon := 100 } off zone =
      .error (.null { tm with tm_mon := 100, tm_year := 0 } off zone) := by
    simp +decide [strptime_depth, go, St.init, elementary, composite, conv_num, peek, isspace,
      LEGAL_ALT, illegal_alt, ALT_E, ALT_O, S_YEAR, TM_YEAR_BASE, null_pass, derivation_pass,
      derive_yday, HAVE_YDAY, HAVE_YEAR, HAVE_MON, HAVE_MDAY, S_YDAY, S_MON, S_MDAY, St.result]
  refine ⟨?_, ?_, by decide⟩
  · rw [hb, hF]
    simp only [strptime_with_tz]
    rw [composite_single env [120] 70 (bytes "%Y-%m-%d") true
      (S_MON ||| S_MDAY ||| S_YEAR) _ off zone (by decide), hf, hexp]
    simp +decide [null_pass, derivation_pass, derive_yday, HAVE_YDAY, HAVE_YEAR, HAVE_MON,
      HAVE_MDAY, S_YDAY, S_YEAR, S_MON, S_MDAY, TM_YEAR_BASE, start_of_month_at,
      start_of_month_from, start_of_month, isleap_sum, isleap]
  · rw [hb, hf]
    simp only [strptime_with_tz, hexp, to_caller, Fail.err]

/-! ## C21: the alternate modifiers -/

/-- No `LEGAL_ALT` fails without a modifier. -/
theorem illegal_alt_zero (x : Nat) : illegal_alt 0 x = false := by
  simp [illegal_alt]

/-- An elementary conversion with a modifier returns `NULL` at a `LEGAL_ALT`, or it does
what it does without the modifier. -/
theorem elementary_alt (env : Env) (buf : List Nat) (c a : Nat) (st : St) :
    (∃ st1, elementary env buf c a st = .error (.ret st1)) ∨
      elementary env buf c a st = elementary env buf c 0 st := by
  have key : ∀ r1 r2, elementary env buf c a st = r1 → elementary env buf c 0 st = r2 →
      (∃ st1, r1 = .error (.ret st1)) ∨ r1 = r2 := by
    intro r1 r2 e1 e2
    unfold elementary at e1 e2
    by_cases h0 : c = 65 ∨ c = 97
    · rw [if_pos h0] at e1 e2
      subst e1 e2
      simp only [LEGAL_ALT, illegal_alt_zero, Bool.false_eq_true, if_false, and_false]
      repeat' split
      all_goals first | exact Or.inl ⟨_, rfl⟩ | exact Or.inr rfl
    rw [if_neg h0] at e1 e2
    by_cases h1 : c = 66 ∨ c = 98 ∨ c = 104
    · rw [if_pos h1] at e1 e2
      subst e1 e2
      simp only [LEGAL_ALT, illegal_alt_zero, Bool.false_eq_true, if_false, and_false]
      repeat' split
      all_goals first | exact Or.inl ⟨_, rfl⟩ | exact Or.inr rfl
    rw [if_neg h1] at e1 e2
    by_cases h2 : c = 67
    · rw [if_pos h2] at e1 e2
      subst e1 e2
      simp only [LEGAL_ALT, illegal_alt_zero, Bool.false_eq_true, if_false, and_false]
      repeat' split
      all_goals first | exact Or.inl ⟨_, rfl⟩ | exact Or.inr rfl
    rw [if_neg h2] at e1 e2
    by_cases h3 : c = 100 ∨ c = 101
    · rw [if_pos h3] at e1 e2
      subst e1 e2
      simp only [LEGAL_ALT, illegal_alt_zero, Bool.false_eq_true, if_false, and_false]
      repeat' split
      all_goals first | exact Or.inl ⟨_, rfl⟩ | exact Or.inr rfl
    rw [if_neg h3] at e1 e2
    by_cases h4 : c = 107 ∨ c = 72
    · rw [if_pos h4] at e1 e2
      subst e1 e2
      simp only [LEGAL_ALT, illegal_alt_zero, Bool.false_eq_true, if_false, and_false]
      repeat' split
      all_goals first | exact Or.inl ⟨_, rfl⟩ | exact Or.inr rfl
    rw [if_neg h4] at e1 e2
    by_cases h5 : c = 108 ∨ c = 73
    · rw [if_pos h5] at e1 e2
      subst e1 e2
      simp only [LEGAL_ALT, illegal_alt_zero, Bool.false_eq_true, if_false, and_false]
      repeat' split
      all_goals first | exact Or.inl ⟨_, rfl⟩ | exact Or.inr rfl
    rw [if_neg h5] at e1 e2
    by_cases h6 : c = 106
    · rw [if_pos h6] at e1 e2
      subst e1 e2
      simp only [LEGAL_ALT, illegal_alt_zero, Bool.false_eq_true, if_false, and_false]
      repeat' split
      all_goals first | exact Or.inl ⟨_, rfl⟩ | exact Or.inr rfl
    rw [if_neg h6] at e1 e2
    by_cases h7 : c = 77
    · rw [if_pos h7] at e1 e2
      subst e1 e2
      simp only [LEGAL_ALT, illegal_alt_zero, Bool.false_eq_true, if_false, and_false]
      repeat' split
      all_goals first | exact Or.inl ⟨_, rfl⟩ | exact Or.inr rfl
    rw [if_neg h7] at e1 e2
    by_cases h8 : c = 109
    · rw [if_pos h8] at e1 e2
      subst e1 e2
      simp only [LEGAL_ALT, illegal_alt_zero, Bool.false_eq_true, if_false, and_false]
      repeat' split
      all_goals first | exact Or.inl ⟨_, rfl⟩ | exact Or.inr rfl
    rw [if_neg h8] at e1 e2
    by_cases h9 : c = 112
    · rw [if_pos h9] at e1 e2
      subst e1 e2
      simp only [LEGAL_ALT, illegal_alt_zero, Bool.false_eq_true, if_false, and_false]
      repeat' split
      all_goals first | exact Or.inl ⟨_, rfl⟩ | exact Or.inr rfl
    rw [if_neg h9] at e1 e2
    by_cases h10 : c = 83
    · rw [if_pos h10] at e1 e2
      subst e1 e2
      simp only [LEGAL_ALT, illegal_alt_zero, Bool.false_eq_true, if_false, and_false]
      repeat' split
      all_goals first | exact Or.inl ⟨_, rfl⟩ | exact Or.inr rfl
    rw [if_neg h10] at e1 e2
    by_cases h11 : c = 115
    · rw [if_pos h11] at e1 e2
      subst e1 e2
      exact Or.inr rfl
    rw [if_neg h11] at e1 e2
    by_cases h12 : c = 85 ∨ c = 87
    · rw [if_pos h12] at e1 e2
      subst e1 e2
      simp only [LEGAL_ALT, illegal_alt_zero, Bool.false_eq_true, if_false, and_false]
      repeat' split
      all_goals first | exact Or.inl ⟨_, rfl⟩ | exact Or.inr rfl
    rw [if_neg h12] at e1 e2
    by_cases h13 : c = 119
    · rw [if_pos h13] at e1 e2
      subst e1 e2
      simp only [LEGAL_ALT, illegal_alt_zero, Bool.false_eq_true, if_false, and_false]
      repeat' split
      all_goals first | exact Or.inl ⟨_, rfl⟩ | exact Or.inr rfl
    rw [if_neg h13] at e1 e2
    by_cases h14 : c = 117
    · rw [if_pos h14] at e1 e2
      subst e1 e2
      simp only [LEGAL_ALT, illegal_alt_zero, Bool.false_eq_true, if_false, and_false]
      repeat' split
      all_goals first | exact Or.inl ⟨_, rfl⟩ | exact Or.inr rfl
    rw [if_neg h14] at e1 e2
    by_cases h15 : c = 103
    · rw [if_pos h15] at e1 e2
      subst e1 e2
      exact Or.inr rfl
    rw [if_neg h15] at e1 e2
    by_cases h16 : c = 71
    · rw [if_pos h16] at e1 e2
      subst e1 e2
      exact Or.inr rfl
    rw [if_neg h16] at e1 e2
    by_cases h17 : c = 86
    · rw [if_pos h17] at e1 e2
      subst e1 e2
      exact Or.inr rfl
    rw [if_neg h17] at e1 e2
    by_cases h18 : c = 89
    · rw [if_pos h18] at e1 e2
      subst e1 e2
      simp only [LEGAL_ALT, illegal_alt_zero, Bool.false_eq_true, if_false, and_false]
      repeat' split
      all_goals first | exact Or.inl ⟨_, rfl⟩ | exact Or.inr rfl
    rw [if_neg h18] at e1 e2
    by_cases h19 : c = 121
    · rw [if_pos h19] at e1 e2
      subst e1 e2
      exact Or.inr rfl
    rw [if_neg h19] at e1 e2
    by_cases h20 : c = 90
    · rw [if_pos h20] at e1 e2
      subst e1 e2
      exact Or.inr rfl
    rw [if_neg h20] at e1 e2
    by_cases h21 : c = 122
    · rw [if_pos h21] at e1 e2
      subst e1 e2
      exact Or.inr rfl
    rw [if_neg h21] at e1 e2
    by_cases h22 : c = 110 ∨ c = 116
    · rw [if_pos h22] at e1 e2
      subst e1 e2
      simp only [LEGAL_ALT, illegal_alt_zero, Bool.false_eq_true, if_false, and_false]
      repeat' split
      all_goals first | exact Or.inl ⟨_, rfl⟩ | exact Or.inr rfl
    rw [if_neg h22] at e1 e2
    subst e1
    exact Or.inl ⟨_, rfl⟩
  exact key _ _ rfl rfl

/-- An elementary conversion returns `NULL` at its `LEGAL_ALT`, for every input, under a
modifier that this `LEGAL_ALT` does not allow. -/
theorem elementary_illegal (env : Env) (buf : List Nat) (c a x : Nat) (st : St)
    (hx : legal_alt c = some x) (ha : illegal_alt a x = true)
    (h37 : c ≠ 37) (h69 : ¬ (c = 69 ∨ c = 79)) (hX : ¬ (c = 99 ∨ c = 88 ∨ c = 120))
    (hD : ¬ (c = 68 ∨ c = 70 ∨ c = 82 ∨ c = 114 ∨ c = 84)) :
    ∃ st1, elementary env buf c a st = .error (.ret st1) := by
  unfold legal_alt at hx
  rw [if_neg h37, if_neg h69, if_neg hX, if_neg hD] at hx
  unfold elementary
  by_cases h0 : c = 65 ∨ c = 97
  · rw [if_pos h0] at hx ⊢
    cases hx
    simp only [LEGAL_ALT, ha, if_true]
    split <;> exact ⟨_, rfl⟩
  rw [if_neg h0] at hx ⊢
  by_cases h1 : c = 66 ∨ c = 98 ∨ c = 104
  · rw [if_pos h1] at hx ⊢
    cases hx
    simp only [LEGAL_ALT, ha, if_true]
    split <;> exact ⟨_, rfl⟩
  rw [if_neg h1] at hx ⊢
  by_cases h2 : c = 67
  · rw [if_pos h2] at hx ⊢
    cases hx
    simp only [LEGAL_ALT, ha, if_true]
    split <;> exact ⟨_, rfl⟩
  rw [if_neg h2] at hx ⊢
  by_cases h3 : c = 100 ∨ c = 101
  · rw [if_pos h3] at hx ⊢
    cases hx
    simp only [LEGAL_ALT, ha, if_true]
    split <;> exact ⟨_, rfl⟩
  rw [if_neg h3] at hx ⊢
  by_cases h4 : c = 107 ∨ c = 72
  · rw [if_pos h4] at hx ⊢
    cases hx
    by_cases hk : c = 107
    · rw [if_pos hk] at ha
      rw [if_pos ⟨hk, ha⟩]
      exact ⟨_, rfl⟩
    · rw [if_neg hk] at ha
      rw [if_neg (fun hh => hk hh.1)]
      simp only [LEGAL_ALT, ha, if_true]
      split <;> exact ⟨_, rfl⟩
  rw [if_neg h4] at hx ⊢
  by_cases h5 : c = 108 ∨ c = 73
  · rw [if_pos h5] at hx ⊢
    cases hx
    by_cases hk : c = 108
    · rw [if_pos hk] at ha
      rw [if_pos ⟨hk, ha⟩]
      exact ⟨_, rfl⟩
    · rw [if_neg hk] at ha
      rw [if_neg (fun hh => hk hh.1)]
      simp only [LEGAL_ALT, ha, if_true]
      split <;> exact ⟨_, rfl⟩
  rw [if_neg h5] at hx ⊢
  by_cases h6 : c = 106
  · rw [if_pos h6] at hx ⊢
    cases hx
    simp only [LEGAL_ALT, ha, if_true]
    split <;> exact ⟨_, rfl⟩
  rw [if_neg h6] at hx ⊢
  by_cases h7 : c = 77
  · rw [if_pos h7] at hx ⊢
    cases hx
    simp only [LEGAL_ALT, ha, if_true]
    split <;> exact ⟨_, rfl⟩
  rw [if_neg h7] at hx ⊢
  by_cases h8 : c = 109
  · rw [if_pos h8] at hx ⊢
    cases hx
    simp only [LEGAL_ALT, ha, if_true]
    split <;> exact ⟨_, rfl⟩
  rw [if_neg h8] at hx ⊢
  by_cases h9 : c = 112
  · rw [if_pos h9] at hx ⊢
    cases hx
    simp only [LEGAL_ALT, ha, if_true]
    repeat' split
    all_goals exact ⟨_, rfl⟩
  rw [if_neg h9] at hx ⊢
  by_cases h10 : c = 83
  · rw [if_pos h10] at hx ⊢
    cases hx
    simp only [LEGAL_ALT, ha, if_true]
    split <;> exact ⟨_, rfl⟩
  rw [if_neg h10] at hx ⊢
  by_cases h11 : c = 115
  · rw [if_pos h11] at hx ⊢
    cases hx
  rw [if_neg h11] at hx ⊢
  by_cases h12 : c = 85 ∨ c = 87
  · rw [if_pos h12] at hx ⊢
    cases hx
    simp only [LEGAL_ALT, ha, if_true]
    split <;> exact ⟨_, rfl⟩
  rw [if_neg h12] at hx ⊢
  by_cases h13 : c = 119
  · rw [if_pos h13] at hx ⊢
    cases hx
    simp only [LEGAL_ALT, ha, if_true]
    split <;> exact ⟨_, rfl⟩
  rw [if_neg h13] at hx ⊢
  by_cases h14 : c = 117
  · rw [if_pos h14] at hx ⊢
    cases hx
    simp only [LEGAL_ALT, ha, if_true]
    split <;> exact ⟨_, rfl⟩
  rw [if_neg h14] at hx ⊢
  by_cases h15 : c = 103
  · rw [if_pos h15] at hx ⊢
    cases hx
  rw [if_neg h15] at hx ⊢
  by_cases h16 : c = 71
  · rw [if_pos h16] at hx ⊢
    cases hx
  rw [if_neg h16] at hx ⊢
  by_cases h17 : c = 86
  · rw [if_pos h17] at hx ⊢
    cases hx
  rw [if_neg h17] at hx ⊢
  by_cases h18 : c = 89
  · rw [if_pos h18] at hx ⊢
    cases hx
    simp only [LEGAL_ALT, ha, if_true]
    split <;> exact ⟨_, rfl⟩
  rw [if_neg h18] at hx ⊢
  by_cases h19 : c = 121
  · rw [if_pos h19] at hx ⊢
    cases hx
  rw [if_neg h19] at hx ⊢
  by_cases h20 : c = 90
  · rw [if_pos h20] at hx ⊢
    cases hx
  rw [if_neg h20] at hx ⊢
  by_cases h21 : c = 122
  · rw [if_pos h21] at hx ⊢
    cases hx
  rw [if_neg h21] at hx ⊢
  by_cases h22 : c = 110 ∨ c = 116
  · rw [if_pos h22] at hx ⊢
    cases hx
    simp only [LEGAL_ALT, ha, if_true]
    exact ⟨_, rfl⟩
  rw [if_neg h22] at hx ⊢
  cases hx

/-- A value that `conv_num` hands back lies within its bounds. -/
theorem conv_num_bounds (buf : List Nat) (bp llim ulim bp1 v : Nat)
    (h : conv_num buf bp llim ulim = some (bp1, v)) : llim ≤ v ∧ v ≤ ulim := by
  simp only [conv_num] at h
  split_ifs at h with h1 h2
  simp only [Option.some.injEq, Prod.mk.injEq] at h
  obtain ⟨-, rfl⟩ := h
  omega

/-- An index that `find_in` hands back counts a name of its list. -/
theorem find_in_bound (buf : List Nat) (bp : Nat) (names : List (List Nat)) :
    ∀ i bp1 j, find_in buf bp names i = some (bp1, j) → j < i + names.length := by
  induction names with
  | nil => intro i bp1 j h; cases h
  | cons name rest ih =>
    intro i bp1 j h
    simp only [find_in] at h
    split_ifs at h
    · simp only [Option.some.injEq, Prod.mk.injEq] at h
      obtain ⟨-, rfl⟩ := h
      simp
    · have := ih _ _ _ h
      simp only [List.length_cons]
      omega

/-- An index that `find_string` hands back is below the count `c`. -/
theorem find_string_bound (buf : List Nat) (bp : Nat) (n1 : List (List Nat))
    (n2 : Option (List (List Nat))) (c bp1 j : Nat)
    (h : find_string buf bp n1 n2 c = some (bp1, j)) : j < c := by
  simp only [find_string] at h
  split at h
  · rename_i r hr
    cases h
    have := find_in_bound _ _ _ _ _ _ hr
    simp only [List.length_take] at this
    omega
  · split at h
    · cases h
    · have := find_in_bound _ _ _ _ _ _ h
      simp only [List.length_take] at this
      omega

/-- The derivation pass reads the table inside its rows when month and day of the month
are present and the month is a month index: it never leaves the table. -/
theorem derivation_pass_defined (st : St) (hmon : HAVE_MON st.state = true)
    (hmday : HAVE_MDAY st.state = true)
    (hP : HAVE_MON st.state = true → HAVE_YDAY st.state = false →
      0 ≤ st.tm.tm_mon ∧ st.tm.tm_mon ≤ 11) :
    ∃ res, derivation_pass st = .ok res := by
  have hsm : ∀ (leap : Bool) (i : Int), 0 ≤ i → i ≤ 11 →
      ∃ s, start_of_month_at leap i = some s := by
    intro leap i h0 h1
    obtain ⟨n, rfl⟩ := Int.eq_ofNat_of_zero_le h0
    have hn : n ≤ 11 := by omega
    have : (start_of_month_at leap (n : Int)).isSome = true := by
      cases leap <;> interval_cases n <;> decide
    exact Option.isSome_iff_exists.1 this
  cases hY : HAVE_YDAY st.state <;> cases hYe : HAVE_YEAR st.state
  · exact ⟨_, derivation_pass_no_year st hYe⟩
  · obtain ⟨s, hs⟩ := hsm (isleap_sum st.tm.tm_year TM_YEAR_BASE) st.tm.tm_mon
      (hP hmon hY).1 (hP hmon hY).2
    simp [derivation_pass, derive_yday, derive_mon, derive_mday, hY, hYe, hmon, hmday, hs,
      have_after]
  · exact ⟨_, derivation_pass_no_year st hYe⟩
  · simp [derivation_pass, derive_yday, derive_mon, derive_mday, hY, hYe, hmon, hmday]

/-- The presence tests on a `state` into which bits have been or-ed. -/
theorem have_or (s b : Nat) :
    HAVE_YEAR (s ||| b) = (HAVE_YEAR s || HAVE_YEAR b) ∧
      HAVE_MON (s ||| b) = (HAVE_MON s || HAVE_MON b) ∧
      HAVE_YDAY (s ||| b) = (HAVE_YDAY s || HAVE_YDAY b) ∧
      HAVE_MDAY (s ||| b) = (HAVE_MDAY s || HAVE_MDAY b) :=
  ⟨have_lor s S_YEAR b, have_lor s S_MON b, have_lor s S_YDAY b, have_lor s S_MDAY b⟩

/-- The presence tests on the single bits. -/
theorem have_bit :
    HAVE_YEAR S_YEAR = true ∧ HAVE_YEAR S_MON = false ∧ HAVE_YEAR S_MDAY = false ∧
      HAVE_YEAR S_WDAY = false ∧ HAVE_YEAR S_HOUR = false ∧ HAVE_YEAR S_YDAY = false ∧
      HAVE_MON S_YEAR = false ∧ HAVE_MON S_MON = true ∧ HAVE_MON S_MDAY = false ∧
      HAVE_MON S_WDAY = false ∧ HAVE_MON S_HOUR = false ∧ HAVE_MON S_YDAY = false ∧
      HAVE_YDAY S_YEAR = false ∧ HAVE_YDAY S_MON = false ∧ HAVE_YDAY S_MDAY = false ∧
      HAVE_YDAY S_WDAY = false ∧ HAVE_YDAY S_HOUR = false ∧ HAVE_YDAY S_YDAY = true ∧
      HAVE_MDAY S_YEAR = false ∧ HAVE_MDAY S_MON = false ∧ HAVE_MDAY S_MDAY = true ∧
      HAVE_MDAY S_WDAY = false ∧ HAVE_MDAY S_HOUR = false ∧ HAVE_MDAY S_YDAY = false := by
  decide

/-- The `%Z` conversion leaves state, month and week number alone, also when it finds no
zone name. -/
theorem case_Z_frame (env : Env) (buf : List Nat) (st : St) (x : Except Halt St)
    (h : case_Z env buf st = x) :
    match x with
    | .ok st1 | .error (.null st1) =>
      st1.state = st.state ∧ st1.day_offset = st.day_offset ∧ st1.tm.tm_mon = st.tm.tm_mon
    | .error (.ret _) => True
    | .error .undefined => False := by
  simp only [case_Z] at h
  repeat' split at h
  all_goals (subst h; exact ⟨rfl, rfl, rfl⟩)

/-- The `%z` conversion leaves state, month and week number alone. -/
theorem case_z_frame (buf : List Nat) (st : St) (x : Except Halt St)
    (h : case_z buf st = x) :
    match x with
    | .ok st1 | .error (.null st1) =>
      st1.state = st.state ∧ st1.day_offset = st.day_offset ∧ st1.tm.tm_mon = st.tm.tm_mon
    | .error (.ret _) => True
    | .error .undefined => False := by
  simp only [case_z, case_z_numeric, case_z_default] at h
  repeat' split at h
  all_goals (subst h; first | exact ⟨rfl, rfl, rfl⟩ | exact trivial)

/-- A state without year, day of the year and week number goes through the derivation
pass unchanged; more is allowed when the month is a month index. -/
theorem pass_safe_defined (st : St) (h : pass_safe st) : ∃ res, derivation_pass st = .ok res := by
  obtain ⟨hY, hd, hr⟩ := h
  have hsm : ∀ (leap : Bool) (i : Int), 0 ≤ i → i ≤ 11 →
      ∃ s, start_of_month_at leap i = some s := by
    intro leap i h0 h1
    obtain ⟨n, rfl⟩ := Int.eq_ofNat_of_zero_le h0
    have hn : n ≤ 11 := by omega
    have : (start_of_month_at leap (n : Int)).isSome = true := by
      cases leap <;> interval_cases n <;> decide
    exact Option.isSome_iff_exists.1 this
  cases hYe : HAVE_YEAR st.state
  · exact ⟨_, derivation_pass_no_year st hYe⟩
  · cases hM : HAVE_MON st.state <;> cases hD : HAVE_MDAY st.state
    · simp [derivation_pass, derive_yday, hY, hYe, hM, hD, hd]
    · simp [derivation_pass, derive_yday, hY, hYe, hM, hD, hd]
    · simp [derivation_pass, derive_yday, hY, hYe, hM, hD, hd]
    · obtain ⟨s, hs⟩ := hsm (isleap_sum st.tm.tm_year TM_YEAR_BASE) st.tm.tm_mon
        (hr hYe hM hD).1 (hr hYe hM hD).2
      simp [derivation_pass, derive_yday, derive_mon, derive_mday, hY, hYe, hM, hD, hs,
        have_after]

/-- Before the year is met every state is safe for the derivation pass. -/
theorem no_year_yet_safe (st : St) (h : no_year_yet st) : pass_safe st :=
  ⟨h.2.1, h.2.2.1, fun hy => by rw [h.1] at hy; cases hy⟩

/-- What an elementary conversion other than `s`, `j`, `U` and `W` does to a state that
has met no year so far: when it succeeds and is not `C`, `Y` or `y`, the state is as
before; in every other case in which the derivation pass will run (a success of `C`, `Y`,
`y`, or a `NULL` cursor), the state is safe for the pass.  The conversion has no undefined
behaviour. -/
theorem elementary_facts (env : Env) (buf : List Nat) (c a : Nat) (st : St)
    (x : Except Halt St) (e : elementary env buf c a st = x) (hP : no_year_yet st)
    (n115 : c ≠ 115) (n106 : c ≠ 106) (n85 : c ≠ 85) (n87 : c ≠ 87) :
    match x with
    | .ok st1 => pass_safe st1 ∧ (¬ (c = 67 ∨ c = 89 ∨ c = 121) → no_year_yet st1)
    | .error (.null st1) => pass_safe st1
    | .error (.ret _) => True
    | .error .undefined => False := by
  obtain ⟨p1, p2, p3, p4⟩ := hP
  unfold elementary at e
  by_cases h0 : c = 65 ∨ c = 97
  · rw [if_pos h0] at e
    try simp only [LEGAL_ALT] at e
    repeat' split at e
    all_goals
      (subst e
       first
       | exact trivial
       | (simp [pass_safe, no_year_yet, have_or, have_bit, p1, p2, p3]
          try first | exact fun _ _ _ => p4 | exact fun h _ => p4 h))
  rw [if_neg h0] at e
  by_cases h1 : c = 66 ∨ c = 98 ∨ c = 104
  · rw [if_pos h1] at e
    cases hf : find_string buf st.bp mon (some abmon) 12 with
    | none =>
      simp only [hf, LEGAL_ALT] at e
      split at e
      all_goals
        (subst e
         first
         | exact trivial
         | (simp [pass_safe, no_year_yet, have_or, have_bit, p1, p2, p3]
            try first | exact fun _ _ _ => p4 | exact fun h _ => p4 h))
    | some p =>
      obtain ⟨bp1, i⟩ := p
      have hb := find_string_bound _ _ _ _ _ _ _ hf
      simp only [hf, LEGAL_ALT] at e
      split at e
      all_goals
        (subst e
         first
         | exact trivial
         | (simp [pass_safe, no_year_yet, have_or, have_bit, p1, p2, p3]
            try first | exact fun _ _ _ => p4 | exact fun h _ => p4 h | (intros; omega)))
  rw [if_neg h1] at e
  by_cases h2 : c = 67
  · rw [if_pos h2] at e
    try simp only [LEGAL_ALT] at e
    repeat' split at e
    all_goals
      (subst e
       first
       | exact trivial
       | (simp [pass_safe, no_year_yet, have_or, have_bit, p1, p2, p3]
          try first | exact fun _ _ _ => p4 | exact fun h _ => p4 h | exact ⟨fun h _ => p4 h, fun h => absurd h2 h⟩))
  rw [if_neg h2] at e
  by_cases h3 : c = 100 ∨ c = 101
  · rw [if_pos h3] at e
    try simp only [LEGAL_ALT] at e
    repeat' split at e
    all_goals
      (subst e
       first
       | exact trivial
       | (simp [pass_safe, no_year_yet, have_or, have_bit, p1, p2, p3]
          try first | exact fun _ _ _ => p4 | exact fun h _ => p4 h))
  rw [if_neg h3] at e
  by_cases h4 : c = 107 ∨ c = 72
  · rw [if_pos h4] at e
    try simp only [LEGAL_ALT] at e
    repeat' split at e
    all_goals
      (subst e
       first
       | exact trivial
       | (simp [pass_safe, no_year_yet, have_or, have_bit, p1, p2, p3]
          try first | exact fun _ _ _ => p4 | exact fun h _ => p4 h))
  rw [if_neg h4] at e
  by_cases h5 : c = 108 ∨ c = 73
  · rw [if_pos h5] at e
    try simp only [LEGAL_ALT] at e
    repeat' split at e
    all_goals
      (subst e
       first
       | exact trivial
       | (simp [pass_safe, no_year_yet, have_or, have_bit, p1, p2, p3]
          try first | exact fun _ _ _ => p4 | exact fun h _ => p4 h))
  rw [if_neg h5] at e
  by_cases h6 : c = 106
  · rw [if_pos h6] at e
    exact absurd h6 n106
  rw [if_neg h6] at e
  by_cases h7 : c = 77
  · rw [if_pos h7] at e
    try simp only [LEGAL_ALT] at e
    repeat' split at e
    all_goals
      (subst e
       first
       | exact trivial
       | (simp [pass_safe, no_year_yet, have_or, have_bit, p1, p2, p3]
          try first | exact fun _ _ _ => p4 | exact fun h _ => p4 h))
  rw [if_neg h7] at e
  by_cases h8 : c = 109
  · rw [if_pos h8] at e
    cases hf : conv_num buf st.bp 1 12 with
    | none =>
      simp only [hf, LEGAL_ALT] at e
      split at e
      all_goals
        (subst e
         first
         | exact trivial
         | (simp [pass_safe, no_year_yet, have_or, have_bit, p1, p2, p3]
            try first | exact fun _ _ _ => p4 | exact fun h _ => p4 h))
    | some p =>
      obtain ⟨bp1, i⟩ := p
      have hb := conv_num_bounds _ _ _ _ _ _ hf
      simp only [hf, LEGAL_ALT] at e
      split at e
      all_goals
        (subst e
         first
         | exact trivial
         | (simp [pass_safe, no_year_yet, have_or, have_bit, p1, p2, p3]
            try first | exact fun _ _ _ => p4 | exact fun h _ => p4 h | (intros; omega)))
  rw [if_neg h8] at e
  by_cases h9 : c = 112
  · rw [if_pos h9] at e
    try simp only [LEGAL_ALT] at e
    repeat' split at e
    all_goals
      (subst e
       first
       | exact trivial
       | (simp [pass_safe, no_year_yet, have_or, have_bit, p1, p2, p3]
          try first | exact fun _ _ _ => p4 | exact fun h _ => p4 h))
  rw [if_neg h9] at e
  by_cases h10 : c = 83
  · rw [if_pos h10] at e
    try simp only [LEGAL_ALT] at e
    repeat' split at e
    all_goals
      (subst e
       first
       | exact trivial
       | (simp [pass_safe, no_year_yet, have_or, have_bit, p1, p2, p3]
          try first | exact fun _ _ _ => p4 | exact fun h _ => p4 h))
  rw [if_neg h10] at e
  by_cases h11 : c = 115
  · rw [if_pos h11] at e
    exact absurd h11 n115
  rw [if_neg h11] at e
  by_cases h12 : c = 85 ∨ c = 87
  · rw [if_pos h12] at e
    exact absurd h12 (fun h => h.elim n85 n87)
  rw [if_neg h12] at e
  by_cases h13 : c = 119
  · rw [if_pos h13] at e
    try simp only [LEGAL_ALT] at e
    repeat' split at e
    all_goals
      (subst e
       first
       | exact trivial
       | (simp [pass_safe, no_year_yet, have_or, have_bit, p1, p2, p3]
          try first | exact fun _ _ _ => p4 | exact fun h _ => p4 h))
  rw [if_neg h13] at e
  by_cases h14 : c = 117
  · rw [if_pos h14] at e
    try simp only [LEGAL_ALT] at e
    repeat' split at e
    all_goals
      (subst e
       first
       | exact trivial
       | (simp [pass_safe, no_year_yet, have_or, have_bit, p1, p2, p3]
          try first | exact fun _ _ _ => p4 | exact fun h _ => p4 h))
  rw [if_neg h14] at e
  by_cases h15 : c = 103
  · rw [if_pos h15] at e
    try simp only [LEGAL_ALT] at e
    repeat' split at e
    all_goals
      (subst e
       first
       | exact trivial
       | (simp [pass_safe, no_year_yet, have_or, have_bit, p1, p2, p3]
          try first | exact fun _ _ _ => p4 | exact fun h _ => p4 h))
  rw [if_neg h15] at e
  by_cases h16 : c = 71
  · rw [if_pos h16] at e
    try simp only [LEGAL_ALT] at e
    all_goals
      (subst e
       first
       | exact trivial
       | (simp [pass_safe, no_year_yet, have_or, have_bit, p1, p2, p3]
          try first | exact fun _ _ _ => p4))
  rw [if_neg h16] at e
  by_cases h17 : c = 86
  · rw [if_pos h17] at e
    try simp only [LEGAL_ALT] at e
    repeat' split at e
    all_goals
      (subst e
       first
       | exact trivial
       | (simp [pass_safe, no_year_yet, have_or, have_bit, p1, p2, p3]
          try first | exact fun _ _ _ => p4 | exact fun h _ => p4 h))
  rw [if_neg h17] at e
  by_cases h18 : c = 89
  · rw [if_pos h18] at e
    try simp only [LEGAL_ALT] at e
    repeat' split at e
    all_goals
      (subst e
       first
       | exact trivial
       | (simp [pass_safe, no_year_yet, have_or, have_bit, p1, p2, p3]
          try first | exact fun _ _ _ => p4 | exact fun h _ => p4 h | exact ⟨fun h _ => p4 h, fun _ h => absurd h18 h⟩))
  rw [if_neg h18] at e
  by_cases h19 : c = 121
  · rw [if_pos h19] at e
    try simp only [LEGAL_ALT] at e
    repeat' split at e
    all_goals
      (subst e
       first
       | exact trivial
       | (simp [pass_safe, no_year_yet, have_or, have_bit, p1, p2, p3]
          try first | exact fun _ _ _ => p4 | exact fun h _ => p4 h | exact ⟨fun h _ => p4 h, fun _ _ => h19⟩))
  rw [if_neg h19] at e
  by_cases h20 : c = 90
  · rw [if_pos h20] at e
    have hfr := case_Z_frame env buf st x e
    revert hfr
    cases x with
    | error ee =>
      cases ee with
      | ret s1 => exact fun _ => trivial
      | null s1 =>
        rintro ⟨q1, q2, -⟩
        exact ⟨by rw [q1]; exact p2, by rw [q2]; exact p3,
          fun hy => by rw [q1, p1] at hy; cases hy⟩
      | undefined => exact fun h => h
    | ok s1 =>
      rintro ⟨q1, q2, q3⟩
      have hs : no_year_yet s1 :=
        ⟨by rw [q1]; exact p1, by rw [q1]; exact p2, by rw [q2]; exact p3,
          by rw [q1, q3]; exact p4⟩
      exact ⟨no_year_yet_safe s1 hs, fun _ => hs⟩
  rw [if_neg h20] at e
  by_cases h21 : c = 122
  · rw [if_pos h21] at e
    have hfr := case_z_frame buf st x e
    revert hfr
    cases x with
    | error ee =>
      cases ee with
      | ret s1 => exact fun _ => trivial
      | null s1 =>
        rintro ⟨q1, q2, -⟩
        exact ⟨by rw [q1]; exact p2, by rw [q2]; exact p3,
          fun hy => by rw [q1, p1] at hy; cases hy⟩
      | undefined => exact fun h => h
    | ok s1 =>
      rintro ⟨q1, q2, q3⟩
      have hs : no_year_yet s1 :=
        ⟨by rw [q1]; exact p1, by rw [q1]; exact p2, by rw [q2]; exact p3,
          by rw [q1, q3]; exact p4⟩
      exact ⟨no_year_yet_safe s1 hs, fun _ => hs⟩
  rw [if_neg h21] at e
  by_cases h22 : c = 110 ∨ c = 116
  · rw [if_pos h22] at e
    try simp only [LEGAL_ALT] at e
    repeat' split at e
    all_goals
      (subst e
       first
       | exact trivial
       | (simp [pass_safe, no_year_yet, have_or, have_bit, p1, p2, p3]
          try first | exact fun _ _ _ => p4))
  rw [if_neg h22] at e
  subst e
  trivial

/-- The rest of a template whose year conversion comes last has its year conversion
last. -/
theorem year_last_tail (c : Nat) (fmt : List Nat) (h : year_last (c :: fmt) = true) :
    year_last fmt = true := by
  unfold year_last at h
  split_ifs at h with hy
  · cases fmt with
    | nil => rfl
    | cons _ _ => cases h
  · simp only [Bool.and_eq_true] at h
    exact h.2

/-- The head of a template whose year conversion comes last: it is none of `s`, `j`, `U`
and `W`, and nothing follows it when it is `C`, `Y` or `y`. -/
theorem year_last_head (c : Nat) (fmt : List Nat) (h : year_last (c :: fmt) = true) :
    c ≠ 115 ∧ c ≠ 106 ∧ c ≠ 85 ∧ c ≠ 87 ∧ ((c = 67 ∨ c = 89 ∨ c = 121) → fmt = []) := by
  unfold year_last at h
  split_ifs at h with hy
  · refine ⟨by omega, by omega, by omega, by omega, fun _ => ?_⟩
    cases fmt with
    | nil => rfl
    | cons _ _ => cases h
  · simp only [Bool.and_eq_true, decide_eq_true_eq] at h
    exact ⟨h.1.1, h.1.2.1, h.1.2.2.1, h.1.2.2.2, fun hc => absurd hc hy⟩

/-- The loop on a template without composite conversions, without `s`, `j`, `U` and `W`,
and with its year conversion, if any, at the end: from a state that has met no year it
fails with `NULL` only, never with undefined behaviour. -/
theorem go_defined (r : Recurse) (env : Env) (buf : List Nat) (fmt : List Nat)
    (hfmt : ∀ x ∈ fmt, composite x = none) (hy : year_last fmt = true) :
    ∀ (m : Option Nat) (st : St), no_year_yet st → ∀ f, go r env buf m fmt st = .error f →
      ∃ tm off zone, f = .null tm off zone := by
  induction fmt with
  | nil =>
    intro m st hP f h
    cases m with
    | none =>
      obtain ⟨res, hres⟩ := pass_safe_defined st (no_year_yet_safe st hP)
      simp only [go] at h
      rw [hres] at h
      cases h
    | some a =>
      simp only [go] at h
      cases h
      exact ⟨_, _, _, rfl⟩
  | cons c fmt ih =>
    have ih' := ih (fun x hx => hfmt x (List.mem_cons_of_mem _ hx)) (year_last_tail c fmt hy)
    have hc : composite c = none := hfmt c (List.mem_cons_self _ _)
    intro m st hP f h
    cases m with
    | none =>
      simp only [go] at h
      split_ifs at h with h0 hsp h37 hlit
      · obtain ⟨res, hres⟩ := pass_safe_defined st (no_year_yet_safe st hP)
        rw [hres] at h
        cases h
      · exact ih' none { st with bp := skip_space buf st.bp } hP f h
      · cases h
        exact ⟨_, _, _, rfl⟩
      · exact ih' none { st with bp := st.bp + 1 } hP f h
      · exact ih' (some 0) st hP f h
    | some a =>
      simp only [go] at h
      by_cases h37 : c = 37
      · simp only [h37, if_true] at h
        split_ifs at h
        · cases h
          exact ⟨_, _, _, rfl⟩
        · cases h
          exact ⟨_, _, _, rfl⟩
        · exact ih' none { st with bp := st.bp + 1 } hP f h
      · simp only [h37, if_false] at h
        by_cases h69 : c = 69
        · simp only [h69, if_true] at h
          split_ifs at h
          · cases h
            exact ⟨_, _, _, rfl⟩
          · exact ih' (some _) st hP f h
        · simp only [h69, if_false] at h
          by_cases h79 : c = 79
          · simp only [h79, if_true] at h
            split_ifs at h
            · cases h
              exact ⟨_, _, _, rfl⟩
            · exact ih' (some _) st hP f h
          · simp only [h79, if_false, hc] at h
            obtain ⟨n1, n2, n3, n4, hlast⟩ := year_last_head c fmt hy
            generalize he : elementary env buf c a st = x at h
            have hf := elementary_facts env buf c a st x he hP n1 n2 n3 n4
            cases x with
            | error e =>
              cases e with
              | ret s1 =>
                cases h
                exact ⟨_, _, _, rfl⟩
              | null s1 =>
                obtain ⟨res, hres⟩ := pass_safe_defined s1 hf
                simp only [null_pass, hres] at h
                cases h
                exact ⟨_, _, _, rfl⟩
              | undefined => exact hf.elim
            | ok st1 =>
              by_cases hyr : c = 67 ∨ c = 89 ∨ c = 121
              · have hnil := hlast hyr
                subst hnil
                obtain ⟨res, hres⟩ := pass_safe_defined st1 hf.1
                simp only [go] at h
                rw [hres] at h
                cases h
              · exact ih' none st1 (hf.2 hyr) f h

/-- The sub-templates of `c`, `X` and `x` have their year conversion last and none of `s`,
`j`, `U` and `W`. -/
theorem sub_template_year_last (c : Nat) (nf : List Nat) (bits : Nat)
    (h : composite c = some (nf, false, bits)) : year_last nf = true := by
  unfold composite at h
  split_ifs at h <;> simp only [Option.some.injEq, Prod.mk.injEq] at h <;>
    obtain ⟨rfl, hck, -⟩ := h <;> first | decide | cases hck

/-- The nested call of `c`, `X` and `x` fails with `NULL` only. -/
theorem sub_template_error (env : Env) (buf : List Nat) (c : Nat) (nf : List Nat)
    (bits : Nat) (hc : composite c = some (nf, false, bits)) (bp : Nat) (tm : Tm) (off : Int)
    (zone : List Nat) (f : Fail)
    (h : strptime_depth env buf 1 nf bp tm off zone = .error f) :
    ∃ tm1 off1 zone1, f = .null tm1 off1 zone1 :=
  go_defined (strptime_depth env buf 0) env buf nf (composite_fmt_plain c nf false bits hc)
    (sub_template_year_last c nf bits hc) none (St.init bp tm off zone)
    ⟨(by decide : HAVE_YEAR 0 = false), (by decide : HAVE_YDAY 0 = false), rfl,
      fun hm => absurd (hm : HAVE_MON 0 = true) (by decide : ¬ HAVE_MON 0 = true)⟩ f h

/-- A conversion behind a modifier fails with `NULL` or does what it does without the
modifier. -/
theorem go_alt (r : Recurse) (env : Env) (buf : List Nat) (c a : Nat) (st : St)
    (ha : a = ALT_E ∨ a = ALT_O) :
    to_caller (go r env buf (some a) [c] st) = .error .null ∨
      go r env buf (some a) [c] st = go r env buf (some 0) [c] st := by
  have hz := illegal_alt_zero
  have ha0 : illegal_alt a 0 = true := by rcases ha with rfl | rfl <;> decide
  simp only [go]
  by_cases h37 : c = 37
  · rw [if_pos h37]
    left
    split_ifs <;> rfl
  · rw [if_neg h37, if_neg h37]
    by_cases h69 : c = 69
    · rw [if_pos h69, if_pos ha0]
      exact Or.inl rfl
    · rw [if_neg h69, if_neg h69]
      by_cases h79 : c = 79
      · rw [if_pos h79, if_pos ha0]
        exact Or.inl rfl
      · rw [if_neg h79, if_neg h79]
        cases hc : composite c with
        | none =>
          simp only
          rcases elementary_alt env buf c a st with ⟨st1, he⟩ | he
          · rw [he]
            exact Or.inl rfl
          · rw [he]
            exact Or.inr rfl
        | some p =>
          obtain ⟨nf, ck, bits⟩ := p
          simp only [hz, Bool.and_false, Bool.false_eq_true, if_false, ha0, Bool.and_true]
          cases ck with
          | true => exact Or.inl rfl
          | false =>
            simp only [Bool.false_eq_true, if_false]
            cases r nf st.bp st.tm st.tm_gmtoff st.tm_zone with
            | error e =>
              cases e with
              | null tm1 off1 zone1 =>
                simp only
                split_ifs
                · exact Or.inl rfl
                · exact Or.inr rfl
              | undefined => exact Or.inr rfl
              | nesting => exact Or.inr rfl
            | ok rr =>
              simp only
              split_ifs
              · exact Or.inl rfl
              · exact Or.inr rfl

/-- A conversion behind a modifier that its `LEGAL_ALT` does not allow fails with `NULL`
for every input. -/
theorem go_illegal (env : Env) (buf : List Nat) (c a x : Nat) (st : St)
    (ha : a = ALT_E ∨ a = ALT_O) (hx : legal_alt c = some x) (hi : illegal_alt a x = true) :
    to_caller (go (strptime_depth env buf 1) env buf (some a) [c] st) = .error .null := by
  have ha0 : illegal_alt a 0 = true := by rcases ha with rfl | rfl <;> decide
  simp only [go]
  by_cases h37 : c = 37
  · simp only [h37, if_true, ha0]
    split_ifs <;> rfl
  · simp only [h37, if_false]
    by_cases h69 : c = 69
    · simp only [h69, if_true, ha0]
      rfl
    · simp only [h69, if_false]
      by_cases h79 : c = 79
      · simp only [h79, if_true, ha0]
        rfl
      · simp only [h79, if_false]
        have hEO : ¬ (c = 69 ∨ c = 79) := fun h => h.elim h69 h79
        by_cases hX : c = 99 ∨ c = 88 ∨ c = 120
        · have hxE : x = ALT_E := by
            unfold legal_alt at hx
            rw [if_neg h37, if_neg hEO, if_pos hX] at hx
            cases hx
            rfl
          subst hxE
          have hcomp : ∃ nf bits, composite c = some (nf, false, bits) := by
            rcases hX with rfl | rfl | rfl <;> exact ⟨_, _, rfl⟩
          obtain ⟨nf, bits, hc⟩ := hcomp
          simp only [hc, Bool.false_and, Bool.false_eq_true, if_false, hi, if_true]
          cases hr : strptime_depth env buf 1 nf st.bp st.tm st.tm_gmtoff st.tm_zone with
          | error e =>
            obtain ⟨tm1, off1, zone1, rfl⟩ :=
              sub_template_error env buf c nf bits hc _ _ _ _ e hr
            rfl
          | ok rr => rfl
        · by_cases hD : c = 68 ∨ c = 70 ∨ c = 82 ∨ c = 114 ∨ c = 84
          · have hcomp : ∃ nf bits, composite c = some (nf, true, bits) := by
              rcases hD with rfl | rfl | rfl | rfl | rfl <;> exact ⟨_, _, rfl⟩
            obtain ⟨nf, bits, hc⟩ := hcomp
            simp only [hc, Bool.true_and, ha0, if_true]
            rfl
          · have hc : composite c = none := by
              unfold composite
              have n1 : c ≠ 99 := fun h => hX (Or.inl h)
              have n2 : c ≠ 88 := fun h => hX (Or.inr (Or.inl h))
              have n3 : c ≠ 120 := fun h => hX (Or.inr (Or.inr h))
              have n4 : c ≠ 68 := fun h => hD (Or.inl h)
              have n5 : c ≠ 70 := fun h => hD (Or.inr (Or.inl h))
              have n6 : c ≠ 82 := fun h => hD (Or.inr (Or.inr (Or.inl h)))
              have n7 : c ≠ 114 := fun h => hD (Or.inr (Or.inr (Or.inr (Or.inl h))))
              have n8 : c ≠ 84 := fun h => hD (Or.inr (Or.inr (Or.inr (Or.inr h))))
              simp only [n1, n2, n3, n4, n5, n6, n7, n8, if_false]
            simp only [hc]
            obtain ⟨st1, he⟩ := elementary_illegal env buf c a x st hx hi h37 hEO hX hD
            rw [he]
            rfl

/-- A template of one conversion behind one modifier is the loop at the label `again`
with that modifier recorded. -/
theorem strptime_modifier (env : Env) (buf : List Nat) (c m : Nat) (tm : Tm) (off : Int)
    (zone : List Nat) (hm : m = 69 ∨ m = 79) :
    strptime_with_tz env buf [37, m, c] tm off zone =
        to_caller (go (strptime_depth env buf 1) env buf
          (some (if m = 69 then ALT_E else ALT_O)) [c] (St.init 0 tm off zone)) ∧
      strptime_with_tz env buf [37, c] tm off zone =
        to_caller (go (strptime_depth env buf 1) env buf (some 0) [c]
          (St.init 0 tm off zone)) := by
  have hs : isspace 37 = false := by decide
  have e1 : 0 ||| ALT_E = ALT_E := by decide
  have e2 : 0 ||| ALT_O = ALT_O := by decide
  have hg : ∀ fmt, strptime_with_tz env buf fmt tm off zone =
      to_caller (go (strptime_depth env buf 1) env buf none fmt (St.init 0 tm off zone)) :=
    fun _ => rfl
  rw [hg, hg]
  rcases hm with rfl | rfl <;>
    simp +decide only [go, hs, illegal_alt_zero, e1, e2,
      if_false, Bool.false_eq_true, ne_eq, not_true_eq_false, not_false_eq_true, if_true,
      and_self]

/-- C21. The alternate modifiers never change what is parsed: for every conversion
character `c`, modifier `m` (`E` or `O`), subject string, initial accumulator, offset and
zone label, the template `%mc` fails, or it gives exactly the outcome of `%c`; and it fails
for every subject string when the `LEGAL_ALT` of the conversion does not allow the
modifier. -/
theorem alt_modifier_never_changes (env : Env) (buf : List Nat) (c m : Nat) (tm : Tm)
    (off : Int) (zone : List Nat) (hm : m = 69 ∨ m = 79) :
    (strptime_with_tz env buf [37, m, c] tm off zone = .error .null ∨
        strptime_with_tz env buf [37, m, c] tm off zone =
          strptime_with_tz env buf [37, c] tm off zone) ∧
      ∀ x, legal_alt c = some x → illegal_alt (if m = 69 then ALT_E else ALT_O) x = true →
        strptime_with_tz env buf [37, m, c] tm off zone = .error .null := by
  obtain ⟨h1, h2⟩ := strptime_modifier env buf c m tm off zone hm
  have ha : (if m = 69 then ALT_E else ALT_O) = ALT_E ∨
      (if m = 69 then ALT_E else ALT_O) = ALT_O := by
    by_cases h : m = 69
    · exact Or.inl (if_pos h)
    · exact Or.inr (if_neg h)
  rw [h1, h2]
  refine ⟨?_, fun x hx hi => go_illegal env buf c _ x _ ha hx hi⟩
  rcases go_alt (strptime_depth env buf 1) env buf c _ (St.init 0 tm off zone) ha with h | h
  · exact Or.inl h
  · exact Or.inr (congrArg to_caller h)

/-- C21 at "%Ed" on "15", which `LEGAL_ALT(ALT_O)` rejects, and at "%EY" on "2024". -/
theorem alt_modifier_never_changes_witness :
    (69 = 69 ∨ 69 = 79) ∧ legal_alt 100 = some ALT_O ∧ illegal_alt ALT_E ALT_O = true ∧
      strptime_with_tz Env.cet (bytes "15") (bytes "%Ed") Tm.zero 0 [] = .error .null ∧
      (strptime_with_tz Env.cet (bytes "2024") (bytes "%EY") Tm.zero 0 [] = .error .null ∨
        strptime_with_tz Env.cet (bytes "2024") (bytes "%EY") Tm.zero 0 [] =
          strptime_with_tz Env.cet (bytes "2024") (bytes "%Y") Tm.zero 0 []) :=
  ⟨Or.inl rfl, by decide, by decide,
   (alt_modifier_never_changes Env.cet (bytes "15") 100 69 Tm.zero 0 [] (Or.inl rfl)).2
     ALT_O (by decide) (by decide),
   (alt_modifier_never_changes Env.cet (bytes "2024") 89 69 Tm.zero 0 [] (Or.inl rfl)).1⟩

/-! ## C22: the day of the year from a week number -/

/-- C22. The input "2001 2 0" (week 2, Sunday) parsed with "%Y %W %w" gives the day of the
year 6, the Sunday 7 January 2001: its weekday `(first_wday_of 2001 + 6) mod 7` is the
parsed 0, but its Monday-based week number `(6 + 7 - ((0 + 6) mod 7)) / 7` is 1 and not the
parsed 2.  The code adds `tm_wday - day_offset`, for a Sunday under `%W` one day back from
the Monday that begins the parsed week. -/
theorem W_sunday_lands_a_week_early (env : Env) (tm : Tm) (off : Int) (zone : List Nat) :
    strptime_with_tz env (bytes "2001 2 0") (bytes "%Y %W %w") tm off zone =
        .ok { bp := 8,
              tm := { tm with tm_year := 101, tm_wday := 0, tm_yday := 6, tm_mon := 0,
                              tm_mday := 7 },
              tm_gmtoff := off, tm_zone := zone } ∧
      (first_wday_of 2001 + 6) % 7 = 0 ∧
      ((6 : Int) + 7 - ((0 + 6) % 7)) / 7 = 1 ∧ (1 : Int) ≠ 2 := by
  have hb : bytes "2001 2 0" = [50, 48, 48, 49, 32, 50, 32, 48] := by decide
  have hf : bytes "%Y %W %w" = [37, 89, 32, 37, 87, 32, 37, 119] := by decide
  have c1 : conv_num [50, 48, 48, 49, 32, 50, 32, 48] 0 0 9999 = some (4, 2001) := by decide
  have s1 : skip_space [50, 48, 48, 49, 32, 50, 32, 48] 4 = 5 := by decide
  have c2 : conv_num [50, 48, 48, 49, 32, 50, 32, 48] 5 0 53 = some (6, 2) := by decide
  have s2 : skip_space [50, 48, 48, 49, 32, 50, 32, 48] 6 = 7 := by decide
  have c3 : conv_num [50, 48, 48, 49, 32, 50, 32, 48] 7 0 6 = some (8, 0) := by decide
  refine ⟨?_, by decide, by decide, by decide⟩
  rw [hb, hf]
  simp +decide [strptime_with_tz, -to_caller, strptime_depth, go, St.init, elementary, composite,
    c1, s1, c2, s2, c3, isspace, LEGAL_ALT, illegal_alt, ALT_E, ALT_O, S_YEAR, S_WDAY,
    TM_YEAR_BASE, TM_MONDAY, TM_SUNDAY]
  simp +decide [derivation_pass, derive_yday, derive_mon, derive_mday, derive_wday, HAVE_YDAY,
    HAVE_YEAR, HAVE_MON, HAVE_MDAY, HAVE_WDAY, S_YEAR, S_MON, S_MDAY, S_YDAY, S_WDAY,
    TM_YEAR_BASE, start_of_month_at, start_of_month_from, start_of_month, month_scan,
    first_wday_of, isleap, isleap_sum, St.result]

/-- The part of C22 that the first block of the derivation pass does deliver: with the
year `Y`, a week number `k` and the weekday `w` parsed, the day of the year that
it computes has the weekday `w`, and it lies in week `k`, for `%U` (day offset 0) with any
weekday and for `%W` (day offset 1) with any weekday but Sunday. -/
theorem week_day_of_year (st : St) (Y k w : Nat) (d : Int)
    (hst : st.state = S_YEAR ||| S_WDAY) (hyear : st.tm.tm_year = (Y : Int) - TM_YEAR_BASE)
    (hw : st.tm.tm_wday = w) (hk : st.week_offset = k) (hd : st.day_offset = d)
    (hd01 : d = TM_SUNDAY ∨ (d = TM_MONDAY ∧ 1 ≤ w)) (hw6 : w ≤ 6) :
    ∃ st1, derive_yday st = .ok st1 ∧
      (first_wday_of Y + st1.tm.tm_yday) % 7 = w ∧
      (st1.tm.tm_yday + 7 - ((w : Int) + 7 - d) % 7) / 7 = k := by
  obtain ⟨bp, tm, off, zone, sy, state, dof, wof⟩ := st
  simp only at hst hyear hw hk hd
  subst hst hk hd
  have hf := first_wday_of_nonneg (Y : Int) (Int.ofNat_nonneg Y)
  have hf0 : 0 ≤ first_wday_of (Y : Int) := by rw [hf]; exact Int.emod_nonneg _ (by decide)
  have hf7 : first_wday_of (Y : Int) < 7 := by rw [hf]; exact Int.emod_lt_of_pos _ (by decide)
  have hy : tm.tm_year + TM_YEAR_BASE = (Y : Int) := by rw [hyear]; simp [TM_YEAR_BASE]
  have hs : HAVE_YDAY (S_YEAR ||| S_WDAY) = false ∧ HAVE_YEAR (S_YEAR ||| S_WDAY) = true ∧
      HAVE_MON (S_YEAR ||| S_WDAY) = false ∧ HAVE_WDAY (S_YEAR ||| S_WDAY) = true := by decide
  have hne : dof ≠ -1 := by
    rcases hd01 with h | ⟨h, -⟩ <;> rw [h] <;> decide
  have hpos : 0 ≤ 7 - first_wday_of (Y : Int) + dof := by
    rcases hd01 with h | ⟨h, -⟩ <;> rw [h] <;> simp only [TM_SUNDAY, TM_MONDAY] <;> omega
  have e : derive_yday
      { bp := bp, tm := tm, tm_gmtoff := off, tm_zone := zone, split_year := sy,
        state := S_YEAR ||| S_WDAY, day_offset := dof, week_offset := (k : Int) } =
      .ok { bp := bp,
            tm := { tm with
                    tm_yday := (7 - first_wday_of (tm.tm_year + TM_YEAR_BASE) + dof).tmod 7 +
                      ((k : Int) - 1) * 7 + tm.tm_wday - dof },
            tm_gmtoff := off, tm_zone := zone, split_year := sy,
            state := S_YEAR ||| S_WDAY ||| S_YDAY, day_offset := dof,
            week_offset := (k : Int) } := by
    simp only [derive_yday, hs.1, hs.2.1, hs.2.2.1, hs.2.2.2, Bool.not_false, Bool.not_true,
      Bool.and_self, Bool.false_and, Bool.false_eq_true, if_true, if_false, ne_eq, hne,
      not_false_eq_true]
  refine ⟨_, e, ?_, ?_⟩
  · simp only [hy, hw, Int.tmod_eq_emod hpos (by decide : (0 : Int) ≤ 7)]
    rcases hd01 with h | ⟨h, -⟩ <;> rw [h] <;> simp only [TM_SUNDAY, TM_MONDAY] <;> omega
  · simp only [hy, hw, Int.tmod_eq_emod hpos (by decide : (0 : Int) ≤ 7)]
    rcases hd01 with h | ⟨h, h1⟩ <;> rw [h] <;> simp only [TM_SUNDAY, TM_MONDAY] <;> omega

/-- The Monday of week 2 of 2001 under `%W` is day 7 of the year, 8 January. -/
theorem week_day_of_year_witness :
    (first_wday_of (2001 : Nat) + 7) % 7 = (1 : Nat) ∧
      ((7 : Int) + 7 - (((1 : Nat) : Int) + 7 - 1) % 7) / 7 = (2 : Nat) := by
  obtain ⟨st1, h1, h2, h3⟩ := week_day_of_year
    { bp := 8, tm := { Tm.zero with tm_year := 101, tm_wday := 1 }, tm_gmtoff := 0,
      tm_zone := [], split_year := false, state := S_YEAR ||| S_WDAY, day_offset := 1,
      week_offset := 2 } 2001 2 1 1 rfl (by decide) rfl rfl rfl (Or.inr ⟨rfl, by decide⟩)
    (by decide)
  have : st1.tm.tm_yday = 7 := by
    have e : derive_yday
        { bp := 8, tm := { Tm.zero with tm_year := 101, tm_wday := 1 }, tm_gmtoff := 0,
          tm_zone := [], split_year := false, state := S_YEAR ||| S_WDAY, day_offset := 1,
          week_offset := 2 } =
        .ok { bp := 8, tm := { Tm.zero with tm_year := 101, tm_wday := 1, tm_yday := 7 },
              tm_gmtoff := 0, tm_zone := [], split_year := false,
              state := S_YEAR ||| S_WDAY ||| S_YDAY, day_offset := 1, week_offset := 2 } := by
      rfl
    rw [e] at h1
    cases h1
    rfl
  rw [this] at h2 h3
  exact ⟨h2, h3⟩

/-! ## C23: the lookups of the derivation pass -/

/-- C23. From a zero-initialised accumulator the input "2024 0" (week 0) parsed with
"%Y %U" has all its conversions succeed: the loop ends at position 6 with the year 124 and
the week number 0.  The derivation pass then computes the day of the year -1, the month
scan stops at once and stores the month index -1, and the day of the month asks for
`start_of_month[1][-1]`, an entry in front of the row: the call has undefined behaviour.
And the month scan of "2023 366" under "%Y %j" (day of the year 365 of a common year) finds
no entry above 365 in the 13 entries of its row. -/
theorem week_zero_stores_month_minus_one (env : Env) (off : Int) (zone : List Nat) :
    strptime_with_tz env (bytes "2024 0") (bytes "%Y %U") Tm.zero off zone =
        to_caller (derivation_pass
          { bp := 6, tm := { Tm.zero with tm_year := 124 }, tm_gmtoff := off, tm_zone := zone,
            split_year := false, state := S_YEAR, day_offset := 0, week_offset := 0 }) ∧
      (∃ st1 st2,
        derive_yday
          { bp := 6, tm := { Tm.zero with tm_year := 124 }, tm_gmtoff := off, tm_zone := zone,
            split_year := false, state := S_YEAR, day_offset := 0, week_offset := 0 } =
          .ok st1 ∧
        st1.tm.tm_yday = -1 ∧ derive_mon st1 = .ok st2 ∧ st2.tm.tm_mon = -1 ∧
        derive_mday st2 = .error .undefined) ∧
      strptime_with_tz env (bytes "2024 0") (bytes "%Y %U") Tm.zero off zone =
        .error .undefined ∧
      start_of_month_at (isleap_sum 124 TM_YEAR_BASE) (-1) = none ∧
      month_scan 365 (start_of_month_from (isleap_sum 123 TM_YEAR_BASE)) 0 = none := by
  have hb : bytes "2024 0" = [50, 48, 50, 52, 32, 48] := by decide
  have hf : bytes "%Y %U" = [37, 89, 32, 37, 85] := by decide
  have c1 : conv_num [50, 48, 50, 52, 32, 48] 0 0 9999 = some (4, 2024) := by decide
  have s1 : skip_space [50, 48, 50, 52, 32, 48] 4 = 5 := by decide
  have c2 : conv_num [50, 48, 50, 52, 32, 48] 5 0 53 = some (6, 0) := by decide
  have hloop : strptime_with_tz env (bytes "2024 0") (bytes "%Y %U") Tm.zero off zone =
      to_caller (derivation_pass
        { bp := 6, tm := { Tm.zero with tm_year := 124 }, tm_gmtoff := off, tm_zone := zone,
          split_year := false, state := S_YEAR, day_offset := 0, week_offset := 0 }) := by
    rw [hb, hf]
    simp +decide [strptime_with_tz, -to_caller, strptime_depth, go, St.init, elementary,
      composite, c1, s1, c2, isspace, LEGAL_ALT, illegal_alt, ALT_E, ALT_O, S_YEAR,
      TM_YEAR_BASE, TM_MONDAY, TM_SUNDAY, Tm.zero]
  have h1 : derive_yday
      { bp := 6, tm := { Tm.zero with tm_year := 124 }, tm_gmtoff := off, tm_zone := zone,
        split_year := false, state := S_YEAR, day_offset := 0, week_offset := 0 } =
      .ok { bp := 6, tm := { Tm.zero with tm_year := 124, tm_wday := 0, tm_yday := -1 },
            tm_gmtoff := off, tm_zone := zone, split_year := false,
            state := S_YEAR ||| S_WDAY ||| S_YDAY, day_offset := 0, week_offset := 0 } := by
    simp +decide [derive_yday, HAVE_YDAY, HAVE_YEAR, HAVE_MON, HAVE_MDAY, HAVE_WDAY, S_YEAR,
      S_MON, S_MDAY, S_YDAY, S_WDAY, TM_YEAR_BASE, first_wday_of, isleap, Tm.zero]
  have h2 : derive_mon
      { bp := 6, tm := { Tm.zero with tm_year := 124, tm_wday := 0, tm_yday := -1 },
        tm_gmtoff := off, tm_zone := zone, split_year := false,
        state := S_YEAR ||| S_WDAY ||| S_YDAY, day_offset := 0, week_offset := 0 } =
      .ok { bp := 6,
            tm := { Tm.zero with tm_year := 124, tm_wday := 0, tm_yday := -1, tm_mon := -1 },
            tm_gmtoff := off, tm_zone := zone, split_year := false,
            state := S_YEAR ||| S_WDAY ||| S_YDAY ||| S_MON, day_offset := 0,
            week_offset := 0 } := by
    simp +decide [derive_mon, HAVE_MON, S_YEAR, S_MON, S_YDAY, S_WDAY, TM_YEAR_BASE,
      start_of_month_from, start_of_month, month_scan, isleap, isleap_sum, Tm.zero]
  have h3 : derive_mday
      { bp := 6,
        tm := { Tm.zero with tm_year := 124, tm_wday := 0, tm_yday := -1, tm_mon := -1 },
        tm_gmtoff := off, tm_zone := zone, split_year := false,
        state := S_YEAR ||| S_WDAY ||| S_YDAY ||| S_MON, day_offset := 0,
        week_offset := 0 } = .error .undefined := by
    simp +decide [derive_mday, HAVE_MDAY, S_YEAR, S_MON, S_MDAY, S_YDAY, S_WDAY, TM_YEAR_BASE,
      start_of_month_at, isleap, isleap_sum, Tm.zero]
  have hpass : derivation_pass
      { bp := 6, tm := { Tm.zero with tm_year := 124 }, tm_gmtoff := off, tm_zone := zone,
        split_year := false, state := S_YEAR, day_offset := 0, week_offset := 0 } =
      .error .undefined := by
    have hs : (HAVE_YDAY (S_YEAR ||| S_WDAY ||| S_YDAY) &&
        HAVE_YEAR (S_YEAR ||| S_WDAY ||| S_YDAY)) = true := by decide
    simp only [derivation_pass, h1, hs, if_true, h2, h3]
  refine ⟨hloop, ⟨_, _, h1, rfl, h2, rfl, h3⟩, ?_, by decide, by decide⟩
  rw [hloop, hpass]
  rfl

end StrptimeTz
